import Mathlib

set_option maxHeartbeats 1000000

namespace SwingTrading

/-- Scalar value of a pandas float cell: the missing-value marker NaN, a
signed infinity (`inf true` is +∞), or a finite number.  This models the
IEEE-754 special values that the numpy/pandas arithmetic in
`src/SwingTrading.py` can produce. -/
inductive FV (α : Type) where
  | nan : FV α
  | inf : Bool → FV α
  | fin : α → FV α
deriving DecidableEq

namespace FV

/-- IEEE-style addition: NaN propagates, opposite infinities give NaN. -/
def add {α : Type} [Add α] : FV α → FV α → FV α
  | nan, _ => nan
  | _, nan => nan
  | inf b, inf c => if b = c then inf b else nan
  | inf b, fin _ => inf b
  | fin _, inf c => inf c
  | fin a, fin b => fin (a + b)

/-- IEEE-style subtraction: NaN propagates, ∞ − ∞ is NaN. -/
def sub {α : Type} [Sub α] : FV α → FV α → FV α
  | nan, _ => nan
  | _, nan => nan
  | inf b, inf c => if b = !c then inf b else nan
  | inf b, fin _ => inf b
  | fin _, inf c => inf !c
  | fin a, fin b => fin (a - b)

/-- IEEE-style division on rationals, as numpy performs it on float64:
a nonzero finite value divided by (positive) zero is a signed infinity,
0/0 is NaN, a finite value divided by infinity is 0. -/
def div : FV ℚ → FV ℚ → FV ℚ
  | nan, _ => nan
  | _, nan => nan
  | inf _, inf _ => nan
  | fin _, inf _ => fin (0 : ℚ)
  | inf b, fin c => if c = 0 then inf b else if 0 < c then inf b else inf !b
  | fin a, fin b =>
      if b = 0 then (if a = 0 then nan else inf (decide (0 < a)))
      else fin (a / b)

/-- Scaling a real-valued cell by a rational constant (used for the
`2 * std` term of the Bollinger bands). -/
def smul (q : ℚ) : FV ℝ → FV ℝ
  | nan => nan
  | inf b => if 0 < q then inf b else if q < 0 then inf !b else nan
  | fin r => fin ((q : ℝ) * r)

/-- Map a function over the finite part of a cell. -/
def map {α β : Type} (f : α → β) : FV α → FV β
  | nan => nan
  | inf b => inf b
  | fin a => fin (f a)

/-- IEEE-style binary maximum on rational cells (NaN propagates, as it
does for a pandas rolling window whose count is below `min_periods`). -/
def fmax : FV ℚ → FV ℚ → FV ℚ
  | nan, _ => nan
  | _, nan => nan
  | inf b, inf c => inf (b || c)
  | inf b, fin a => if b then inf true else fin a
  | fin a, inf b => if b then inf true else fin a
  | fin a, fin b => fin (max a b)

/-- IEEE-style binary minimum on rational cells. -/
def fmin : FV ℚ → FV ℚ → FV ℚ
  | nan, _ => nan
  | _, nan => nan
  | inf b, inf c => inf (b && c)
  | inf b, fin a => if b then fin a else inf false
  | fin a, inf b => if b then fin a else inf false
  | fin a, fin b => fin (min a b)

/-- Strict greater-than comparison with numpy semantics: any comparison
involving NaN is `false`. -/
def gtb : FV ℚ → FV ℚ → Bool
  | nan, _ => false
  | _, nan => false
  | inf b, inf c => b && !c
  | inf b, fin _ => b
  | fin _, inf c => !c
  | fin a, fin b => decide (b < a)

end FV

/-- Arithmetic mean of a list, as `Series.mean` computes it on a full
window (sum divided by count). -/
def meanQ (xs : List ℚ) : ℚ := xs.sum / (xs.length : ℚ)

/-- Sample variance with one delta degree of freedom, the quantity whose
square root `Series.rolling(w).std()` reports (pandas default `ddof=1`). -/
def sampleVar (xs : List ℚ) : ℚ :=
  (xs.map (fun x => (x - meanQ xs) ^ 2)).sum / ((xs.length : ℚ) - 1)

/-- Sample standard deviation, the reducer of `rolling(w).std()`. -/
noncomputable def sampleStd (xs : List ℚ) : ℝ := Real.sqrt (sampleVar xs)

/-- Maximum of a list, as Python's `max` on a nonempty window. -/
def listMax : List ℚ → ℚ
  | [] => 0
  | x :: t => t.foldl max x

/-- Minimum of a list, as Python's `min` on a nonempty window. -/
def listMin : List ℚ → ℚ
  | [] => 0
  | x :: t => t.foldl min x

/-- First index of a value in a list, as Python's `list.index`. -/
def idxOfQ (a : ℚ) : List ℚ → Nat
  | [] => 0
  | x :: t => if x = a then 0 else idxOfQ a t + 1

/-- The trailing window of length `w` ending at row `i`: rows
`i-w+1 .. i` of the column (pandas `rolling(w)` window). -/
def windowAt (w i : Nat) {α : Type} (xs : List α) : List α :=
  (xs.take (i + 1)).drop (i + 1 - w)

/-- Semantics of `Series.rolling(w).agg(f)` with the default
`min_periods = w` on an all-finite column: NaN for the first `w-1` rows,
and the reducer applied to the trailing `w`-row window afterwards.
This embeds the `.rolling(w).mean() / .std() / .max() / .min()` and
`.rolling(w).apply(...)` calls of `src/SwingTrading.py`. -/
def rollingR {α : Type} (w : Nat) (f : List ℚ → α) (xs : List ℚ) : List (FV α) :=
  (List.range xs.length).map
    (fun i => if i + 1 < w then FV.nan else FV.fin (f (windowAt w i xs)))

/-- Moving-average column `MA_w` of `add_moving_averages`
(src/SwingTrading.py lines 129-134): `Close.rolling(w).mean()`. -/
def maCol (w : Nat) (cl : List ℚ) : List (FV ℚ) := rollingR w meanQ cl

/-- Volatility column `Vol_w` of `add_volatility`
(src/SwingTrading.py lines 225-230): `Close.rolling(w).std()`, i.e. the
square root of the sample variance of each full trailing window. -/
noncomputable def volCol (w : Nat) (cl : List ℚ) : List (FV ℝ) :=
  (rollingR w sampleVar cl).map (FV.map (fun v : ℚ => Real.sqrt (v : ℝ)))

/-- The 25-row example column of the spec: closes 1,2,…,25. -/
def closes25 : List ℚ :=
  [1, 2, 3, 4, 5, 6, 7, 8, 9, 10, 11, 12, 13, 14, 15, 16, 17, 18, 19, 20,
   21, 22, 23, 24, 25]

-- Basic length facts.

theorem length_rollingR {α : Type} (w : Nat) (f : List ℚ → α) (xs : List ℚ) :
    (rollingR w f xs).length = xs.length := by
  simp [rollingR]

theorem length_maCol (w : Nat) (cl : List ℚ) : (maCol w cl).length = cl.length := by
  simp [maCol, length_rollingR]

theorem length_volCol (w : Nat) (cl : List ℚ) : (volCol w cl).length = cl.length := by
  simp [volCol, length_rollingR]

-- Index characterization of the rolling combinator.

theorem rollingR_getElem {α : Type} (w : Nat) (f : List ℚ → α) (xs : List ℚ)
    (i : Nat) (hi : i < xs.length) :
    (rollingR w f xs)[i]? =
      some (if i + 1 < w then FV.nan else FV.fin (f (windowAt w i xs))) := by
  simp [rollingR, List.getElem?_map, List.getElem?_range, hi]

theorem windowAt_length {α : Type} (w i : Nat) (xs : List α)
    (hw : w ≤ i + 1) (hi : i < xs.length) :
    (windowAt w i xs).length = w := by
  simp [windowAt]
  omega

theorem windowAt_getElem {α : Type} (w i : Nat) (xs : List α)
    (hw : w ≤ i + 1) (hi : i < xs.length) (j : Nat) (hj : j < w) :
    (windowAt w i xs)[j]? = xs[i + 1 - w + j]? := by
  have h1 : i + 1 - w + j < (xs.take (i + 1)).length := by
    simp [List.length_take]
    omega
  simp only [windowAt, List.getElem?_drop]
  rw [List.getElem?_take_of_lt (by omega)]

-- Facts about list maxima / minima / first index, used by the
-- forward-window and rescaling claims.

theorem le_foldl_max (t : List ℚ) (x : ℚ) : x ≤ t.foldl max x := by
  induction t generalizing x with
  | nil => simp
  | cons z t ih => exact le_trans (le_max_left x z) (ih (max x z))

theorem foldl_min_le (t : List ℚ) (x : ℚ) : t.foldl min x ≤ x := by
  induction t generalizing x with
  | nil => simp
  | cons z t ih => exact le_trans (ih (min x z)) (min_le_left x z)

theorem listMax_foldl_mem (t : List ℚ) (x : ℚ) : t.foldl max x ∈ x :: t := by
  induction t generalizing x with
  | nil => simp
  | cons y t ih =>
    have h := ih (max x y)
    simp only [List.foldl_cons, List.mem_cons] at h ⊢
    rcases h with h | h
    · rcases max_choice x y with hm | hm
      · exact Or.inl (h.trans hm)
      · exact Or.inr (Or.inl (h.trans hm))
    · exact Or.inr (Or.inr h)

theorem listMax_mem (xs : List ℚ) (h : xs ≠ []) : listMax xs ∈ xs := by
  cases xs with
  | nil => simp at h
  | cons x t => exact listMax_foldl_mem t x

theorem le_listMax_foldl (t : List ℚ) (x y : ℚ) (hy : y ∈ x :: t) :
    y ≤ t.foldl max x := by
  induction t generalizing x with
  | nil =>
    have hyx : y = x := by simpa using hy
    simp [hyx]
  | cons z t ih =>
    simp only [List.mem_cons] at hy
    simp only [List.foldl_cons]
    rcases hy with h | h | h
    · rw [h]
      exact le_trans (le_max_left x z) (le_foldl_max t (max x z))
    · rw [h]
      exact le_trans (le_max_right x z) (le_foldl_max t (max x z))
    · exact ih (max x z) (List.mem_cons_of_mem _ h)

theorem le_listMax (xs : List ℚ) (y : ℚ) (hy : y ∈ xs) : y ≤ listMax xs := by
  cases xs with
  | nil => simp at hy
  | cons x t => exact le_listMax_foldl t x y hy

theorem listMin_foldl_mem (t : List ℚ) (x : ℚ) : t.foldl min x ∈ x :: t := by
  induction t generalizing x with
  | nil => simp
  | cons y t ih =>
    have h := ih (min x y)
    simp only [List.foldl_cons, List.mem_cons] at h ⊢
    rcases h with h | h
    · rcases min_choice x y with hm | hm
      · exact Or.inl (h.trans hm)
      · exact Or.inr (Or.inl (h.trans hm))
    · exact Or.inr (Or.inr h)

theorem listMin_mem (xs : List ℚ) (h : xs ≠ []) : listMin xs ∈ xs := by
  cases xs with
  | nil => simp at h
  | cons x t => exact listMin_foldl_mem t x

theorem listMin_foldl_le (t : List ℚ) (x y : ℚ) (hy : y ∈ x :: t) :
    t.foldl min x ≤ y := by
  induction t generalizing x with
  | nil =>
    have hyx : y = x := by simpa using hy
    simp [hyx]
  | cons z t ih =>
    simp only [List.mem_cons] at hy
    simp only [List.foldl_cons]
    rcases hy with h | h | h
    · rw [h]
      exact le_trans (foldl_min_le t (min x z)) (min_le_left x z)
    · rw [h]
      exact le_trans (foldl_min_le t (min x z)) (min_le_right x z)
    · exact ih (min x z) (List.mem_cons_of_mem _ h)

theorem listMin_le (xs : List ℚ) (y : ℚ) (hy : y ∈ xs) : listMin xs ≤ y := by
  cases xs with
  | nil => simp at hy
  | cons x t => exact listMin_foldl_le t x y hy

theorem idxOfQ_lt_length (a : ℚ) (xs : List ℚ) (h : a ∈ xs) :
    idxOfQ a xs < xs.length := by
  induction xs with
  | nil => simp at h
  | cons x t ih =>
    by_cases hx : x = a
    · simp [idxOfQ, hx]
    · have ht : a ∈ t := by
        rcases List.mem_cons.mp h with h1 | h1
        · exact absurd h1.symm hx
        · exact h1
      simp only [idxOfQ, if_neg hx, List.length_cons]
      exact Nat.succ_lt_succ (ih ht)

theorem idxOfQ_getElem (a : ℚ) (xs : List ℚ) (h : a ∈ xs) :
    xs[idxOfQ a xs]? = some a := by
  induction xs with
  | nil => simp at h
  | cons x t ih =>
    by_cases hx : x = a
    · simp [idxOfQ, hx]
    · have ht : a ∈ t := by
        rcases List.mem_cons.mp h with h1 | h1
        · exact absurd h1.symm hx
        · exact h1
      simp only [idxOfQ, if_neg hx]
      simpa using ih ht

theorem idxOfQ_first (a : ℚ) (xs : List ℚ) (j : Nat) (hj : j < idxOfQ a xs) :
    xs[j]? ≠ some a := by
  induction xs generalizing j with
  | nil => simp [idxOfQ] at hj
  | cons x t ih =>
    by_cases hx : x = a
    · simp [idxOfQ, hx] at hj
    · simp only [idxOfQ, if_neg hx] at hj
      cases j with
      | zero => simp [hx]
      | succ j => simpa using ih j (by omega)

/-- C1.  For every windowed-statistic column produced by
`add_moving_averages` and `add_volatility` (`MA_w` = rolling mean of
Close, `Vol_w` = rolling standard deviation of Close, for
w ∈ {5,10,20,50,100,200}): the value at row `i` is undefined (NaN) for
every `i < w-1`, and for every `i ≥ w-1` it equals the reducer (mean,
resp. sample standard deviation) applied to exactly the `w` source
values at rows `i-w+1 .. i`; in particular, on the 25-row column whose
closes are 1..25, `MA_5` at index 24 equals 23 and `MA_5` at indices
0–3 is undefined. -/
theorem C1_windowed_statistics :
    (∀ (cl : List ℚ) (w i : Nat),
        (w = 5 ∨ w = 10 ∨ w = 20 ∨ w = 50 ∨ w = 100 ∨ w = 200) →
        i < cl.length →
        ((i + 1 < w →
            (maCol w cl)[i]? = some FV.nan ∧ (volCol w cl)[i]? = some FV.nan) ∧
         (w ≤ i + 1 →
            (maCol w cl)[i]? = some (FV.fin (meanQ (windowAt w i cl))) ∧
            (volCol w cl)[i]? = some (FV.fin (sampleStd (windowAt w i cl))) ∧
            (windowAt w i cl).length = w ∧
            ∀ j, j < w → (windowAt w i cl)[j]? = cl[i + 1 - w + j]?))) ∧
    ((maCol 5 closes25)[24]? = some (FV.fin 23) ∧
     ∀ i, i < 4 → (maCol 5 closes25)[i]? = some FV.nan) := by
  constructor
  · intro cl w i _ hi
    constructor
    · intro hw
      have h1 := rollingR_getElem w meanQ cl i hi
      have h2 := rollingR_getElem w sampleVar cl i hi
      rw [if_pos hw] at h1 h2
      refine ⟨by simpa [maCol] using h1, ?_⟩
      simp [volCol, List.getElem?_map, h2, FV.map]
    · intro hw
      have hnot : ¬ (i + 1 < w) := by omega
      have h1 := rollingR_getElem w meanQ cl i hi
      have h2 := rollingR_getElem w sampleVar cl i hi
      rw [if_neg hnot] at h1 h2
      refine ⟨by simpa [maCol] using h1, ?_, windowAt_length w i cl hw hi, ?_⟩
      · simp [volCol, List.getElem?_map, h2, FV.map, sampleStd]
      · intro j hj
        exact windowAt_getElem w i cl hw hi j hj
  · have hl : closes25.length = 25 := rfl
    constructor
    · have h := rollingR_getElem 5 meanQ closes25 24 (by rw [hl]; omega)
      rw [if_neg (by omega)] at h
      have hwin : windowAt 5 24 closes25 = [21, 22, 23, 24, 25] := by rfl
      rw [hwin] at h
      have hm : meanQ [(21 : ℚ), 22, 23, 24, 25] = 23 := by
        simp [meanQ]
        norm_num
      rw [hm] at h
      simpa [maCol] using h
    · intro i hi
      have h := rollingR_getElem 5 meanQ closes25 i (by rw [hl]; omega)
      rw [if_pos (by omega)] at h
      simpa [maCol] using h

-- Exponentially weighted means.  `Series.ewm(span=s).mean()` uses the
-- pandas default `adjust=True`, i.e. the weighted average
-- y_i = Σ_j (1-α)^j x_{i-j} / Σ_j (1-α)^j with α = 2/(s+1).

/-- Decay coefficient of `ewm(span=s)`: α = 2/(s+1). -/
def ewmAlpha (s : Nat) : ℚ := 2 / ((s : ℚ) + 1)

/-- Running recursion `y_i = x_i + r · y_{i-1}` (with `y_{-1} = acc`),
the numerator/denominator accumulator of the adjusted EWM. -/
def ewmScan (r acc : ℚ) : List ℚ → List ℚ
  | [] => []
  | x :: t => (x + r * acc) :: ewmScan r (x + r * acc) t

/-- Semantics of `Series.ewm(span=s).mean()` with the pandas default
`adjust=True` (as used by `add_macd`, src/SwingTrading.py lines 162-165):
element-wise quotient of the weighted sums of values and of weights. -/
def ewmAdj (s : Nat) (xs : List ℚ) : List ℚ :=
  List.zipWith (fun a b => a / b) (ewmScan (1 - ewmAlpha s) 0 xs)
    (ewmScan (1 - ewmAlpha s) 0 (List.replicate xs.length 1))

/-- Total weight Σ_{j≤i} (1-α)^j at each row, the denominator of the
adjusted EWM. -/
def wgt (s n : Nat) : List ℚ := ewmScan (1 - ewmAlpha s) 0 (List.replicate n 1)

/-- Column `EMA_12` of `add_macd` (line 162). -/
def ema12 (cl : List ℚ) : List ℚ := ewmAdj 12 cl

/-- Column `EMA_26` of `add_macd` (line 163). -/
def ema26 (cl : List ℚ) : List ℚ := ewmAdj 26 cl

/-- Column `MACD` of `add_macd` (line 164): `EMA_12 - EMA_26`. -/
def macdList (cl : List ℚ) : List ℚ :=
  List.zipWith (fun a b => a - b) (ema12 cl) (ema26 cl)

/-- Column `Signal_Line` of `add_macd` (line 165): span-9 EWM of MACD. -/
def signalLine (cl : List ℚ) : List ℚ := ewmAdj 9 (macdList cl)

/-- Total index read with default 0, used to state arithmetic relations
between columns without option plumbing. -/
def nthQ (xs : List ℚ) (i : Nat) : ℚ := xs.getD i 0

theorem length_ewmScan (r acc : ℚ) (xs : List ℚ) :
    (ewmScan r acc xs).length = xs.length := by
  induction xs generalizing acc with
  | nil => rfl
  | cons x t ih => simp [ewmScan, ih]

theorem length_ewmAdj (s : Nat) (xs : List ℚ) :
    (ewmAdj s xs).length = xs.length := by
  simp [ewmAdj, length_ewmScan]

theorem ewmScan_getD_zero (r acc : ℚ) (x : ℚ) (t : List ℚ) :
    (ewmScan r acc (x :: t)).getD 0 0 = x + r * acc := by
  simp [ewmScan]

theorem ewmScan_getD_succ (r acc : ℚ) (xs : List ℚ) (i : Nat)
    (h : i + 1 < xs.length) :
    (ewmScan r acc xs).getD (i + 1) 0 =
      xs.getD (i + 1) 0 + r * (ewmScan r acc xs).getD i 0 := by
  induction xs generalizing acc i with
  | nil => simp at h
  | cons x t ih =>
    cases i with
    | zero =>
      cases t with
      | nil => simp at h
      | cons y u => simp [ewmScan]
    | succ j =>
      have hj : j + 1 < t.length := by simpa using h
      simpa [ewmScan] using ih (x + r * acc) j hj

theorem ewmScan_replicate_ge_one (r acc : ℚ) (hr : 0 ≤ r) (ha : 0 ≤ acc)
    (n i : Nat) (hi : i < n) :
    1 ≤ (ewmScan r acc (List.replicate n 1)).getD i 0 := by
  induction n generalizing acc i with
  | zero => omega
  | succ m ih =>
    rw [List.replicate_succ]
    cases i with
    | zero =>
      have : 0 ≤ r * acc := mul_nonneg hr ha
      simp [ewmScan]
      linarith
    | succ j =>
      have hacc : (0 : ℚ) ≤ 1 + r * acc := by
        have : 0 ≤ r * acc := mul_nonneg hr ha
        linarith
      simpa [ewmScan] using ih (1 + r * acc) hacc j (by omega)

theorem getD_zipWith (f : ℚ → ℚ → ℚ) (as bs : List ℚ) (i : Nat)
    (ha : i < as.length) (hb : i < bs.length) :
    (List.zipWith f as bs).getD i 0 = f (as.getD i 0) (bs.getD i 0) := by
  induction as generalizing bs i with
  | nil => simp at ha
  | cons a at' ih =>
    cases bs with
    | nil => simp at hb
    | cons b bt =>
      cases i with
      | zero => simp
      | succ j =>
        simpa using ih bt j (by simpa using ha) (by simpa using hb)

theorem ewmAlpha_le_one (s : Nat) (hs : 1 ≤ s) : ewmAlpha s ≤ 1 := by
  rw [ewmAlpha, div_le_one (by positivity)]
  have : (1 : ℚ) ≤ (s : ℚ) := by exact_mod_cast hs
  linarith

theorem ewmAdj_zero (s : Nat) (xs : List ℚ) : (ewmAdj s xs)[0]? = xs[0]? := by
  cases xs with
  | nil => simp [ewmAdj, ewmScan]
  | cons x t => simp [ewmAdj, ewmScan, List.replicate_succ]

theorem ewmAdj_rec (s : Nat) (hs : 1 ≤ s) (xs : List ℚ) (i : Nat)
    (h : i + 1 < xs.length) :
    nthQ (ewmAdj s xs) (i + 1) * nthQ (wgt s xs.length) (i + 1) =
      nthQ xs (i + 1) +
        (1 - ewmAlpha s) * (nthQ (ewmAdj s xs) i * nthQ (wgt s xs.length) i) := by
  have hr : 0 ≤ 1 - ewmAlpha s := by
    have := ewmAlpha_le_one s hs
    linarith
  have hlenN : (ewmScan (1 - ewmAlpha s) 0 xs).length = xs.length :=
    length_ewmScan _ _ _
  have hlenD : (ewmScan (1 - ewmAlpha s) 0 (List.replicate xs.length 1)).length
      = xs.length := by
    rw [length_ewmScan, List.length_replicate]
  have hd0 : 1 ≤ nthQ (wgt s xs.length) i :=
    ewmScan_replicate_ge_one _ 0 hr le_rfl xs.length i (by omega)
  have hd1 : 1 ≤ nthQ (wgt s xs.length) (i + 1) :=
    ewmScan_replicate_ge_one _ 0 hr le_rfl xs.length (i + 1) (by omega)
  have hv0 : nthQ (ewmAdj s xs) i =
      nthQ (ewmScan (1 - ewmAlpha s) 0 xs) i / nthQ (wgt s xs.length) i := by
    simpa [nthQ, ewmAdj, wgt] using
      getD_zipWith (fun a b => a / b) _ _ i (by omega) (by omega)
  have hv1 : nthQ (ewmAdj s xs) (i + 1) =
      nthQ (ewmScan (1 - ewmAlpha s) 0 xs) (i + 1) /
        nthQ (wgt s xs.length) (i + 1) := by
    simpa [nthQ, ewmAdj, wgt] using
      getD_zipWith (fun a b => a / b) _ _ (i + 1) (by omega) (by omega)
  have hnum : nthQ (ewmScan (1 - ewmAlpha s) 0 xs) (i + 1) =
      nthQ xs (i + 1) +
        (1 - ewmAlpha s) * nthQ (ewmScan (1 - ewmAlpha s) 0 xs) i := by
    simpa [nthQ] using ewmScan_getD_succ (1 - ewmAlpha s) 0 xs i h
  rw [hv0, hv1, div_mul_cancel₀ _ (by linarith), hnum,
    div_mul_cancel₀ _ (by linarith)]

/-- C2 (amended).  The EWM columns of `add_macd` satisfy the pandas
`adjust=True` weighted recursion: `R[0] = C[0]`, and for `i > 0`,
`R[i]·W[i] = C[i] + (1-α)·R[i-1]·W[i-1]` where `W[i] = Σ_{j≤i} (1-α)^j`
and `α = 2/(s+1)`; the claim's plain recursion
`R[i] = α·C[i] + (1-α)·R[i-1]` does not hold for this code. -/
theorem C2_adjusted_ewm (cl : List ℚ) :
    ((ema12 cl)[0]? = cl[0]? ∧ (ema26 cl)[0]? = cl[0]? ∧
      (signalLine cl)[0]? = (macdList cl)[0]?) ∧
    (∀ i, i + 1 < cl.length →
      nthQ (ema12 cl) (i + 1) * nthQ (wgt 12 cl.length) (i + 1) =
        nthQ cl (i + 1) +
          (1 - ewmAlpha 12) * (nthQ (ema12 cl) i * nthQ (wgt 12 cl.length) i)) ∧
    (∀ i, i + 1 < cl.length →
      nthQ (ema26 cl) (i + 1) * nthQ (wgt 26 cl.length) (i + 1) =
        nthQ cl (i + 1) +
          (1 - ewmAlpha 26) * (nthQ (ema26 cl) i * nthQ (wgt 26 cl.length) i)) ∧
    (∀ i, i + 1 < (macdList cl).length →
      nthQ (signalLine cl) (i + 1) *
          nthQ (wgt 9 (macdList cl).length) (i + 1) =
        nthQ (macdList cl) (i + 1) +
          (1 - ewmAlpha 9) *
            (nthQ (signalLine cl) i * nthQ (wgt 9 (macdList cl).length) i)) := by
  refine ⟨⟨ewmAdj_zero 12 cl, ewmAdj_zero 26 cl, ewmAdj_zero 9 (macdList cl)⟩,
    ?_, ?_, ?_⟩
  · intro i h
    exact ewmAdj_rec 12 (by omega) cl i h
  · intro i h
    exact ewmAdj_rec 26 (by omega) cl i h
  · intro i h
    exact ewmAdj_rec 9 (by omega) (macdList cl) i h

/-- Counterexample to C2 as stated: on the two-row close column `[0, 1]`,
`EMA_12` at row 1 is 13/24 (adjusted weighting), while the claimed
recursion `α·C[1] + (1-α)·R[0]` gives 2/13; the two differ by more than
1/3, far beyond floating-point tolerance. -/
theorem C2_counterexample :
    (ema12 [0, 1])[1]? = some (13 / 24) ∧
    ewmAlpha 12 * 1 + (1 - ewmAlpha 12) * 0 = 2 / 13 ∧
    (13 / 24 : ℚ) ≠ 2 / 13 ∧
    1 / 3 < |(13 / 24 : ℚ) - 2 / 13| := by
  refine ⟨?_, by norm_num [ewmAlpha], by norm_num, by rw [abs_of_pos] <;> norm_num⟩
  norm_num [ema12, ewmAdj, ewmScan, ewmAlpha, List.replicate]

/-- Witness for the amended C2 at a concrete input: the weighted
recursion at row 1 of the close column `[0, 1]`. -/
theorem C2_witness :
    0 + 1 < ([0, 1] : List ℚ).length ∧
    nthQ (ema12 [0, 1]) (0 + 1) * nthQ (wgt 12 ([0, 1] : List ℚ).length) (0 + 1) =
      nthQ [0, 1] (0 + 1) +
        (1 - ewmAlpha 12) *
          (nthQ (ema12 [0, 1]) 0 * nthQ (wgt 12 ([0, 1] : List ℚ).length) 0) :=
  ⟨by norm_num, (C2_adjusted_ewm [0, 1]).2.1 0 (by norm_num)⟩

-- Forward rolling extremum columns of `add_rolling_columns`
-- (src/SwingTrading.py lines 70-88): a trailing rolling reduction whose
-- first `rows_forward` entries are dropped and whose tail is padded with
-- `rows_forward` NaNs.

/-- Column `High_{n}` of `add_rolling_columns` (lines 71-76):
`list(High.rolling(n).max())[n:] + [nan]*n`. -/
def fwdMaxCol (n : Nat) (xs : List ℚ) : List (FV ℚ) :=
  (rollingR n listMax xs).drop n ++ List.replicate n FV.nan

/-- Column `High_forward_{n}` of `add_rolling_columns` (lines 72-78):
the rolling reducer `list(x).index(max(x)) + 1`, shifted the same way. -/
def fwdMaxLag (n : Nat) (xs : List ℚ) : List (FV ℚ) :=
  (rollingR n (fun w => (idxOfQ (listMax w) w : ℚ) + 1) xs).drop n ++
    List.replicate n FV.nan

/-- Column `Low_{n}` of `add_rolling_columns` (lines 80-86). -/
def fwdMinCol (n : Nat) (xs : List ℚ) : List (FV ℚ) :=
  (rollingR n listMin xs).drop n ++ List.replicate n FV.nan

/-- Column `Low_forward_{n}` of `add_rolling_columns` (lines 82-88). -/
def fwdMinLag (n : Nat) (xs : List ℚ) : List (FV ℚ) :=
  (rollingR n (fun w => (idxOfQ (listMin w) w : ℚ) + 1) xs).drop n ++
    List.replicate n FV.nan

theorem drop_pad_getElem_lt {α : Type} (A : List α) (pad : α) (n i : Nat)
    (h : i + n < A.length) :
    ((A.drop n) ++ List.replicate n pad)[i]? = A[i + n]? := by
  rw [List.getElem?_append, if_pos (by simp [List.length_drop]; omega)]
  rw [List.getElem?_drop]
  congr 1
  omega

theorem drop_pad_getElem_ge {α : Type} (A : List α) (pad : α) (n i : Nat)
    (hn : n ≤ A.length) (hle : A.length - n ≤ i) (hlt : i < A.length) :
    ((A.drop n) ++ List.replicate n pad)[i]? = some pad := by
  rw [List.getElem?_append, if_neg (by simp [List.length_drop]; omega)]
  simp only [List.length_drop, List.getElem?_replicate]
  rw [if_pos (by omega)]

theorem rollingR_drop_pad_lt {α : Type} (n : Nat) (f : List ℚ → α)
    (xs : List ℚ) (i : Nat) (h : i + n < xs.length) :
    ((rollingR n f xs).drop n ++ List.replicate n FV.nan)[i]? =
      some (FV.fin (f (windowAt n (i + n) xs))) := by
  rw [drop_pad_getElem_lt _ _ n i (by rw [length_rollingR]; omega)]
  rw [rollingR_getElem n f xs (i + n) (by omega)]
  rw [if_neg (by omega)]

theorem rollingR_drop_pad_ge {α : Type} (n : Nat) (f : List ℚ → α)
    (xs : List ℚ) (i : Nat) (hn : n ≤ xs.length) (hle : xs.length - n ≤ i)
    (hlt : i < xs.length) :
    ((rollingR n f xs).drop n ++ List.replicate n FV.nan)[i]? =
      some FV.nan :=
  drop_pad_getElem_ge _ _ n i (by rw [length_rollingR]; omega)
    (by rw [length_rollingR]; omega) (by rw [length_rollingR]; omega)

/-- C3 (amended).  For `add_rolling_columns` with forward window `n` on
an N-row table, for every `i ≤ N-1-n`: the rolling-max column `High_n`
at row `i` equals the maximum of the rows `i+1 .. i+n` of High (the
window excludes the current row, one step later than the claim's
`i .. i+n-1`), and `High_forward_n` at row `i` is the smallest 1-based
offset `k` such that `High[i+k]` equals that maximum (first occurrence
wins on ties); symmetrically for the Low/minimum pair; the last `n` rows
of all four columns are NaN. -/
theorem C3_forward_extremum (hi lo : List ℚ) (n : Nat) (hn : 1 ≤ n) :
    (∀ i, i + n < hi.length →
      (fwdMaxCol n hi)[i]? = some (FV.fin (listMax (windowAt n (i + n) hi))) ∧
      (windowAt n (i + n) hi).length = n ∧
      (∀ j, j < n → (windowAt n (i + n) hi)[j]? = hi[i + 1 + j]?) ∧
      (fwdMaxLag n hi)[i]? =
        some (FV.fin
          ((idxOfQ (listMax (windowAt n (i + n) hi)) (windowAt n (i + n) hi) : ℚ)
            + 1)) ∧
      (1 ≤ idxOfQ (listMax (windowAt n (i + n) hi)) (windowAt n (i + n) hi) + 1 ∧
       idxOfQ (listMax (windowAt n (i + n) hi)) (windowAt n (i + n) hi) + 1 ≤ n ∧
       hi[i + (idxOfQ (listMax (windowAt n (i + n) hi)) (windowAt n (i + n) hi) + 1)]?
          = some (listMax (windowAt n (i + n) hi)) ∧
       ∀ k', 1 ≤ k' →
         k' < idxOfQ (listMax (windowAt n (i + n) hi)) (windowAt n (i + n) hi) + 1 →
         hi[i + k']? ≠ some (listMax (windowAt n (i + n) hi)))) ∧
    (n ≤ hi.length → ∀ i, hi.length - n ≤ i → i < hi.length →
      (fwdMaxCol n hi)[i]? = some FV.nan ∧ (fwdMaxLag n hi)[i]? = some FV.nan) ∧
    (∀ i, i + n < lo.length →
      (fwdMinCol n lo)[i]? = some (FV.fin (listMin (windowAt n (i + n) lo))) ∧
      (∀ j, j < n → (windowAt n (i + n) lo)[j]? = lo[i + 1 + j]?) ∧
      (fwdMinLag n lo)[i]? =
        some (FV.fin
          ((idxOfQ (listMin (windowAt n (i + n) lo)) (windowAt n (i + n) lo) : ℚ)
            + 1)) ∧
      (idxOfQ (listMin (windowAt n (i + n) lo)) (windowAt n (i + n) lo) + 1 ≤ n ∧
       lo[i + (idxOfQ (listMin (windowAt n (i + n) lo)) (windowAt n (i + n) lo) + 1)]?
          = some (listMin (windowAt n (i + n) lo)) ∧
       ∀ k', 1 ≤ k' →
         k' < idxOfQ (listMin (windowAt n (i + n) lo)) (windowAt n (i + n) lo) + 1 →
         lo[i + k']? ≠ some (listMin (windowAt n (i + n) lo)))) ∧
    (n ≤ lo.length → ∀ i, lo.length - n ≤ i → i < lo.length →
      (fwdMinCol n lo)[i]? = some FV.nan ∧ (fwdMinLag n lo)[i]? = some FV.nan) := by
  have hwinel : ∀ (xs : List ℚ) i j, i + n < xs.length → j < n →
      (windowAt n (i + n) xs)[j]? = xs[i + 1 + j]? := by
    intro xs i j h hj
    rw [windowAt_getElem n (i + n) xs (by omega) (by omega) j hj]
    congr 1
    omega
  have hwinlen : ∀ (xs : List ℚ) i, i + n < xs.length →
      (windowAt n (i + n) xs).length = n := by
    intro xs i h
    exact windowAt_length n (i + n) xs (by omega) (by omega)
  have hwinne : ∀ (xs : List ℚ) i, i + n < xs.length →
      windowAt n (i + n) xs ≠ [] := by
    intro xs i h hc
    have := hwinlen xs i h
    rw [hc] at this
    simp at this
    omega
  refine ⟨?_, ?_, ?_, ?_⟩
  · intro i h
    have hS := hwinlen hi i h
    have hne := hwinne hi i h
    have hmem := listMax_mem _ hne
    have hidx := idxOfQ_lt_length _ _ hmem
    refine ⟨rollingR_drop_pad_lt n listMax hi i h, hS, fun j hj => hwinel hi i j h hj,
      rollingR_drop_pad_lt n _ hi i h, by omega, by omega, ?_, ?_⟩
    · have hg := idxOfQ_getElem _ _ hmem
      have he := hwinel hi i (idxOfQ (listMax (windowAt n (i + n) hi))
        (windowAt n (i + n) hi)) h (by omega)
      rw [show i + (idxOfQ (listMax (windowAt n (i + n) hi))
        (windowAt n (i + n) hi) + 1) = i + 1 + idxOfQ (listMax (windowAt n (i + n) hi))
        (windowAt n (i + n) hi) by omega]
      rw [← he]
      exact hg
    · intro k' hk1 hk2
      have he := hwinel hi i (k' - 1) h (by omega)
      have hf := idxOfQ_first (listMax (windowAt n (i + n) hi))
        (windowAt n (i + n) hi) (k' - 1) (by omega)
      rw [show i + k' = i + 1 + (k' - 1) by omega, ← he]
      exact hf
  · intro hnN i hle hlt
    exact ⟨rollingR_drop_pad_ge n listMax hi i hnN hle hlt,
      rollingR_drop_pad_ge n _ hi i hnN hle hlt⟩
  · intro i h
    have hS := hwinlen lo i h
    have hne := hwinne lo i h
    have hmem := listMin_mem _ hne
    have hidx := idxOfQ_lt_length _ _ hmem
    refine ⟨rollingR_drop_pad_lt n listMin lo i h, fun j hj => hwinel lo i j h hj,
      rollingR_drop_pad_lt n _ lo i h, by omega, ?_, ?_⟩
    · have hg := idxOfQ_getElem _ _ hmem
      have he := hwinel lo i (idxOfQ (listMin (windowAt n (i + n) lo))
        (windowAt n (i + n) lo)) h (by omega)
      rw [show i + (idxOfQ (listMin (windowAt n (i + n) lo))
        (windowAt n (i + n) lo) + 1) = i + 1 + idxOfQ (listMin (windowAt n (i + n) lo))
        (windowAt n (i + n) lo) by omega]
      rw [← he]
      exact hg
    · intro k' hk1 hk2
      have he := hwinel lo i (k' - 1) h (by omega)
      have hf := idxOfQ_first (listMin (windowAt n (i + n) lo))
        (windowAt n (i + n) lo) (k' - 1) (by omega)
      rw [show i + k' = i + 1 + (k' - 1) by omega, ← he]
      exact hf
  · intro hnN i hle hlt
    exact ⟨rollingR_drop_pad_ge n listMin lo i hnN hle hlt,
      rollingR_drop_pad_ge n _ lo i hnN hle hlt⟩

/-- Counterexample to C3 as stated: on the two-row High column `[1, 2]`
with `rows_forward = 1`, the claim says `High_1` at row 0 is the maximum
of `High[0..0]`, i.e. 1, but the code drops the first `n` trailing
results, so the written value is 2. -/
theorem C3_counterexample :
    (fwdMaxCol 1 [1, 2])[0]? = some (FV.fin 2) ∧
    listMax (windowAt 1 0 [1, 2]) = 1 ∧
    FV.fin (2 : ℚ) ≠ FV.fin (1 : ℚ) := by
  refine ⟨?_, by rfl, by simp⟩
  rfl

/-- Witness for the amended C3 at a concrete input. -/
theorem C3_witness :
    (1 ≤ 1 ∧ 0 + 1 < ([1, 2, 3] : List ℚ).length) ∧
    (fwdMaxCol 1 [1, 2, 3])[0]? =
      some (FV.fin (listMax (windowAt 1 (0 + 1) [1, 2, 3]))) :=
  ⟨⟨le_rfl, by norm_num⟩,
    ((C3_forward_extremum [1, 2, 3] [3, 2, 1] 1 le_rfl).1 0 (by norm_num)).1⟩

-- On-balance volume: the loop of `add_OBV` (src/SwingTrading.py lines
-- 530-537) and the vectorized `add_on_balance_volume` (lines 655-657).

/-- One iteration of the `add_OBV` loop: add, subtract or hold the
volume according to the close-to-close comparison. -/
def obvStep (prevC prevO c v : ℚ) : ℚ :=
  if prevC < c then prevO + v else if c < prevC then prevO - v else prevO

/-- Rows 1.. of the `OBV` column, threading the previous close and the
previous OBV value through the loop. -/
def obvGo (prevC prevO : ℚ) : List (ℚ × ℚ) → List ℚ
  | [] => []
  | (c, v) :: t => obvStep prevC prevO c v :: obvGo c (obvStep prevC prevO c v) t

/-- Column `OBV` of `add_OBV` (lines 530-537): initialized to 0.0
everywhere, then rows 1.. are assigned in index order; row 0 keeps 0. -/
def obvList (cl vol : List ℚ) : List ℚ :=
  match cl.zip vol with
  | [] => []
  | (c, _) :: t => 0 :: obvGo c 0 t

/-- Column `OBV_Change` of `add_on_balance_volume` (line 655):
`np.where(Close > Close.shift(1), Volume, -Volume)`.  At row 0 the
comparison involves the shifted-in NaN and is false, giving `-Volume`. -/
def obvChangeGo (prev : Option ℚ) : List (ℚ × ℚ) → List ℚ
  | [] => []
  | (c, v) :: t =>
      (match prev with
        | some p => if p < c then v else -v
        | none => -v) :: obvChangeGo (some c) t

/-- The `OBV_Change` column over paired close/volume rows. -/
def obvChangeList (cl vol : List ℚ) : List ℚ := obvChangeGo none (cl.zip vol)

/-- Running cumulative sum `Series.cumsum`: the scan y_i = x_i + y_{i-1}
(an `ewmScan` with decay 1). -/
def cumsumQ (xs : List ℚ) : List ℚ := ewmScan 1 0 xs

/-- Column `On-Balance_Volume` of `add_on_balance_volume` (line 657):
cumulative sum of `OBV_Change`. -/
def onBalanceList (cl vol : List ℚ) : List ℚ := cumsumQ (obvChangeList cl vol)

theorem length_obvGo (pc po : ℚ) (l : List (ℚ × ℚ)) :
    (obvGo pc po l).length = l.length := by
  induction l generalizing pc po with
  | nil => rfl
  | cons p t ih =>
    obtain ⟨c, v⟩ := p
    simp [obvGo, ih]

theorem length_obvChangeGo (prev : Option ℚ) (l : List (ℚ × ℚ)) :
    (obvChangeGo prev l).length = l.length := by
  induction l generalizing prev with
  | nil => rfl
  | cons p t ih =>
    obtain ⟨c, v⟩ := p
    simp [obvChangeGo, ih]

theorem getD_zip (as bs : List ℚ) (j : Nat) (ha : j < as.length)
    (hb : j < bs.length) :
    (as.zip bs).getD j (0, 0) = (as.getD j 0, bs.getD j 0) := by
  induction as generalizing bs j with
  | nil => simp at ha
  | cons a at' ih =>
    cases bs with
    | nil => simp at hb
    | cons b bt =>
      cases j with
      | zero => simp
      | succ k => simpa using ih bt k (by simpa using ha) (by simpa using hb)

theorem obvStep_sub (pc po c v : ℚ) :
    obvStep pc po c v - po = if pc < c then v else if c < pc then -v else 0 := by
  unfold obvStep
  split_ifs <;> ring

theorem obvGo_succ (l : List (ℚ × ℚ)) (pc po : ℚ) (j : Nat)
    (h : j + 1 < l.length) :
    (obvGo pc po l).getD (j + 1) 0 =
      obvStep (l.getD j (0, 0)).1 ((obvGo pc po l).getD j 0)
        (l.getD (j + 1) (0, 0)).1 (l.getD (j + 1) (0, 0)).2 := by
  induction l generalizing pc po j with
  | nil => simp at h
  | cons p t ih =>
    obtain ⟨c, v⟩ := p
    cases j with
    | zero =>
      cases t with
      | nil => simp at h
      | cons q t' =>
        obtain ⟨c1, v1⟩ := q
        simp [obvGo]
    | succ k =>
      have hk : k + 1 < t.length := by simpa using h
      simpa [obvGo] using ih c (obvStep pc po c v) k hk

theorem obvChangeGo_succ (l : List (ℚ × ℚ)) (prev : Option ℚ) (j : Nat)
    (h : j + 1 < l.length) :
    (obvChangeGo prev l).getD (j + 1) 0 =
      (if (l.getD j (0, 0)).1 < (l.getD (j + 1) (0, 0)).1
        then (l.getD (j + 1) (0, 0)).2 else -((l.getD (j + 1) (0, 0)).2)) := by
  induction l generalizing prev j with
  | nil => simp at h
  | cons p t ih =>
    obtain ⟨c, v⟩ := p
    cases j with
    | zero =>
      cases t with
      | nil => simp at h
      | cons q t' =>
        obtain ⟨c1, v1⟩ := q
        simp [obvChangeGo]
    | succ k =>
      have hk : k + 1 < t.length := by simpa using h
      simpa [obvChangeGo] using ih (some c) k hk

/-- C4 (amended).  `add_OBV`: `OBV[0] = 0` (the constant initializer,
not a value read from the first bar), and for `i > 0` the difference
`OBV[i] - OBV[i-1]` is `+Volume[i]` / `-Volume[i]` / `0` according to
the close-to-close comparison.  `add_on_balance_volume`:
`On-Balance_Volume[0] = -Volume[0]` (the row-0 comparison against the
shifted-in NaN is false), and for `i > 0` the difference equals
`+Volume[i]` when `Close[i] > Close[i-1]` and `-Volume[i]` otherwise —
including when the closes are equal. -/
theorem C4_on_balance_volume (cl vol : List ℚ) :
    ((cl ≠ [] → vol ≠ [] → nthQ (obvList cl vol) 0 = 0) ∧
      (∀ i, 1 ≤ i → i < cl.length → i < vol.length →
        nthQ (obvList cl vol) i - nthQ (obvList cl vol) (i - 1) =
          (if nthQ cl (i - 1) < nthQ cl i then nthQ vol i
            else if nthQ cl i < nthQ cl (i - 1) then -(nthQ vol i) else 0))) ∧
    ((cl ≠ [] → vol ≠ [] →
        nthQ (onBalanceList cl vol) 0 = -(nthQ vol 0)) ∧
      (∀ i, 1 ≤ i → i < cl.length → i < vol.length →
        nthQ (onBalanceList cl vol) i - nthQ (onBalanceList cl vol) (i - 1) =
          (if nthQ cl (i - 1) < nthQ cl i then nthQ vol i
            else -(nthQ vol i)))) := by
  refine ⟨⟨?_, ?_⟩, ⟨?_, ?_⟩⟩
  · intro hc hv
    cases cl with
    | nil => exact absurd rfl hc
    | cons c0 clt =>
      cases vol with
      | nil => exact absurd rfl hv
      | cons v0 volt => rfl
  · intro i h1 hcl hvol
    cases cl with
    | nil => simp at hcl
    | cons c0 clt =>
      cases vol with
      | nil => simp at hvol
      | cons v0 volt =>
        have hrfl : obvList (c0 :: clt) (v0 :: volt) =
            0 :: obvGo c0 0 (clt.zip volt) := rfl
        have hlcl : i - 1 < clt.length := by simp at hcl; omega
        have hlvl : i - 1 < volt.length := by simp at hvol; omega
        have hziplen : i - 1 < (clt.zip volt).length := by
          rw [List.length_zip]; omega
        rcases Nat.exists_eq_add_of_le h1 with ⟨j, hj⟩
        subst hj
        cases j with
        | zero =>
          cases clt with
          | nil => simp at hlcl
          | cons c1 clt' =>
            cases volt with
            | nil => simp at hlvl
            | cons v1 volt' =>
              show obvStep c0 0 c1 v1 - 0 = _
              have e0 : nthQ (c0 :: c1 :: clt') (1 + 0 - 1) = c0 := rfl
              have e1 : nthQ (c0 :: c1 :: clt') (1 + 0) = c1 := rfl
              have e2 : nthQ (v0 :: v1 :: volt') (1 + 0) = v1 := rfl
              rw [e0, e1, e2, sub_zero]
              unfold obvStep
              split_ifs <;> first | rfl | ring
        | succ j =>
          have hjz : 1 + (j + 1) - 1 = j + 1 := by omega
          have hgj := getD_zip clt volt j (by omega) (by omega)
          have hgj1 := getD_zip clt volt (j + 1) (by omega) (by omega)
          have hsucc := obvGo_succ (clt.zip volt) c0 0 j (by omega)
          have hv1 : nthQ (obvList (c0 :: clt) (v0 :: volt)) (1 + (j + 1)) =
              (obvGo c0 0 (clt.zip volt)).getD (j + 1) 0 := by
            rw [hrfl]
            simp only [nthQ]
            rw [show 1 + (j + 1) = (j + 1) + 1 by omega, List.getD_cons_succ]
          have hv0 : nthQ (obvList (c0 :: clt) (v0 :: volt)) (1 + (j + 1) - 1) =
              (obvGo c0 0 (clt.zip volt)).getD j 0 := by
            rw [hrfl]
            simp only [nthQ]
            rw [show 1 + (j + 1) - 1 = j + 1 by omega, List.getD_cons_succ]
          rw [hv1, hv0, hsucc, hgj, hgj1, obvStep_sub]
          simp only [nthQ, hjz]
          rw [show 1 + (j + 1) = (j + 1) + 1 by omega]
          simp only [List.getD_cons_succ]
  · intro hc hv
    cases cl with
    | nil => exact absurd rfl hc
    | cons c0 clt =>
      cases vol with
      | nil => exact absurd rfl hv
      | cons v0 volt =>
        show (cumsumQ (obvChangeGo none ((c0, v0) :: clt.zip volt))).getD 0 0 = _
        simp [cumsumQ, ewmScan, obvChangeGo, nthQ]
  · intro i h1 hcl hvol
    cases cl with
    | nil => simp at hcl
    | cons c0 clt =>
      cases vol with
      | nil => simp at hvol
      | cons v0 volt =>
        have hchlen : (obvChangeList (c0 :: clt) (v0 :: volt)).length =
            ((c0 :: clt).zip (v0 :: volt)).length := length_obvChangeGo _ _
        have hzl : ((c0 :: clt).zip (v0 :: volt)).length =
            min (clt.length + 1) (volt.length + 1) := by
          rw [List.length_zip]; simp
        have hilen : i < (obvChangeList (c0 :: clt) (v0 :: volt)).length := by
          rw [hchlen, hzl]
          simp at hcl hvol
          omega
        rcases Nat.exists_eq_add_of_le h1 with ⟨j, hj⟩
        subst hj
        have hstep := ewmScan_getD_succ 1 0
          (obvChangeList (c0 :: clt) (v0 :: volt)) j (by omega)
        have : nthQ (onBalanceList (c0 :: clt) (v0 :: volt)) (1 + j) -
            nthQ (onBalanceList (c0 :: clt) (v0 :: volt)) (1 + j - 1) =
            (obvChangeList (c0 :: clt) (v0 :: volt)).getD (1 + j) 0 := by
          simp only [onBalanceList, cumsumQ, nthQ]
          rw [show 1 + j = j + 1 by omega]
          rw [show j + 1 - 1 = j by omega]
          rw [hstep]
          ring
        rw [this]
        have hzip := getD_zip (c0 :: clt) (v0 :: volt)
        have hg0 := hzip (1 + j - 1) (by omega) (by omega)
        have hg1 := hzip (1 + j) (by omega) (by omega)
        have hcs := obvChangeGo_succ ((c0 :: clt).zip (v0 :: volt)) none j
          (by rw [hzl]; simp at hcl hvol; omega)
        rw [show (1 : Nat) + j = j + 1 by omega] at hg1 ⊢
        rw [show (1 : Nat) + j - 1 = j by omega] at hg0
        rw [obvChangeList] at *
        rw [hcs, hg0, hg1]
        simp [nthQ]

/-- Counterexample to C4 as stated: on the table with closes `[1, 1]`
and volumes `[5, 7]`, `add_on_balance_volume` produces `[-5, -12]`: the
row-1 difference is `-7` although `Close[1] = Close[0]` (the claim says
the difference should be 0), and row 0 holds `-5`, not the volume 5 of
the first bar. -/
theorem C4_counterexample :
    onBalanceList [1, 1] [5, 7] = [-5, -12] ∧
    nthQ [1, 1] 1 = nthQ [1, 1] 0 ∧
    nthQ (onBalanceList [1, 1] [5, 7]) 1 -
        nthQ (onBalanceList [1, 1] [5, 7]) 0 = -7 ∧
    (-7 : ℚ) ≠ 0 ∧
    nthQ (onBalanceList [1, 1] [5, 7]) 0 = -5 ∧
    (-5 : ℚ) ≠ nthQ [5, 7] 0 := by
  have h : onBalanceList [1, 1] [5, 7] = [-5, -12] := by
    norm_num [onBalanceList, obvChangeList, obvChangeGo, cumsumQ, ewmScan]
  refine ⟨h, by norm_num [nthQ], ?_, by norm_num, ?_, by norm_num [nthQ]⟩
  · rw [h]; norm_num [nthQ]
  · rw [h]; norm_num [nthQ]

/-- Witness for the amended C4 at a concrete input: closes `[1, 1]`,
volumes `[5, 7]`, row 1 of `add_on_balance_volume` subtracts the
volume. -/
theorem C4_witness :
    (1 ≤ 1 ∧ 1 < ([1, 1] : List ℚ).length ∧ 1 < ([5, 7] : List ℚ).length) ∧
    nthQ (onBalanceList [1, 1] [5, 7]) 1 -
        nthQ (onBalanceList [1, 1] [5, 7]) (1 - 1) =
      (if nthQ [1, 1] (1 - 1) < nthQ [1, 1] 1 then nthQ [5, 7] 1
        else -(nthQ [5, 7] 1)) :=
  ⟨⟨le_rfl, by norm_num, by norm_num⟩,
    (C4_on_balance_volume [1, 1] [5, 7]).2.2 1 le_rfl (by norm_num) (by norm_num)⟩

-- Mass index (src/SwingTrading.py lines 774-781).

/-- Column `Mass_Index_k` of `add_mass_index` (k = 9 or 25): an integer
0 column, overwritten for every `i ≥ k` by
`(High[i-k..i].max() - Low[i-k..i].min()) / (High[i-k..i].max() -
Low[i-k..i].min())`; the `.loc[i-k:i]` label slice includes both
endpoints, so the window holds `k+1` rows.  numpy float64 division
yields NaN when the range is zero. -/
def massIndexCol (k : Nat) (hi lo : List ℚ) : List (FV ℚ) :=
  (List.range hi.length).map (fun i =>
    if i < k then FV.fin 0
    else
      FV.div
        (FV.fin (listMax ((hi.take (i + 1)).drop (i - k)) -
          listMin ((lo.take (i + 1)).drop (i - k))))
        (FV.fin (listMax ((hi.take (i + 1)).drop (i - k)) -
          listMin ((lo.take (i + 1)).drop (i - k)))))

/-- C10.  After `add_mass_index`, `Mass_Index_9` equals exactly 1 at
every index `i ≥ 9` whose window has highest High different from lowest
Low, is NaN when they are equal, and equals 0 at every index `i < 9`;
likewise `Mass_Index_25` with threshold 25 — the column never takes any
value other than 0, 1 or NaN, because the formula divides the window's
high-low range by itself. -/
theorem C10_mass_index (hi lo : List ℚ) (k : Nat) (_hk : k = 9 ∨ k = 25)
    (i : Nat) (hiN : i < hi.length) :
    (i < k → (massIndexCol k hi lo)[i]? = some (FV.fin 0)) ∧
    (k ≤ i →
      (listMax ((hi.take (i + 1)).drop (i - k)) ≠
          listMin ((lo.take (i + 1)).drop (i - k)) →
        (massIndexCol k hi lo)[i]? = some (FV.fin 1)) ∧
      (listMax ((hi.take (i + 1)).drop (i - k)) =
          listMin ((lo.take (i + 1)).drop (i - k)) →
        (massIndexCol k hi lo)[i]? = some FV.nan)) ∧
    ((massIndexCol k hi lo)[i]? = some (FV.fin 0) ∨
      (massIndexCol k hi lo)[i]? = some (FV.fin 1) ∨
      (massIndexCol k hi lo)[i]? = some FV.nan) := by
  have hbase : (massIndexCol k hi lo)[i]? =
      some (if i < k then FV.fin 0
        else
          FV.div
            (FV.fin (listMax ((hi.take (i + 1)).drop (i - k)) -
              listMin ((lo.take (i + 1)).drop (i - k))))
            (FV.fin (listMax ((hi.take (i + 1)).drop (i - k)) -
              listMin ((lo.take (i + 1)).drop (i - k))))) := by
    simp [massIndexCol, List.getElem?_map, List.getElem?_range, hiN]
  have hlt : i < k → (massIndexCol k hi lo)[i]? = some (FV.fin 0) := by
    intro h
    rw [hbase, if_pos h]
  have hne : k ≤ i →
      listMax ((hi.take (i + 1)).drop (i - k)) ≠
        listMin ((lo.take (i + 1)).drop (i - k)) →
      (massIndexCol k hi lo)[i]? = some (FV.fin 1) := by
    intro h hd
    rw [hbase, if_neg (by omega)]
    have hdz : listMax ((hi.take (i + 1)).drop (i - k)) -
        listMin ((lo.take (i + 1)).drop (i - k)) ≠ 0 := fun hc => hd (by linarith)
    simp only [FV.div, if_neg hdz]
    rw [div_self hdz]
  have heq : k ≤ i →
      listMax ((hi.take (i + 1)).drop (i - k)) =
        listMin ((lo.take (i + 1)).drop (i - k)) →
      (massIndexCol k hi lo)[i]? = some FV.nan := by
    intro h hd
    rw [hbase, if_neg (by omega)]
    have hdz : listMax ((hi.take (i + 1)).drop (i - k)) -
        listMin ((lo.take (i + 1)).drop (i - k)) = 0 := by linarith
    simp [FV.div, hdz]
  refine ⟨hlt, fun h => ⟨hne h, heq h⟩, ?_⟩
  by_cases h : i < k
  · exact Or.inl (hlt h)
  · by_cases hd : listMax ((hi.take (i + 1)).drop (i - k)) =
        listMin ((lo.take (i + 1)).drop (i - k))
    · exact Or.inr (Or.inr (heq (by omega) hd))
    · exact Or.inr (Or.inl (hne (by omega) hd))

/-- Witness for C10 at a concrete input: a ten-row table with High 2 and
Low 1 everywhere; `Mass_Index_9` at row 9 is 1. -/
theorem C10_witness :
    ((9 = 9 ∨ 9 = 25) ∧ 9 < (List.replicate 10 (2 : ℚ)).length ∧ (9 ≤ 9) ∧
      listMax (((List.replicate 10 (2 : ℚ)).take 10).drop 0) ≠
        listMin (((List.replicate 10 (1 : ℚ)).take 10).drop 0)) ∧
    (massIndexCol 9 (List.replicate 10 (2 : ℚ))
        (List.replicate 10 (1 : ℚ)))[9]? = some (FV.fin 1) := by
  have hmx : listMax (((List.replicate 10 (2 : ℚ)).take 10).drop 0) = 2 := by
    norm_num [List.replicate, listMax]
  have hmn : listMin (((List.replicate 10 (1 : ℚ)).take 10).drop 0) = 1 := by
    norm_num [List.replicate, listMin]
  have hd : listMax (((List.replicate 10 (2 : ℚ)).take 10).drop 0) ≠
      listMin (((List.replicate 10 (1 : ℚ)).take 10).drop 0) := by
    rw [hmx, hmn]; norm_num
  refine ⟨⟨Or.inl rfl, by norm_num, le_rfl, hd⟩, ?_⟩
  have h := (C10_mass_index (List.replicate 10 (2 : ℚ))
      (List.replicate 10 (1 : ℚ)) 9 (Or.inl rfl) 9 (by norm_num)).2.1 le_rfl
  exact h.1 (by simpa using hd)

-- Column rescaling (src/SwingTrading.py lines 96-118).

/-- Shift by one row (`Series.shift(1)`): NaN enters at row 0, the last
value falls off. -/
def shift1 (xs : List (FV ℚ)) : List (FV ℚ) :=
  FV.nan :: xs.take (xs.length - 1)

/-- Rolling reduction over an FV column with the default
`min_periods = w`: NaN head, reducer on the trailing window elsewhere
(a NaN inside the window propagates through the NaN-strict fold). -/
def rollingF (w : Nat) (f : List (FV ℚ) → FV ℚ) (xs : List (FV ℚ)) :
    List (FV ℚ) :=
  (List.range xs.length).map
    (fun i => if i + 1 < w then FV.nan else f (windowAt w i xs))

/-- Reducer of `rolling(p).max()` on an FV column. -/
def foldMax : List (FV ℚ) → FV ℚ
  | [] => FV.nan
  | x :: t => t.foldl FV.fmax x

/-- Reducer of `rolling(p).min()` on an FV column. -/
def foldMin : List (FV ℚ) → FV ℚ
  | [] => FV.nan
  | x :: t => t.foldl FV.fmin x

/-- The scaled column written by `scale_column` (lines 114-116):
`(col - low) / (high - low)` where `high`/`low` are the shifted rolling
extrema over the `period` rows strictly before each row. -/
def scaleList (p : Nat) (xs : List (FV ℚ)) : List (FV ℚ) :=
  List.zipWith FV.div
    (List.zipWith FV.sub xs (shift1 (rollingF p foldMin xs)))
    (List.zipWith FV.sub (shift1 (rollingF p foldMax xs))
      (shift1 (rollingF p foldMin xs)))

/-- An all-finite column built from rational cells. -/
def finCol (xs : List ℚ) : List (FV ℚ) := xs.map FV.fin

theorem zipWith_getElem_some {α β γ : Type} (f : α → β → γ) (as : List α)
    (bs : List β) (i : Nat) (a : α) (b : β) (ha : as[i]? = some a)
    (hb : bs[i]? = some b) : (List.zipWith f as bs)[i]? = some (f a b) := by
  induction as generalizing bs i with
  | nil => simp at ha
  | cons x t ih =>
    cases bs with
    | nil => simp at hb
    | cons y u =>
      cases i with
      | zero =>
        simp at ha hb
        simp [ha, hb]
      | succ j =>
        simp only [List.getElem?_cons_succ] at ha hb
        simpa using ih u j ha hb

theorem length_rollingF (w : Nat) (f : List (FV ℚ) → FV ℚ)
    (xs : List (FV ℚ)) : (rollingF w f xs).length = xs.length := by
  simp [rollingF]

theorem rollingF_getElem (w : Nat) (f : List (FV ℚ) → FV ℚ)
    (xs : List (FV ℚ)) (i : Nat) (hi : i < xs.length) :
    (rollingF w f xs)[i]? =
      some (if i + 1 < w then FV.nan else f (windowAt w i xs)) := by
  simp [rollingF, List.getElem?_map, List.getElem?_range, hi]

theorem shift1_getElem_zero (xs : List (FV ℚ)) :
    (shift1 xs)[0]? = some FV.nan := by
  simp [shift1]

theorem shift1_getElem_succ (xs : List (FV ℚ)) (j : Nat)
    (h : j + 1 < xs.length) : (shift1 xs)[j + 1]? = xs[j]? := by
  simp only [shift1, List.getElem?_cons_succ]
  rw [List.getElem?_take_of_lt (by omega)]

theorem length_shift1 (xs : List (FV ℚ)) (h : xs ≠ []) :
    (shift1 xs).length = xs.length := by
  have : 1 ≤ xs.length := List.length_pos.mpr h
  simp [shift1, List.length_take]
  omega

theorem foldMax_finCol (ws : List ℚ) (hne : ws ≠ []) :
    foldMax (finCol ws) = FV.fin (listMax ws) := by
  cases ws with
  | nil => exact absurd rfl hne
  | cons x t =>
    show (t.map FV.fin).foldl FV.fmax (FV.fin x) = FV.fin (t.foldl max x)
    induction t generalizing x with
    | nil => rfl
    | cons y u ih => simpa [FV.fmax] using ih (max x y)

theorem foldMin_finCol (ws : List ℚ) (hne : ws ≠ []) :
    foldMin (finCol ws) = FV.fin (listMin ws) := by
  cases ws with
  | nil => exact absurd rfl hne
  | cons x t =>
    show (t.map FV.fin).foldl FV.fmin (FV.fin x) = FV.fin (t.foldl min x)
    induction t generalizing x with
    | nil => rfl
    | cons y u ih => simpa [FV.fmin] using ih (min x y)

theorem windowAt_finCol (w i : Nat) (xs : List ℚ) :
    windowAt w i (finCol xs) = finCol (windowAt w i xs) := by
  simp [windowAt, finCol, List.map_take, List.map_drop]

theorem scaleList_spec (xs : List ℚ) (p i : Nat) (hp : 1 ≤ p)
    (hiN : i < xs.length) :
    (i < p → (scaleList p (finCol xs))[i]? = some FV.nan) ∧
    (p ≤ i →
      (listMax ((xs.take i).drop (i - p)) ≠ listMin ((xs.take i).drop (i - p)) →
        (scaleList p (finCol xs))[i]? =
          some (FV.fin ((xs[i] - listMin ((xs.take i).drop (i - p))) /
            (listMax ((xs.take i).drop (i - p)) -
              listMin ((xs.take i).drop (i - p)))))) ∧
      (listMax ((xs.take i).drop (i - p)) = listMin ((xs.take i).drop (i - p)) →
        ((xs[i] = listMin ((xs.take i).drop (i - p)) →
            (scaleList p (finCol xs))[i]? = some FV.nan) ∧
          (xs[i] ≠ listMin ((xs.take i).drop (i - p)) →
            (scaleList p (finCol xs))[i]? =
              some (FV.inf
                (decide (0 < xs[i] - listMin ((xs.take i).drop (i - p))))))))) := by
  have hflen : (finCol xs).length = xs.length := by simp [finCol]
  have hx : (finCol xs)[i]? = some (FV.fin (xs[i])) := by
    simp [finCol, List.getElem?_map, List.getElem?_eq_getElem hiN]
  constructor
  · intro hip
    have hhigh : (shift1 (rollingF p foldMax (finCol xs)))[i]? = some FV.nan := by
      cases i with
      | zero => exact shift1_getElem_zero _
      | succ j =>
        rw [shift1_getElem_succ _ j (by rw [length_rollingF, hflen]; omega)]
        rw [rollingF_getElem p foldMax (finCol xs) j (by rw [hflen]; omega)]
        rw [if_pos (by omega)]
    have hlow : (shift1 (rollingF p foldMin (finCol xs)))[i]? = some FV.nan := by
      cases i with
      | zero => exact shift1_getElem_zero _
      | succ j =>
        rw [shift1_getElem_succ _ j (by rw [length_rollingF, hflen]; omega)]
        rw [rollingF_getElem p foldMin (finCol xs) j (by rw [hflen]; omega)]
        rw [if_pos (by omega)]
    rw [scaleList]
    rw [zipWith_getElem_some _ _ _ i _ _
      (zipWith_getElem_some _ _ _ i _ _ hx hlow)
      (zipWith_getElem_some _ _ _ i _ _ hhigh hlow)]
    rfl
  · intro hpi
    have hi1 : 1 ≤ i := le_trans hp hpi
    obtain ⟨j, hj⟩ : ∃ j, i = j + 1 := ⟨i - 1, by omega⟩
    subst hj
    have hwlen : (windowAt p j xs).length = p :=
      windowAt_length p j xs (by omega) (by omega)
    have hwne : windowAt p j xs ≠ [] := by
      intro hc
      rw [hc] at hwlen
      simp at hwlen
      omega
    have hhigh : (shift1 (rollingF p foldMax (finCol xs)))[j + 1]? =
        some (FV.fin (listMax ((xs.take (j + 1)).drop (j + 1 - p)))) := by
      rw [shift1_getElem_succ _ j (by rw [length_rollingF, hflen]; omega)]
      rw [rollingF_getElem p foldMax (finCol xs) j (by rw [hflen]; omega)]
      rw [if_neg (by omega), windowAt_finCol, foldMax_finCol _ hwne]
      rfl
    have hlow : (shift1 (rollingF p foldMin (finCol xs)))[j + 1]? =
        some (FV.fin (listMin ((xs.take (j + 1)).drop (j + 1 - p)))) := by
      rw [shift1_getElem_succ _ j (by rw [length_rollingF, hflen]; omega)]
      rw [rollingF_getElem p foldMin (finCol xs) j (by rw [hflen]; omega)]
      rw [if_neg (by omega), windowAt_finCol, foldMin_finCol _ hwne]
      rfl
    have hcell : (scaleList p (finCol xs))[j + 1]? =
        some (FV.div
          (FV.sub (FV.fin (xs[j + 1]))
            (FV.fin (listMin ((xs.take (j + 1)).drop (j + 1 - p)))))
          (FV.sub (FV.fin (listMax ((xs.take (j + 1)).drop (j + 1 - p))))
            (FV.fin (listMin ((xs.take (j + 1)).drop (j + 1 - p)))))) := by
      rw [scaleList]
      rw [zipWith_getElem_some _ _ _ (j + 1) _ _
        (zipWith_getElem_some _ _ _ (j + 1) _ _ hx hlow)
        (zipWith_getElem_some _ _ _ (j + 1) _ _ hhigh hlow)]
    refine ⟨fun hd => ?_, fun heq => ⟨fun hxL => ?_, fun hxL => ?_⟩⟩
    · rw [hcell]
      have hdz : listMax ((xs.take (j + 1)).drop (j + 1 - p)) -
          listMin ((xs.take (j + 1)).drop (j + 1 - p)) ≠ 0 :=
        sub_ne_zero.mpr hd
      simp [FV.sub, FV.div, hdz]
    · rw [hcell]
      have hdz : listMax ((xs.take (j + 1)).drop (j + 1 - p)) -
          listMin ((xs.take (j + 1)).drop (j + 1 - p)) = 0 :=
        sub_eq_zero_of_eq heq
      have hnz : xs[j + 1] - listMin ((xs.take (j + 1)).drop (j + 1 - p)) = 0 :=
        sub_eq_zero_of_eq hxL
      simp [FV.sub, FV.div, hdz, hnz]
    · rw [hcell]
      have hdz : listMax ((xs.take (j + 1)).drop (j + 1 - p)) -
          listMin ((xs.take (j + 1)).drop (j + 1 - p)) = 0 :=
        sub_eq_zero_of_eq heq
      have hnz : xs[j + 1] - listMin ((xs.take (j + 1)).drop (j + 1 - p)) ≠ 0 :=
        sub_ne_zero.mpr hxL
      simp [FV.sub, FV.div, hdz, hnz]

-- RSI (src/SwingTrading.py lines 178-184) and Bollinger bands
-- (lines 147-149).

/-- Column `Change` of `add_rsi` (line 178): `Close - Close.shift(1)`,
NaN at row 0. -/
def changeCol (cl : List ℚ) : List (FV ℚ) :=
  match cl with
  | [] => []
  | _ :: t => FV.nan :: List.zipWith (fun a b => FV.fin (a - b)) t cl

/-- The `Gain` lambda of `add_rsi` (line 179): `x if x > 0 else 0`; a
comparison against NaN is false, so a NaN change becomes the number 0. -/
def pyPosPart : FV ℚ → FV ℚ
  | FV.nan => FV.fin 0
  | FV.inf b => if b then FV.inf true else FV.fin 0
  | FV.fin x => if 0 < x then FV.fin x else FV.fin 0

/-- The `Loss` lambda of `add_rsi` (line 180): `-x if x < 0 else 0`. -/
def pyNegPart : FV ℚ → FV ℚ
  | FV.nan => FV.fin 0
  | FV.inf b => if b then FV.fin 0 else FV.inf true
  | FV.fin x => if x < 0 then FV.fin (-x) else FV.fin 0

/-- Column `Gain` of `add_rsi`. -/
def gainCol (cl : List ℚ) : List (FV ℚ) := (changeCol cl).map pyPosPart

/-- Column `Loss` of `add_rsi`. -/
def lossCol (cl : List ℚ) : List (FV ℚ) := (changeCol cl).map pyNegPart

/-- Reducer of `rolling(w).mean()` on an FV column: NaN-strict sum of
the window divided by its size. -/
def foldMean (ws : List (FV ℚ)) : FV ℚ :=
  FV.div (ws.foldl FV.add (FV.fin 0)) (FV.fin (ws.length : ℚ))

/-- Column `Avg_Gain_14` of `add_rsi` (line 181). -/
def avgGainCol (cl : List ℚ) : List (FV ℚ) := rollingF 14 foldMean (gainCol cl)

/-- Column `Avg_Loss_14` of `add_rsi` (line 182). -/
def avgLossCol (cl : List ℚ) : List (FV ℚ) := rollingF 14 foldMean (lossCol cl)

/-- Column `RS` of `add_rsi` (line 183): `Avg_Gain_14 / Avg_Loss_14`. -/
def rsCol (cl : List ℚ) : List (FV ℚ) :=
  List.zipWith FV.div (avgGainCol cl) (avgLossCol cl)

/-- Column `RSI` of `add_rsi` (line 184): `100 - 100/(1 + RS)`. -/
def rsiCol (cl : List ℚ) : List (FV ℚ) :=
  (rsCol cl).map
    (fun v => FV.sub (FV.fin 100) (FV.div (FV.fin 100) (FV.add (FV.fin 1) v)))

/-- Column `Mid_Bollinger_Band` of `add_bollinger_bands` (line 147). -/
def bollMid (cl : List ℚ) : List (FV ℚ) := rollingR 20 meanQ cl

/-- Column `Upper_Bollinger_Band` of `add_bollinger_bands` (line 148):
`Mid + 2 * Close.rolling(20).std()`. -/
noncomputable def bollUpper (cl : List ℚ) : List (FV ℝ) :=
  List.zipWith FV.add ((bollMid cl).map (FV.map (fun q : ℚ => (q : ℝ))))
    ((volCol 20 cl).map (FV.smul 2))

/-- Column `Lower_Bollinger_Band` of `add_bollinger_bands` (line 149):
`Mid - 2 * Close.rolling(20).std()`. -/
noncomputable def bollLower (cl : List ℚ) : List (FV ℝ) :=
  List.zipWith FV.sub ((bollMid cl).map (FV.map (fun q : ℚ => (q : ℝ))))
    ((volCol 20 cl).map (FV.smul 2))

-- Constant-column facts.

theorem sum_of_constant (xs : List ℚ) (c : ℚ) (h : ∀ x ∈ xs, x = c) :
    xs.sum = (xs.length : ℚ) * c := by
  induction xs with
  | nil => simp
  | cons x t ih =>
    have hx : x = c := h x (List.mem_cons_self x t)
    have ht := ih (fun y hy => h y (List.mem_cons_of_mem x hy))
    simp [hx, ht]
    ring

theorem meanQ_of_constant (xs : List ℚ) (c : ℚ) (h : ∀ x ∈ xs, x = c)
    (hne : xs ≠ []) : meanQ xs = c := by
  have hlen : (xs.length : ℚ) ≠ 0 := by
    have : 0 < xs.length := List.length_pos.mpr hne
    exact_mod_cast Nat.pos_iff_ne_zero.mp this
  rw [meanQ, sum_of_constant xs c h, mul_comm, mul_div_assoc, div_self hlen,
    mul_one]

theorem sampleVar_of_constant (xs : List ℚ) (c : ℚ) (h : ∀ x ∈ xs, x = c) :
    sampleVar xs = 0 := by
  cases hxs : xs with
  | nil => simp [sampleVar]
  | cons x t =>
    rw [← hxs]
    have hne : xs ≠ [] := by rw [hxs]; simp
    have hm := meanQ_of_constant xs c h hne
    have hz : (xs.map (fun x => (x - meanQ xs) ^ 2)).sum = 0 := by
      apply List.sum_eq_zero
      intro y hy
      rcases List.mem_map.mp hy with ⟨x', hx', hyx⟩
      rw [← hyx, hm, h x' hx']
      ring
    rw [sampleVar, hz, zero_div]

theorem windowAt_constant {α : Type} (w i : Nat) (xs : List α) (c : α)
    (h : ∀ x ∈ xs, x = c) : ∀ x ∈ windowAt w i xs, x = c := by
  intro x hx
  exact h x (List.mem_of_mem_take (List.mem_of_mem_drop hx))

theorem map_zip_const_zero (f : FV ℚ → FV ℚ) (hf : f (FV.fin 0) = FV.fin 0)
    (c : ℚ) : ∀ (as bs : List ℚ), (∀ x ∈ as, x = c) → (∀ x ∈ bs, x = c) →
    as.length ≤ bs.length →
    (List.zipWith (fun a b => FV.fin (a - b)) as bs).map f =
      List.replicate as.length (FV.fin 0) := by
  intro as
  induction as with
  | nil =>
    intro bs _ _ _
    simp
  | cons a as' ih =>
    intro bs ha hb hlen
    cases bs with
    | nil => simp at hlen
    | cons b bs' =>
      have hab : a - b = 0 := by
        rw [ha a (List.mem_cons_self a as'), hb b (List.mem_cons_self b bs')]
        ring
      simp only [List.zipWith_cons_cons, List.map_cons, hab, hf,
        List.length_cons, List.replicate_succ]
      congr 1
      exact ih bs' (fun x hx => ha x (List.mem_cons_of_mem _ hx))
        (fun x hx => hb x (List.mem_cons_of_mem _ hx)) (by simp at hlen; omega)

theorem gainCol_of_constant (cl : List ℚ) (c : ℚ) (h : ∀ x ∈ cl, x = c) :
    gainCol cl = List.replicate cl.length (FV.fin 0) := by
  cases cl with
  | nil => rfl
  | cons c0 t =>
    show pyPosPart FV.nan ::
        (List.zipWith (fun a b => FV.fin (a - b)) t (c0 :: t)).map pyPosPart = _
    rw [List.length_cons, List.replicate_succ]
    congr 1
    exact map_zip_const_zero pyPosPart (by simp [pyPosPart]) c t (c0 :: t)
      (fun x hx => h x (List.mem_cons_of_mem _ hx)) h (by simp)

theorem lossCol_of_constant (cl : List ℚ) (c : ℚ) (h : ∀ x ∈ cl, x = c) :
    lossCol cl = List.replicate cl.length (FV.fin 0) := by
  cases cl with
  | nil => rfl
  | cons c0 t =>
    show pyNegPart FV.nan ::
        (List.zipWith (fun a b => FV.fin (a - b)) t (c0 :: t)).map pyNegPart = _
    rw [List.length_cons, List.replicate_succ]
    congr 1
    exact map_zip_const_zero pyNegPart (by simp [pyNegPart]) c t (c0 :: t)
      (fun x hx => h x (List.mem_cons_of_mem _ hx)) h (by simp)

theorem foldl_add_zero (n : Nat) :
    (List.replicate n (FV.fin (0 : ℚ))).foldl FV.add (FV.fin 0) = FV.fin 0 := by
  induction n with
  | zero => rfl
  | succ m ih =>
    rw [List.replicate_succ, List.foldl_cons]
    have : FV.add (FV.fin (0 : ℚ)) (FV.fin 0) = FV.fin 0 := by
      simp [FV.add]
    rw [this, ih]

theorem foldMean_replicate_zero (n : Nat) (hn : n ≠ 0) :
    foldMean (List.replicate n (FV.fin (0 : ℚ))) = FV.fin 0 := by
  rw [foldMean, foldl_add_zero, List.length_replicate]
  have hq : ((n : ℚ)) ≠ 0 := Nat.cast_ne_zero.mpr hn
  simp [FV.div, hq]

theorem windowAt_replicate (w i N : Nat) (x : FV ℚ) (hw : w ≤ i + 1)
    (hi : i < N) :
    windowAt w i (List.replicate N x) = List.replicate w x := by
  rw [windowAt, List.take_replicate, List.drop_replicate]
  congr 1
  omega

/-- C7.  On any table whose closes are all equal: `add_rsi` yields an
RSI column that is NaN at every row (the 0/0 average-gain/average-loss
ratio is NaN, handled per-row, never an exception); `add_volatility`'s
`Vol_w` columns are exactly 0 at every row `i ≥ w-1`; and
`add_bollinger_bands`' upper and lower bands equal the middle band
(all three equal the common close) at every row where they are
defined. -/
theorem C7_constant_closes (cl : List ℚ) (c : ℚ) (hc : ∀ x ∈ cl, x = c) :
    (∀ i, i < cl.length → (rsiCol cl)[i]? = some FV.nan) ∧
    (∀ w i, (w = 5 ∨ w = 10 ∨ w = 20 ∨ w = 50 ∨ w = 100 ∨ w = 200) →
      w ≤ i + 1 → i < cl.length → (volCol w cl)[i]? = some (FV.fin (0 : ℝ))) ∧
    (∀ i, 20 ≤ i + 1 → i < cl.length →
      (bollMid cl)[i]? = some (FV.fin c) ∧
      (bollUpper cl)[i]? = some (FV.fin (c : ℝ)) ∧
      (bollLower cl)[i]? = some (FV.fin (c : ℝ))) := by
  have hvol : ∀ w i, 1 ≤ w → w ≤ i + 1 → i < cl.length →
      (volCol w cl)[i]? = some (FV.fin (0 : ℝ)) := by
    intro w i _ hwi hiN
    have h := rollingR_getElem w sampleVar cl i hiN
    rw [if_neg (by omega)] at h
    have hv : sampleVar (windowAt w i cl) = 0 :=
      sampleVar_of_constant _ c (windowAt_constant w i cl c hc)
    simp [volCol, List.getElem?_map, h, hv, FV.map, Real.sqrt_zero]
  have hmid : ∀ i, 20 ≤ i + 1 → i < cl.length →
      (bollMid cl)[i]? = some (FV.fin c) := by
    intro i h20 hiN
    have h := rollingR_getElem 20 meanQ cl i hiN
    rw [if_neg (by omega)] at h
    have hlenw := windowAt_length 20 i cl (by omega) hiN
    have hne : windowAt 20 i cl ≠ [] := by
      intro hcon
      rw [hcon] at hlenw
      simp at hlenw
    have hm := meanQ_of_constant _ c (windowAt_constant 20 i cl c hc) hne
    rw [bollMid, h, hm]
  refine ⟨?_, fun w i hw hwi hiN => hvol w i (by omega) hwi hiN, ?_⟩
  · intro i hiN
    have hg := gainCol_of_constant cl c hc
    have hl := lossCol_of_constant cl c hc
    have hgain : (avgGainCol cl)[i]? =
        some (if i + 1 < 14 then FV.nan
          else foldMean (windowAt 14 i (List.replicate cl.length (FV.fin 0)))) := by
      rw [avgGainCol, hg]
      exact rollingF_getElem 14 foldMean _ i (by simp [hiN])
    have hloss : (avgLossCol cl)[i]? =
        some (if i + 1 < 14 then FV.nan
          else foldMean (windowAt 14 i (List.replicate cl.length (FV.fin 0)))) := by
      rw [avgLossCol, hl]
      exact rollingF_getElem 14 foldMean _ i (by simp [hiN])
    have hrs : (rsCol cl)[i]? = some FV.nan := by
      rw [rsCol, zipWith_getElem_some _ _ _ i _ _ hgain hloss]
      by_cases h14 : i + 1 < 14
      · rw [if_pos h14]
        rfl
      · rw [if_neg h14, windowAt_replicate 14 i cl.length _ (by omega) hiN,
          foldMean_replicate_zero 14 (by omega)]
        simp [FV.div]
    rw [rsiCol, List.getElem?_map, hrs]
    rfl
  · intro i h20 hiN
    have hm := hmid i h20 hiN
    have hv := hvol 20 i (by omega) h20 hiN
    have hcast : ((bollMid cl).map (FV.map (fun q : ℚ => (q : ℝ))))[i]? =
        some (FV.fin (c : ℝ)) := by
      rw [List.getElem?_map, hm]
      rfl
    have hsm : ((volCol 20 cl).map (FV.smul 2))[i]? =
        some (FV.fin ((2 : ℝ) * 0)) := by
      rw [List.getElem?_map, hv]
      rfl
    refine ⟨hm, ?_, ?_⟩
    · rw [bollUpper, zipWith_getElem_some _ _ _ i _ _ hcast hsm]
      norm_num [FV.add]
    · rw [bollLower, zipWith_getElem_some _ _ _ i _ _ hcast hsm]
      norm_num [FV.sub]

/-- Witness for C7 at a concrete input: 25 rows of constant close 100;
RSI is NaN at row 0, `Vol_5` is 0 at row 4, and the Bollinger bands
coincide at row 19. -/
theorem C7_witness :
    ((∀ x ∈ List.replicate 25 (100 : ℚ), x = 100) ∧
      0 < (List.replicate 25 (100 : ℚ)).length) ∧
    (rsiCol (List.replicate 25 (100 : ℚ)))[0]? = some FV.nan ∧
    (volCol 5 (List.replicate 25 (100 : ℚ)))[4]? = some (FV.fin (0 : ℝ)) ∧
    (bollUpper (List.replicate 25 (100 : ℚ)))[19]? =
      some (FV.fin ((100 : ℚ) : ℝ)) := by
  have hc : ∀ x ∈ List.replicate 25 (100 : ℚ), x = 100 := by
    intro x hx
    exact List.eq_of_mem_replicate hx
  have h := C7_constant_closes (List.replicate 25 (100 : ℚ)) 100 hc
  exact ⟨⟨hc, by norm_num⟩, h.1 0 (by norm_num),
    h.2.1 5 4 (Or.inl rfl) (by norm_num) (by norm_num),
    (h.2.2 19 (by norm_num) (by norm_num)).2.1⟩

-- Table model: the pandas DataFrame held in `self.data`.

/-- One OHLCV bar (the timestamp is modelled as a number). -/
structure Bar where
  ts : ℚ
  o : ℚ
  h : ℚ
  l : ℚ
  c : ℚ
  v : ℚ
deriving DecidableEq

/-- One cell of a derived column: a rational float cell, a real-valued
cell (for square-root columns), or a string label. -/
inductive Cell where
  | num : FV ℚ → Cell
  | rnum : FV ℝ → Cell
  | str : String → Cell

/-- The DataFrame: the bar columns plus named derived columns. -/
structure Table where
  bars : List Bar
  derived : List (String × List Cell)

/-- The `Close` column. -/
def Table.closes (t : Table) : List ℚ := t.bars.map Bar.c

/-- The `High` column. -/
def Table.highs (t : Table) : List ℚ := t.bars.map Bar.h

/-- The `Low` column. -/
def Table.lows (t : Table) : List ℚ := t.bars.map Bar.l

/-- The `Volume` column. -/
def Table.vols (t : Table) : List ℚ := t.bars.map Bar.v

/-- Assignment `self.data[name] = col`: replaces any previous derived
column of that name. -/
def setCol (t : Table) (name : String) (col : List Cell) : Table :=
  { t with derived :=
      (name, col) :: t.derived.filter (fun q => decide (q.1 ≠ name)) }

/-- A sequence of column assignments, performed in order. -/
def setCols (t : Table) : List (String × List Cell) → Table
  | [] => t
  | (n, col) :: rest => setCols (setCol t n col) rest

/-- Column lookup by name. -/
def lookupCol (t : Table) (name : String) : Option (List Cell) :=
  (t.derived.find? (fun q => decide (q.1 = name))).map (fun q => q.2)

/-- Rational cells wrapped for a derived column. -/
def qCol (xs : List ℚ) : List Cell := xs.map (fun x => Cell.num (FV.fin x))

/-- FV cells wrapped for a derived column. -/
def fvCol (xs : List (FV ℚ)) : List Cell := xs.map Cell.num

/-- Real-valued cells wrapped for a derived column. -/
noncomputable def rCol (xs : List (FV ℝ)) : List Cell := xs.map Cell.rnum

/-- String cells wrapped for a derived column. -/
def sCol (xs : List String) : List Cell := xs.map Cell.str

/-- The columns written by `add_moving_averages` (lines 129-134). -/
def maCols (cl : List ℚ) : List (String × List Cell) :=
  [("MA_5", fvCol (maCol 5 cl)), ("MA_10", fvCol (maCol 10 cl)),
   ("MA_20", fvCol (maCol 20 cl)), ("MA_50", fvCol (maCol 50 cl)),
   ("MA_100", fvCol (maCol 100 cl)), ("MA_200", fvCol (maCol 200 cl))]

/-- `add_moving_averages` as a table transform. -/
def addMovingAverages (t : Table) : Table := setCols t (maCols t.closes)

/-- The columns written by `add_volatility` (lines 225-230). -/
noncomputable def volCols (cl : List ℚ) : List (String × List Cell) :=
  [("Vol_5", rCol (volCol 5 cl)), ("Vol_10", rCol (volCol 10 cl)),
   ("Vol_20", rCol (volCol 20 cl)), ("Vol_50", rCol (volCol 50 cl)),
   ("Vol_100", rCol (volCol 100 cl)), ("Vol_200", rCol (volCol 200 cl))]

/-- `add_volatility` as a table transform. -/
noncomputable def addVolatility (t : Table) : Table := setCols t (volCols t.closes)

/-- The columns written by `add_bollinger_bands` (lines 147-149). -/
noncomputable def bollCols (cl : List ℚ) : List (String × List Cell) :=
  [("Mid_Bollinger_Band", fvCol (bollMid cl)),
   ("Upper_Bollinger_Band", rCol (bollUpper cl)),
   ("Lower_Bollinger_Band", rCol (bollLower cl))]

/-- `add_bollinger_bands` as a table transform. -/
noncomputable def addBollingerBands (t : Table) : Table :=
  setCols t (bollCols t.closes)

/-- The columns written by `add_macd` (lines 162-165). -/
def macdCols (cl : List ℚ) : List (String × List Cell) :=
  [("EMA_12", qCol (ema12 cl)), ("EMA_26", qCol (ema26 cl)),
   ("MACD", qCol (macdList cl)), ("Signal_Line", qCol (signalLine cl))]

/-- `add_macd` as a table transform. -/
def addMACD (t : Table) : Table := setCols t (macdCols t.closes)

/-- The columns written by `add_rsi` (lines 178-184). -/
def rsiCols (cl : List ℚ) : List (String × List Cell) :=
  [("Change", fvCol (changeCol cl)), ("Gain", fvCol (gainCol cl)),
   ("Loss", fvCol (lossCol cl)), ("Avg_Gain_14", fvCol (avgGainCol cl)),
   ("Avg_Loss_14", fvCol (avgLossCol cl)), ("RS", fvCol (rsCol cl)),
   ("RSI", fvCol (rsiCol cl))]

/-- `add_rsi` as a table transform. -/
def addRSI (t : Table) : Table := setCols t (rsiCols t.closes)

/-- The three-state trend label of `add_rolling_columns` (lines 90-92):
`np.where(max_lag > min_lag, 'UpTrend', np.where(min_lag > max_lag,
'DownTrend', 'NoTrend'))`; NaN comparisons are false. -/
def trendCol (maxLag minLag : List (FV ℚ)) : List String :=
  List.zipWith
    (fun a b => if FV.gtb a b then "UpTrend"
      else if FV.gtb b a then "DownTrend" else "NoTrend") maxLag minLag

/-- The columns written by `add_rolling_columns` (lines 70-92). -/
def rollCols (n : Nat) (hi lo : List ℚ) : List (String × List Cell) :=
  [("High_" ++ toString n, fvCol (fwdMaxCol n hi)),
   ("High_forward_" ++ toString n, fvCol (fwdMaxLag n hi)),
   ("Low_" ++ toString n, fvCol (fwdMinCol n lo)),
   ("Low_forward_" ++ toString n, fvCol (fwdMinLag n lo)),
   ("High_Low_forward_" ++ toString n,
      sCol (trendCol (fwdMaxLag n hi) (fwdMinLag n lo)))]

/-- `add_rolling_columns` as a table transform. -/
def addRollingColumns (n : Nat) (t : Table) : Table :=
  setCols t (rollCols n t.highs t.lows)

/-- The column written by `add_OBV` (lines 530-537). -/
def obvCols (cl vol : List ℚ) : List (String × List Cell) :=
  [("OBV", qCol (obvList cl vol))]

/-- `add_OBV` as a table transform. -/
def addOBV (t : Table) : Table := setCols t (obvCols t.closes t.vols)

/-- The columns written by `add_on_balance_volume` (lines 655-657). -/
def onBalCols (cl vol : List ℚ) : List (String × List Cell) :=
  [("OBV_Change", qCol (obvChangeList cl vol)),
   ("On-Balance_Volume", qCol (onBalanceList cl vol))]

/-- `add_on_balance_volume` as a table transform. -/
def addOnBalanceVolume (t : Table) : Table :=
  setCols t (onBalCols t.closes t.vols)

/-- The columns written by `add_mass_index` (lines 774-781). -/
def massCols (hi lo : List ℚ) : List (String × List Cell) :=
  [("Mass_Index_9", fvCol (massIndexCol 9 hi lo)),
   ("Mass_Index_25", fvCol (massIndexCol 25 hi lo))]

/-- `add_mass_index` as a table transform. -/
def addMassIndex (t : Table) : Table := setCols t (massCols t.highs t.lows)

/-- Name of the column written by `scale_column` (line 116). -/
def scaledName (p : Nat) (name : String) : String :=
  "scaled_" ++ toString p ++ "_" ++ name

/-- Numeric view of a cell; a non-numeric cell has none. -/
def cellToFV : Cell → Option (FV ℚ)
  | Cell.num v => some v
  | _ => none

/-- Numeric view of a whole column. -/
def colToFVs : List Cell → Option (List (FV ℚ))
  | [] => some []
  | c :: t => (cellToFV c).bind (fun v => (colToFVs t).map (fun vs => v :: vs))

/-- `scale_column` (lines 96-118) as a table transform: reads the named
column (failing like the Python `KeyError` when it is absent), writes
the scaled column, then deletes the source column.  Returns `none` when
the read fails. -/
def scaleColumn (t : Table) (name : String) (p : Nat) : Option Table :=
  (lookupCol t name).bind (fun col =>
    (colToFVs col).map (fun xs =>
      { setCol t (scaledName p name) (fvCol (scaleList p xs)) with
        derived := (setCol t (scaledName p name)
          (fvCol (scaleList p xs))).derived.filter
            (fun q => decide (q.1 ≠ name)) }))

theorem Table.ext' (t₁ t₂ : Table) (hb : t₁.bars = t₂.bars)
    (hd : t₁.derived = t₂.derived) : t₁ = t₂ := by
  cases t₁
  cases t₂
  simp_all

theorem setCol_bars (t : Table) (n : String) (col : List Cell) :
    (setCol t n col).bars = t.bars := rfl

theorem setCols_bars (t : Table) (L : List (String × List Cell)) :
    (setCols t L).bars = t.bars := by
  induction L generalizing t with
  | nil => rfl
  | cons q rest ih =>
    obtain ⟨n, col⟩ := q
    rw [setCols, ih, setCol_bars]

theorem setCols_closes (t : Table) (L : List (String × List Cell)) :
    (setCols t L).closes = t.closes := by
  simp [Table.closes, setCols_bars]

theorem setCols_highs (t : Table) (L : List (String × List Cell)) :
    (setCols t L).highs = t.highs := by
  simp [Table.highs, setCols_bars]

theorem setCols_lows (t : Table) (L : List (String × List Cell)) :
    (setCols t L).lows = t.lows := by
  simp [Table.lows, setCols_bars]

theorem setCols_vols (t : Table) (L : List (String × List Cell)) :
    (setCols t L).vols = t.vols := by
  simp [Table.vols, setCols_bars]

/-- Derived columns with any of the given names removed. -/
def delNames (N : List String) (d : List (String × List Cell)) :
    List (String × List Cell) :=
  d.filter (fun q => decide (q.1 ∉ N))

theorem delNames_nil (d : List (String × List Cell)) : delNames [] d = d := by
  simp [delNames]

theorem filter_subsume (p q : (String × List Cell) → Bool)
    (h : ∀ x, p x = true → q x = true) (d : List (String × List Cell)) :
    (d.filter q).filter p = d.filter p := by
  induction d with
  | nil => rfl
  | cons a d ih =>
    by_cases hq : q a = true
    · rw [List.filter_cons, if_pos hq, List.filter_cons, List.filter_cons, ih]
    · have hp : ¬ p a = true := fun hco => hq (h a hco)
      rw [List.filter_cons, if_neg hq, List.filter_cons, if_neg hp, ih]

theorem delNames_filter_ne (N : List String) (n : String) (hn : n ∈ N)
    (d : List (String × List Cell)) :
    delNames N (d.filter (fun q => decide (q.1 ≠ n))) = delNames N d := by
  apply filter_subsume
  intro x hx
  simp at hx ⊢
  intro hc
  rw [hc] at hx
  exact absurd hn hx

theorem delNames_cons (n : String) (R : List String)
    (d : List (String × List Cell)) :
    delNames (n :: R) d =
      delNames R (d.filter (fun q => decide (q.1 ≠ n))) := by
  rw [delNames, delNames, List.filter_filter]
  apply List.filter_congr
  intro x _
  simp [List.mem_cons, not_or, Bool.and_comm]

theorem delNames_setCols (L : List (String × List Cell)) :
    ∀ (t : Table) (N : List String), (∀ n ∈ L.map Prod.fst, n ∈ N) →
    delNames N (setCols t L).derived = delNames N t.derived := by
  induction L with
  | nil =>
    intro t N _
    rfl
  | cons q rest ih =>
    intro t N hN
    obtain ⟨n, col⟩ := q
    rw [setCols]
    rw [ih (setCol t n col) N (fun m hm => hN m (by simp [hm]))]
    show delNames N
        ((n, col) :: t.derived.filter (fun q => decide (q.1 ≠ n))) = _
    have hn : n ∈ N := hN n (by simp)
    rw [delNames, List.filter_cons, if_neg (by simpa using hn)]
    exact delNames_filter_ne N n hn t.derived

theorem setCols_congr (L : List (String × List Cell)) :
    ∀ (t₁ t₂ : Table),
    delNames (L.map Prod.fst) t₁.derived = delNames (L.map Prod.fst) t₂.derived →
    (setCols t₁ L).derived = (setCols t₂ L).derived := by
  induction L with
  | nil =>
    intro t₁ t₂ h
    simp only [List.map_nil] at h
    rw [delNames_nil, delNames_nil] at h
    exact h
  | cons q rest ih =>
    intro t₁ t₂ h
    obtain ⟨n, col⟩ := q
    rw [setCols, setCols]
    apply ih
    simp only [List.map_cons, delNames_cons] at h
    show delNames _ ((n, col) :: t₁.derived.filter (fun q => decide (q.1 ≠ n))) =
      delNames _ ((n, col) :: t₂.derived.filter (fun q => decide (q.1 ≠ n)))
    by_cases hc : n ∈ rest.map Prod.fst
    · rw [delNames, List.filter_cons, if_neg (by simpa using hc),
        delNames, List.filter_cons, if_neg (by simpa using hc)]
      exact h
    · rw [delNames, List.filter_cons, if_pos (by simpa using hc),
        delNames, List.filter_cons, if_pos (by simpa using hc)]
      exact congrArg _ h

theorem setCols_idem (t : Table) (L : List (String × List Cell)) :
    setCols (setCols t L) L = setCols t L := by
  apply Table.ext'
  · rw [setCols_bars, setCols_bars]
  · exact setCols_congr L (setCols t L) t
      (delNames_setCols L t (L.map Prod.fst) (fun n hn => hn))

theorem find?_filter_of_imp (p q : (String × List Cell) → Bool)
    (h : ∀ x, p x = true → q x = true) (l : List (String × List Cell)) :
    (l.filter q).find? p = l.find? p := by
  induction l with
  | nil => rfl
  | cons a l ih =>
    by_cases hq : q a = true
    · rw [List.filter_cons, if_pos hq]
      by_cases hp : p a = true
      · rw [List.find?_cons_of_pos _ hp, List.find?_cons_of_pos _ hp]
      · rw [List.find?_cons_of_neg _ hp, List.find?_cons_of_neg _ hp]
        exact ih
    · have hp : ¬ p a = true := fun hco => hq (h a hco)
      rw [List.filter_cons, if_neg hq, List.find?_cons_of_neg _ hp]
      exact ih

theorem scaledName_ne (p : Nat) (name : String) : scaledName p name ≠ name := by
  intro hc
  have hl := congrArg String.length hc
  rw [scaledName] at hl
  have h7 : "scaled_".length = 7 := rfl
  have h1 : "_".length = 1 := rfl
  rw [String.length_append, String.length_append, String.length_append,
    h7, h1] at hl
  omega

-- Candlestick pattern analysis (src/SwingTrading.py lines 412-490).

/-- Python's short-circuit `and` over Boolean scalars that may fail to
evaluate (`none` models an exception, e.g. the KeyError raised by a
negative label lookup). -/
def pand (a b : Option Bool) : Option Bool :=
  match a with
  | none => none
  | some false => some false
  | some true => b

/-- Scalar `>` on possibly-missing values. -/
def pyGt (a b : Option ℚ) : Option Bool :=
  match a, b with
  | some x, some y => some (decide (y < x))
  | _, _ => none

/-- Scalar `<` on possibly-missing values. -/
def pyLt (a b : Option ℚ) : Option Bool :=
  match a, b with
  | some x, some y => some (decide (x < y))
  | _, _ => none

/-- Scalar `==` on possibly-missing values. -/
def pyEq (a b : Option ℚ) : Option Bool :=
  match a, b with
  | some x, some y => some (decide (x = y))
  | _, _ => none

/-- Scalar subtraction on possibly-missing values. -/
def pySub (a b : Option ℚ) : Option ℚ :=
  match a, b with
  | some x, some y => some (x - y)
  | _, _ => none

/-- One branch of the `elif` chain: a failing condition propagates the
exception, a true condition selects flag `k`, a false one falls
through. -/
def tryC (cond : Option Bool) (k : Nat) (rest : Option (Option Nat)) :
    Option (Option Nat) :=
  match cond with
  | none => none
  | some true => some (some k)
  | some false => rest

/-- The `elif` chain of `add_Candlestick_Pattern_Analysis`
(lines 445-488) evaluated at one row: `b0` is row `i`, `b1` row `i-1`,
and the optional `ob2`/`ob3` are rows `i-2`/`i-3` (absent for `i < 3`,
in which case a predicate that needs them fails like the Python
KeyError).  Returns the 0-based index of the first matching pattern. -/
def candleRow (b0 b1 : Bar) (ob2 ob3 : Option Bar) : Option (Option Nat) :=
  tryC (pand (pyGt (some b0.o) (some b1.c)) (pyGt (some b0.c) (some b1.o))) 0
  (tryC (pand (pyLt (some b0.o) (some b1.c)) (pyLt (some b0.c) (some b1.o))) 1
  (tryC (pand (pand (pyEq (some b0.l) (some b0.o)) (pyLt (some b0.l) (some b0.c)))
      (pyGt (pySub (some b0.c) (some b0.l)) (pySub (some b0.h) (some b0.c)))) 2
  (tryC (pand (pand (pyEq (some b0.h) (some b0.o)) (pyGt (some b0.h) (some b0.c)))
      (pyGt (pySub (some b0.h) (some b0.o)) (pySub (some b0.c) (some b0.l)))) 3
  (tryC (pyEq (some b0.o) (some b0.c)) 4
  (tryC (pand (pand (pyGt (some b0.o) (some b1.c)) (pyGt (some b0.o) (some b0.c)))
      (pyGt (some b1.c) (some b0.o))) 5
  (tryC (pand (pand (pyEq (some b0.h) (some b0.o)) (pyGt (some b0.h) (some b0.c)))
      (pyLt (pySub (some b0.h) (some b0.o)) (pySub (some b0.c) (some b0.l)))) 6
  (tryC (pand (pand (pyEq (some b0.l) (some b0.o)) (pyLt (some b0.l) (some b0.c)))
      (pyLt (pySub (some b0.c) (some b0.l)) (pySub (some b0.h) (some b0.c)))) 7
  (tryC (pand (pand (pyGt (some b0.l) (some b1.l)) (pyLt (some b0.h) (some b1.h)))
      (pyGt (some b0.o) (some b1.c))) 8
  (tryC (pand (pand (pyGt (some b0.h) (some b1.h)) (pyLt (some b0.l) (some b1.l)))
      (pyLt (some b0.o) (some b1.c))) 9
  (tryC (pand (pand (pand (pyGt (some b0.c) (some b0.o))
        (pyGt (some b0.c) (some b1.c))) (pyGt (some b1.c) (ob2.map Bar.c)))
      (pyGt (ob2.map Bar.c) (ob3.map Bar.c))) 10
  (tryC (pand (pand (pand (pyLt (some b0.c) (some b0.o))
        (pyLt (some b0.c) (some b1.c))) (pyLt (some b1.c) (ob2.map Bar.c)))
      (pyLt (ob2.map Bar.c) (ob3.map Bar.c))) 11
  (tryC (pand (pand (pand (pand (pyGt (some b0.c) (some b0.o))
          (pyLt (some b0.o) (some b1.c))) (pyGt (ob2.map Bar.c) (ob2.map Bar.o)))
        (pyGt (ob2.map Bar.o) (some b1.c))) (pyGt (some b0.c) (ob2.map Bar.c))) 12
  (tryC (pand (pand (pand (pand (pyLt (some b0.c) (some b0.o))
          (pyGt (some b0.o) (some b1.c))) (pyLt (ob2.map Bar.c) (ob2.map Bar.o)))
        (pyLt (ob2.map Bar.o) (some b1.c))) (pyLt (some b0.c) (ob2.map Bar.c))) 13
  (tryC (pand (pand (pand (pyLt (some b0.o) (some b1.c))
        (pyGt (some b0.c) (some b0.o))) (pyLt (some b0.o) (ob2.map Bar.c)))
      (pyLt (ob2.map Bar.c) (some b1.o))) 14
  (tryC (pand (pand (pand (pyGt (some b0.o) (some b1.c))
        (pyLt (some b0.c) (some b0.o))) (pyGt (some b0.o) (ob2.map Bar.c)))
      (pyGt (ob2.map Bar.c) (some b1.o))) 15
  (tryC (pand (pand (pand (pyLt (some b0.o) (some b1.c))
        (pyGt (some b0.c) (some b0.o))) (pyGt (some b0.o) (ob2.map Bar.c)))
      (pyGt (ob2.map Bar.c) (some b1.o))) 16
  (tryC (pand (pand (pand (pyGt (some b0.o) (some b1.c))
        (pyLt (some b0.c) (some b0.o))) (pyLt (some b0.o) (ob2.map Bar.c)))
      (pyLt (ob2.map Bar.c) (some b1.o))) 17
  (tryC (pand (pand (pand (pyGt (some b0.o) (some b1.c))
        (pyGt (some b0.c) (some b0.o))) (pyLt (some b0.o) (ob2.map Bar.c)))
      (pyLt (ob2.map Bar.c) (some b1.o))) 18
  (tryC (pand (pand (pand (pyLt (some b0.o) (some b1.c))
        (pyLt (some b0.c) (some b0.o))) (pyGt (some b0.o) (ob2.map Bar.c)))
      (pyGt (ob2.map Bar.c) (some b1.o))) 19
  (tryC (pand (pyLt (some b0.o) (some b1.c)) (pyGt (some b0.c) (some b1.c))) 20
  (tryC (pand (pyGt (some b0.o) (some b1.c)) (pyLt (some b0.c) (some b1.c))) 21
  (some none))))))))))))))))))))))

/-- The same chain with every lookup in range, as a total function of
the four bars: the first predicate (in source order) that holds. -/
def firstMatchTotal (b0 b1 b2 b3 : Bar) : Option Nat :=
  if decide (b1.c < b0.o) && decide (b1.o < b0.c) then some 0
  else if decide (b0.o < b1.c) && decide (b0.c < b1.o) then some 1
  else if (decide (b0.l = b0.o) && decide (b0.l < b0.c)) &&
      decide (b0.h - b0.c < b0.c - b0.l) then some 2
  else if (decide (b0.h = b0.o) && decide (b0.c < b0.h)) &&
      decide (b0.c - b0.l < b0.h - b0.o) then some 3
  else if decide (b0.o = b0.c) then some 4
  else if (decide (b1.c < b0.o) && decide (b0.c < b0.o)) &&
      decide (b0.o < b1.c) then some 5
  else if (decide (b0.h = b0.o) && decide (b0.c < b0.h)) &&
      decide (b0.h - b0.o < b0.c - b0.l) then some 6
  else if (decide (b0.l = b0.o) && decide (b0.l < b0.c)) &&
      decide (b0.c - b0.l < b0.h - b0.c) then some 7
  else if (decide (b1.l < b0.l) && decide (b0.h < b1.h)) &&
      decide (b1.c < b0.o) then some 8
  else if (decide (b1.h < b0.h) && decide (b0.l < b1.l)) &&
      decide (b0.o < b1.c) then some 9
  else if ((decide (b0.o < b0.c) && decide (b1.c < b0.c)) &&
      decide (b2.c < b1.c)) && decide (b3.c < b2.c) then some 10
  else if ((decide (b0.c < b0.o) && decide (b0.c < b1.c)) &&
      decide (b1.c < b2.c)) && decide (b2.c < b3.c) then some 11
  else if (((decide (b0.o < b0.c) && decide (b0.o < b1.c)) &&
      decide (b2.o < b2.c)) && decide (b1.c < b2.o)) &&
      decide (b2.c < b0.c) then some 12
  else if (((decide (b0.c < b0.o) && decide (b1.c < b0.o)) &&
      decide (b2.c < b2.o)) && decide (b2.o < b1.c)) &&
      decide (b0.c < b2.c) then some 13
  else if ((decide (b0.o < b1.c) && decide (b0.o < b0.c)) &&
      decide (b0.o < b2.c)) && decide (b2.c < b1.o) then some 14
  else if ((decide (b1.c < b0.o) && decide (b0.c < b0.o)) &&
      decide (b2.c < b0.o)) && decide (b1.o < b2.c) then some 15
  else if ((decide (b0.o < b1.c) && decide (b0.o < b0.c)) &&
      decide (b2.c < b0.o)) && decide (b1.o < b2.c) then some 16
  else if ((decide (b1.c < b0.o) && decide (b0.c < b0.o)) &&
      decide (b0.o < b2.c)) && decide (b2.c < b1.o) then some 17
  else if ((decide (b1.c < b0.o) && decide (b0.o < b0.c)) &&
      decide (b0.o < b2.c)) && decide (b2.c < b1.o) then some 18
  else if ((decide (b0.o < b1.c) && decide (b0.c < b0.o)) &&
      decide (b2.c < b0.o)) && decide (b1.o < b2.c) then some 19
  else if decide (b0.o < b1.c) && decide (b1.c < b0.c) then some 20
  else if decide (b1.c < b0.o) && decide (b0.c < b1.c) then some 21
  else none

theorem pand_some_some (x y : Bool) : pand (some x) (some y) = some (x && y) := by
  cases x <;> rfl

theorem tryC_some (b : Bool) (k : Nat) (rest : Option (Option Nat)) :
    tryC (some b) k rest = if b then some (some k) else rest := by
  cases b <;> rfl

theorem some_ite_option (b : Bool) (X Y : Option Nat) :
    (some (if b then X else Y) : Option (Option Nat)) =
      if b then some X else some Y := by
  cases b <;> rfl

theorem candleRow_total (b0 b1 b2 b3 : Bar) :
    candleRow b0 b1 (some b2) (some b3) =
      some (firstMatchTotal b0 b1 b2 b3) := by
  simp only [candleRow, firstMatchTotal, Option.map_some', pyGt, pyLt, pyEq,
    pySub, pand_some_some, tryC_some, some_ite_option]

/-- Sequence a list of possibly-failed row results: the loop raises as
soon as any row raises. -/
def seqOpt : List (Option (Option Nat)) → Option (List (Option Nat))
  | [] => some []
  | x :: t => x.bind (fun v => (seqOpt t).map (fun vs => v :: vs))

/-- Per-row result of the candlestick loop: row 0 is never visited
(`range(1, len)`), every later row runs the `elif` chain. -/
def candleRowAt (bars : List Bar) (i : Nat) : Option (Option Nat) :=
  if i = 0 then some none
  else
    match bars[i]?, bars[i - 1]? with
    | some b0, some b1 =>
        candleRow b0 b1 (if 2 ≤ i then bars[i - 2]? else none)
          (if 3 ≤ i then bars[i - 3]? else none)
    | _, _ => none

/-- All rows' first-match results, or failure if any row raises. -/
def candleFlags (bars : List Bar) : Option (List (Option Nat)) :=
  seqOpt ((List.range bars.length).map (candleRowAt bars))

/-- The 22 pattern column names, in the order the source initializes and
tests them (lines 421-442 and 445-488). -/
def patNames : List String :=
  ["Bullish_Engulfing", "Bearish_Engulfing", "Hammer", "Shooting_Star",
   "Doji", "Harami", "Hanging_Man", "Inverted_Hammer", "Tweezer_Bottom",
   "Tweezer_Top", "Bullish_Three_Line_Strike", "Bearish_Three_Line_Strike",
   "Bullish_Abandoned_Baby", "Bearish_Abandoned_Baby", "Bullish_Kicker",
   "Bearish_Kicker", "Bullish_Kick_Backs", "Bearish_Kick_Backs",
   "Bullish_Harami_Cross", "Bearish_Harami_Cross",
   "Bullish_Engulfing_Pattern", "Bearish_Engulfing_Pattern"]

/-- A 0/1 flag cell: 1 exactly when this row's first match is pattern
`k`. -/
def flagCell (k : Nat) (f : Option Nat) : Cell :=
  Cell.num (FV.fin (if f = some k then 1 else 0))

/-- The 22 pattern columns: the net effect of zero-initialization plus
the first-match writes of the loop. -/
def candleCols (fl : List (Option Nat)) : List (String × List Cell) :=
  (List.range 22).map (fun k => (patNames.getD k "", fl.map (flagCell k)))

/-- `add_Candlestick_Pattern_Analysis` as a table transform; `none`
models the KeyError the source raises when a predicate at row 1 or 2
reads a bar before row 0. -/
def addCandlestick (t : Table) : Option Table :=
  (candleFlags t.bars).map (fun fl => setCols t (candleCols fl))

theorem seqOpt_spec (l : List (Option (Option Nat)))
    (res : List (Option Nat)) (h : seqOpt l = some res) :
    res.length = l.length ∧
      ∀ i, i < l.length → ∃ v, res[i]? = some v ∧ l[i]? = some (some v) := by
  induction l generalizing res with
  | nil =>
    simp [seqOpt] at h
    subst h
    exact ⟨rfl, fun i hi => absurd hi (by simp)⟩
  | cons x t ih =>
    cases hx : x with
    | none =>
      rw [seqOpt, hx] at h
      simp at h
    | some v =>
      cases hs : seqOpt t with
      | none =>
        rw [seqOpt, hx, hs] at h
        simp at h
      | some vs =>
        rw [seqOpt, hx, hs] at h
        simp at h
        obtain ⟨hlen, hel⟩ := ih vs hs
        subst h
        refine ⟨by simp [hlen], ?_⟩
        intro i hi
        cases i with
        | zero => exact ⟨v, by simp, by simp [hx]⟩
        | succ j =>
          obtain ⟨w, hw1, hw2⟩ := hel j (by simpa using hi)
          exact ⟨w, by simpa using hw1, by simpa using hw2⟩

theorem lookupCol_setCol_same (t : Table) (n : String) (col : List Cell) :
    lookupCol (setCol t n col) n = some col := by
  rw [lookupCol, setCol]
  rw [List.find?_cons_of_pos _ (by simp)]
  rfl

theorem lookupCol_setCol_other (t : Table) (n : String) (col : List Cell)
    (m : String) (h : m ≠ n) : lookupCol (setCol t n col) m = lookupCol t m := by
  rw [lookupCol, setCol, lookupCol]
  show ((((n, col) :: t.derived.filter (fun q => decide (q.1 ≠ n))).find?
    (fun q => decide (q.1 = m))).map (fun q => q.2)) = _
  rw [List.find?_cons_of_neg _ (by simp; exact fun hc => h hc.symm)]
  rw [find?_filter_of_imp (fun q => decide (q.1 = m)) (fun q => decide (q.1 ≠ n))
    (by intro x hx; simp at hx ⊢; rw [hx]; exact fun hc => h hc) t.derived]

theorem lookupCol_setCols_not_mem (L : List (String × List Cell)) :
    ∀ (t : Table) (m : String), m ∉ L.map Prod.fst →
    lookupCol (setCols t L) m = lookupCol t m := by
  induction L with
  | nil => intro t m _; rfl
  | cons q rest ih =>
    intro t m hm
    obtain ⟨n, col⟩ := q
    simp at hm
    rw [setCols, ih (setCol t n col) m (by simp; exact hm.2)]
    exact lookupCol_setCol_other t n col m hm.1

theorem lookupCol_setCols_mem (L : List (String × List Cell)) :
    ∀ (t : Table) (n : String) (col : List Cell), (n, col) ∈ L →
    (L.map Prod.fst).Nodup → lookupCol (setCols t L) n = some col := by
  induction L with
  | nil => intro t n col h _; simp at h
  | cons q rest ih =>
    intro t n col hmem hnd
    obtain ⟨n', col'⟩ := q
    rw [List.map_cons, List.nodup_cons] at hnd
    rcases List.mem_cons.mp hmem with h | h
    · injection h with h1 h2
      subst h1
      subst h2
      rw [setCols, lookupCol_setCols_not_mem rest (setCol t n col) n hnd.1]
      exact lookupCol_setCol_same t n col
    · rw [setCols]
      exact ih (setCol t n' col') n col h hnd.2

/-- C5 (amended).  After `add_Candlestick_Pattern_Analysis` (when it
does not raise): the 22 flag columns are the indicator columns of the
per-row first match of the ordered `elif` chain, so at most one flag is
1 per row; row 0 is never visited and carries all zeros; and for every
row `i ≥ 3` (full lookback) the recorded flag is `firstMatchTotal`, the
first predicate of the chain that holds.  The claim's statement that
every row `i < 3` carries all zeros is false: the loop starts at row 1,
not row 3. -/
theorem C5_candlestick_first_match (t t' : Table)
    (h : addCandlestick t = some t') :
    ∃ fl, candleFlags t.bars = some fl ∧ fl.length = t.bars.length ∧
      (∀ k, k < 22 →
        lookupCol t' (patNames.getD k "") = some (fl.map (flagCell k))) ∧
      (t.bars ≠ [] → fl[0]? = some none) ∧
      (∀ (i k k' : Nat) (f : Option Nat), fl[i]? = some f → k ≠ k' →
        (if f = some k then (1 : ℚ) else 0) = 1 →
        (if f = some k' then (1 : ℚ) else 0) = 0) ∧
      (∀ i b0 b1 b2 b3, 3 ≤ i →
        t.bars[i]? = some b0 → t.bars[i - 1]? = some b1 →
        t.bars[i - 2]? = some b2 → t.bars[i - 3]? = some b3 →
        fl[i]? = some (firstMatchTotal b0 b1 b2 b3)) := by
  rw [addCandlestick] at h
  cases hcf : candleFlags t.bars with
  | none => rw [hcf] at h; simp at h
  | some fl =>
    rw [hcf] at h
    simp at h
    subst h
    have hspec := seqOpt_spec _ fl hcf
    have hlenl : ((List.range t.bars.length).map (candleRowAt t.bars)).length =
        t.bars.length := by simp
    have hlen : fl.length = t.bars.length := by rw [hspec.1, hlenl]
    have hrowAt : ∀ i, i < t.bars.length →
        ∃ v, fl[i]? = some v ∧ candleRowAt t.bars i = some v := by
      intro i hi
      obtain ⟨v, hv1, hv2⟩ := hspec.2 i (by rw [hlenl]; exact hi)
      refine ⟨v, hv1, ?_⟩
      rw [List.getElem?_map, List.getElem?_range hi] at hv2
      simpa using hv2
    refine ⟨fl, rfl, hlen, ?_, ?_, ?_, ?_⟩
    · intro k hk
      have hnames : (candleCols fl).map Prod.fst =
          (List.range 22).map (fun k => patNames.getD k "") := by
        rw [candleCols, List.map_map]
        rfl
      have hnames2 : (List.range 22).map (fun k => patNames.getD k "") =
          patNames := by rfl
      have hnd : ((candleCols fl).map Prod.fst).Nodup := by
        rw [hnames, hnames2]
        decide
      have hmem : (patNames.getD k "", fl.map (flagCell k)) ∈ candleCols fl := by
        rw [candleCols]
        exact List.mem_map.mpr ⟨k, List.mem_range.mpr hk, rfl⟩
      exact lookupCol_setCols_mem (candleCols fl) t _ _ hmem hnd
    · intro hne
      have h0 : 0 < t.bars.length := List.length_pos.mpr hne
      obtain ⟨v, hv1, hv2⟩ := hrowAt 0 h0
      rw [candleRowAt, if_pos rfl] at hv2
      simp at hv2
      rw [hv1, hv2]
    · intro i k k' f _ hkk h1
      by_cases hf : f = some k
      · have hk2 : f ≠ some k' := by
          rw [hf]
          intro hc
          exact hkk (Option.some.inj hc)
        rw [if_neg hk2]
      · rw [if_neg hf] at h1
        norm_num at h1
    · intro i b0 b1 b2 b3 h3 hb0 hb1 hb2 hb3
      have hiN : i < t.bars.length := by
        by_contra hc
        rw [List.getElem?_eq_none (by omega)] at hb0
        exact Option.noConfusion hb0
      obtain ⟨v, hv1, hv2⟩ := hrowAt i hiN
      rw [candleRowAt, if_neg (by omega), hb0, hb1] at hv2
      simp only [if_pos (by omega : 2 ≤ i), if_pos h3] at hv2
      rw [hb2, hb3, candleRow_total] at hv2
      rw [hv1]
      exact congrArg some (Option.some.inj hv2).symm

/-- A two-row table on which the first predicate fires at row 1. -/
def candleTblEx : Table :=
  { bars := [⟨0, 1, 5, 0, 2, 1⟩, ⟨1, 3, 5, 0, 4, 1⟩], derived := [] }

/-- Counterexample to C5 as stated: on a two-row table whose second bar
engulfs the first, `add_Candlestick_Pattern_Analysis` sets
`Bullish_Engulfing` to 1 at row 1, although 1 < 3: the loop visits rows
1 and 2, so rows below index 3 are not all-zero. -/
theorem C5_counterexample :
    (addCandlestick candleTblEx).bind
        (fun t' => lookupCol t' "Bullish_Engulfing") =
      some [Cell.num (FV.fin 0), Cell.num (FV.fin 1)] ∧
    FV.fin (1 : ℚ) ≠ FV.fin (0 : ℚ) ∧ (1 : Nat) < 3 := by
  refine ⟨?_, by simp, by omega⟩
  rfl

/-- Witness for the amended C5 at a concrete input. -/
theorem C5_witness :
    addCandlestick candleTblEx =
      some (setCols candleTblEx (candleCols [none, some 0])) ∧
    lookupCol (setCols candleTblEx (candleCols [none, some 0]))
        (patNames.getD 0 "") = some ([none, some 0].map (flagCell 0)) := by
  have hyp : addCandlestick candleTblEx =
      some (setCols candleTblEx (candleCols [none, some 0])) := by rfl
  obtain ⟨fl, hfl, _, hcols, _, _, _⟩ :=
    C5_candlestick_first_match candleTblEx _ hyp
  have hflv : candleFlags candleTblEx.bars = some [none, some 0] := by rfl
  rw [hflv] at hfl
  have hfl2 : fl = [none, some 0] := (Option.some.inj hfl).symm
  subst hfl2
  exact ⟨hyp, hcols 0 (by omega)⟩

theorem addCandlestick_some (t t' : Table) (h : addCandlestick t = some t') :
    t'.bars = t.bars ∧ addCandlestick t' = some t' := by
  rw [addCandlestick] at h
  cases hcf : candleFlags t.bars with
  | none =>
    rw [hcf] at h
    simp at h
  | some fl =>
    rw [hcf] at h
    simp at h
    subst h
    refine ⟨setCols_bars t _, ?_⟩
    rw [addCandlestick]
    have hb : (setCols t (candleCols fl)).bars = t.bars := setCols_bars t _
    rw [show candleFlags (setCols t (candleCols fl)).bars = some fl from
      by rw [hb]; exact hcf]
    simp
    exact setCols_idem t _

theorem scaleColumn_spec (t t' : Table) (name : String) (p : Nat)
    (h : scaleColumn t name p = some t') :
    t'.bars = t.bars ∧ lookupCol t' name = none ∧
    (∀ m, m ≠ name → m ≠ scaledName p name → lookupCol t' m = lookupCol t m) ∧
    ∃ col xs, lookupCol t name = some col ∧ colToFVs col = some xs ∧
      lookupCol t' (scaledName p name) = some (fvCol (scaleList p xs)) := by
  rw [scaleColumn] at h
  cases hl : lookupCol t name with
  | none =>
    rw [hl] at h
    simp at h
  | some col =>
    rw [hl] at h
    simp only [Option.some_bind] at h
    cases hm : colToFVs col with
    | none =>
      rw [hm] at h
      simp at h
    | some xs =>
      rw [hm] at h
      simp only [Option.map_some'] at h
      have ht' := Option.some.inj h
      subst ht'
      refine ⟨rfl, ?_, ?_, col, xs, rfl, hm, ?_⟩
      · rw [lookupCol]
        rw [List.find?_eq_none.mpr ?hall]
        · rfl
        case hall =>
          intro q hq
          have := (List.mem_filter.mp hq).2
          simp at this ⊢
          exact this
      · intro m hm1 hm2
        show ((((setCol t (scaledName p name) (fvCol (scaleList p xs))).derived.filter
          (fun q => decide (q.1 ≠ name))).find?
            (fun q => decide (q.1 = m))).map (fun q => q.2)) = _
        rw [find?_filter_of_imp (fun q => decide (q.1 = m))
          (fun q => decide (q.1 ≠ name))
          (by intro x hx; simp at hx ⊢; rw [hx]; exact fun hc => hm1 hc) _]
        exact lookupCol_setCol_other t (scaledName p name) _ m hm2
      · show ((((scaledName p name, fvCol (scaleList p xs)) ::
          t.derived.filter (fun q => decide (q.1 ≠ scaledName p name))).filter
            (fun q => decide (q.1 ≠ name))).find?
              (fun q => decide (q.1 = scaledName p name))).map (fun q => q.2) = _
        rw [List.filter_cons, if_pos (by simpa using scaledName_ne p name)]
        rw [List.find?_cons_of_pos _ (by simp)]
        rfl

-- The remaining indicator methods of the class (src/SwingTrading.py
-- lines 189-1627).  Shared combinators first: the IEEE scalar
-- operations and pandas primitives those methods use.

/-- IEEE-style multiplication on rational cells, as numpy performs it
on float64: NaN propagates and `0 * ∞` is NaN. -/
def FV.mul : FV ℚ → FV ℚ → FV ℚ
  | FV.nan, _ => FV.nan
  | _, FV.nan => FV.nan
  | FV.inf b, FV.inf c => FV.inf (b == c)
  | FV.inf b, FV.fin a => if a = 0 then FV.nan else FV.inf (b == decide (0 < a))
  | FV.fin a, FV.inf b => if a = 0 then FV.nan else FV.inf (b == decide (0 < a))
  | FV.fin a, FV.fin b => FV.fin (a * b)

/-- IEEE absolute value (`abs(...)` / `Series.abs()`): |±∞| = +∞ and
NaN stays NaN. -/
def FV.fabs : FV ℚ → FV ℚ
  | FV.nan => FV.nan
  | FV.inf _ => FV.inf true
  | FV.fin a => FV.fin |a|

/-- IEEE negation (the unary minus of `-self.data['Low'].diff()`). -/
def FV.fneg : FV ℚ → FV ℚ
  | FV.nan => FV.nan
  | FV.inf b => FV.inf !b
  | FV.fin a => FV.fin (-a)

/-- `Series.clip(lower=0)`: NaN passes through, negative values and
−∞ are raised to 0. -/
def FV.clip0 : FV ℚ → FV ℚ
  | FV.nan => FV.nan
  | FV.inf b => if b then FV.inf true else FV.fin 0
  | FV.fin a => FV.fin (max a 0)

/-- Row-wise maximum of `DataFrame.max(axis=1)` with the pandas default
`skipna=True`: a NaN operand is ignored rather than propagated. -/
def FV.nmax : FV ℚ → FV ℚ → FV ℚ
  | FV.nan, y => y
  | x, FV.nan => x
  | x, y => FV.fmax x y

/-- Row-wise minimum of `DataFrame.min(axis=1)` with `skipna=True`. -/
def FV.nmin : FV ℚ → FV ℚ → FV ℚ
  | FV.nan, y => y
  | x, FV.nan => x
  | x, y => FV.fmin x y

/-- `Series.shift(k)`: k NaNs enter at the head, the last k values
fall off. -/
def shiftF {α : Type} (k : Nat) (xs : List (FV α)) : List (FV α) :=
  List.replicate (min k xs.length) FV.nan ++ xs.take (xs.length - k)

/-- `Series.diff(k)`: `x - x.shift(k)`. -/
def diffF (k : Nat) (xs : List (FV ℚ)) : List (FV ℚ) :=
  List.zipWith FV.sub xs (shiftF k xs)

/-- `Series.diff(k)` on an all-finite column. -/
def diffQ (k : Nat) (cl : List ℚ) : List (FV ℚ) := diffF k (finCol cl)

/-- `Series.fillna(0)`: NaN cells become 0; infinities and finite
cells pass through. -/
def fillna0 (xs : List (FV ℚ)) : List (FV ℚ) :=
  xs.map (fun v => match v with | FV.nan => FV.fin 0 | v => v)

/-- Running state of `Series.cumsum()` with the pandas default
`skipna=True`: a NaN cell stays NaN and leaves the accumulator
untouched; every other cell updates it with IEEE addition. -/
def cumsumGo (acc : FV ℚ) : List (FV ℚ) → List (FV ℚ)
  | [] => []
  | FV.nan :: t => FV.nan :: cumsumGo acc t
  | x :: t => FV.add acc x :: cumsumGo (FV.add acc x) t

/-- `Series.cumsum()` on an FV column. -/
def cumsumF (xs : List (FV ℚ)) : List (FV ℚ) := cumsumGo (FV.fin 0) xs

/-- Reducer of `rolling(w).sum()` on an FV column (NaN-strict, since a
NaN inside a full window puts the observation count below
`min_periods = w`). -/
def foldSum (ws : List (FV ℚ)) : FV ℚ := ws.foldl FV.add (FV.fin 0)

/-- A column multiplied by a scalar constant placed on the left
(`2 * series`). -/
def mulc (c : ℚ) (xs : List (FV ℚ)) : List (FV ℚ) :=
  xs.map (fun v => FV.mul (FV.fin c) v)

/-- Indexed read of an FV column (reads outside the column give NaN;
only in-range indices are used). -/
def nthF (xs : List (FV ℚ)) (i : Nat) : FV ℚ := xs.getD i FV.nan

/-- `ewm(span=s, adjust=False).mean()` on an all-finite column, after
the first row: `yᵢ = (1-α)·yᵢ₋₁ + α·xᵢ`. -/
def ewmUGo (a y : ℚ) : List ℚ → List ℚ
  | [] => []
  | x :: t => ((1 - a) * y + a * x) :: ewmUGo a ((1 - a) * y + a * x) t

/-- `ewm(..., adjust=False).mean()` on an all-finite column: `y₀ = x₀`
and the plain recursion afterwards. -/
def ewmU (a : ℚ) : List ℚ → List ℚ
  | [] => []
  | x :: t => x :: ewmUGo a x t

/-- `ewm(..., adjust=False).mean()` on an FV column: NaN rows before
the first observation stay NaN; the first observation starts the
recursion; at a later NaN row the output repeats the current mean and
the state is unchanged (in this code such NaNs occur only at the
head). -/
def ewmUFGo (a : ℚ) : Option (FV ℚ) → List (FV ℚ) → List (FV ℚ)
  | _, [] => []
  | none, FV.nan :: t => FV.nan :: ewmUFGo a none t
  | none, x :: t => x :: ewmUFGo a (some x) t
  | some y, FV.nan :: t => y :: ewmUFGo a (some y) t
  | some y, x :: t =>
      FV.add (FV.mul (FV.fin (1 - a)) y) (FV.mul (FV.fin a) x) ::
        ewmUFGo a
          (some (FV.add (FV.mul (FV.fin (1 - a)) y) (FV.mul (FV.fin a) x))) t

/-- `ewm(..., adjust=False).mean()` on an FV column. -/
def ewmUF (a : ℚ) (xs : List (FV ℚ)) : List (FV ℚ) := ewmUFGo a none xs

/-- `ewm(..., adjust=True).mean()` (the pandas default) with
`ignore_na=False` on an FV column: the weighted numerator and the
weight sum both decay by (1-α) every row, a NaN row contributes
nothing, and the output is their quotient — NaN while no observation
has been seen. -/
def ewmAFGo (a : ℚ) (num : FV ℚ) (den : ℚ) : List (FV ℚ) → List (FV ℚ)
  | [] => []
  | x :: t =>
      (if (1 - a) * den + (match x with | FV.nan => 0 | _ => 1) = 0 then FV.nan
       else FV.div
         (FV.add (FV.mul (FV.fin (1 - a)) num)
           (match x with | FV.nan => FV.fin 0 | v => v))
         (FV.fin ((1 - a) * den + (match x with | FV.nan => 0 | _ => 1)))) ::
      ewmAFGo a
        (FV.add (FV.mul (FV.fin (1 - a)) num)
          (match x with | FV.nan => FV.fin 0 | v => v))
        ((1 - a) * den + (match x with | FV.nan => 0 | _ => 1)) t

/-- `ewm(..., adjust=True).mean()` on an FV column. -/
def ewmAF (a : ℚ) (xs : List (FV ℚ)) : List (FV ℚ) :=
  ewmAFGo a (FV.fin 0) 0 xs

/-- `ewm(com=c, adjust=True).mean()` on an all-finite column for a
smoothing factor α given directly (α = 1/(1+com)): the same
weighted-sum over weight-sum quotient as `ewmAdj`. -/
def ewmAdjA (a : ℚ) (xs : List ℚ) : List ℚ :=
  List.zipWith (· / ·) (ewmScan (1 - a) 0 xs)
    (ewmScan (1 - a) 0 (List.replicate xs.length 1))

/-- `Series.pct_change(k)` on an all-finite column:
`(x[i] - x[i-k]) / x[i-k]`, NaN for the first k rows. -/
def pctChange (k : Nat) (cl : List ℚ) : List (FV ℚ) :=
  (List.range cl.length).map (fun i =>
    if i < k then FV.nan
    else FV.div (FV.fin (nthQ cl i - nthQ cl (i - k)))
      (FV.fin (nthQ cl (i - k))))

/-- `np.percentile(w, q)` with the default linear interpolation: index
`h = q/100·(n-1)` into the sorted window, interpolating between the
two neighbouring order statistics. -/
def percentileNP (q : ℚ) (w : List ℚ) : ℚ :=
  nthQ (w.mergeSort (fun a b => decide (a ≤ b))) (Int.toNat ⌊q / 100 * ((w.length : ℚ) - 1)⌋) +
    (q / 100 * ((w.length : ℚ) - 1) - ((Int.toNat ⌊q / 100 * ((w.length : ℚ) - 1)⌋ : ℚ))) *
      (nthQ (w.mergeSort (fun a b => decide (a ≤ b))) (Int.toNat ⌊q / 100 * ((w.length : ℚ) - 1)⌋ + 1) -
        nthQ (w.mergeSort (fun a b => decide (a ≤ b))) (Int.toNat ⌊q / 100 * ((w.length : ℚ) - 1)⌋))

/-- Slope of `np.polyfit(np.arange(n), w, 1)`: the least-squares slope
over the abscissae 0..n-1. -/
def linSlope (w : List ℚ) : ℚ :=
  ((w.length : ℚ) * (List.zipWith (fun j y => (j : ℚ) * y) (List.range w.length) w).sum -
      ((List.range w.length).map (fun j => (j : ℚ))).sum * w.sum) /
    ((w.length : ℚ) * ((List.range w.length).map (fun j => ((j : ℚ)) ^ 2)).sum -
      ((List.range w.length).map (fun j => (j : ℚ))).sum ^ 2)

/-- Intercept of `np.polyfit(np.arange(n), w, 1)`. -/
def linIntercept (w : List ℚ) : ℚ :=
  (w.sum - linSlope w * ((List.range w.length).map (fun j => (j : ℚ))).sum) /
    (w.length : ℚ)

/-- The quotient `num / (c·std)` of the commodity-channel formulas,
where `std` is the square root of the rolling sample variance and
`c > 0`: variance 0 triggers the numpy division by (positive) zero.
Both operands come from rolling reducers, so each is NaN or finite,
and NaN propagates. -/
noncomputable def stdQuot (c : ℚ) : FV ℚ → FV ℚ → FV ℝ
  | FV.fin x, FV.fin v =>
      if v = 0 then (if x = 0 then FV.nan else FV.inf (decide (0 < x)))
      else FV.fin ((x : ℝ) / ((c : ℝ) * Real.sqrt (v : ℝ)))
  | _, _ => FV.nan

/-- The product `mean · std` of the VAMA columns (rolling mean times
rolling standard deviation); both operands are rolling outputs, hence
NaN or finite, and NaN propagates. -/
noncomputable def meanStdProd : FV ℚ → FV ℚ → FV ℝ
  | FV.fin m, FV.fin v => FV.fin ((m : ℝ) * Real.sqrt (v : ℝ))
  | _, _ => FV.nan

/-- Real-valued view of a cell (every cell is one Python float):
rational cells cast into ℝ, real cells unchanged, strings have none. -/
noncomputable def cellToFVR : Cell → Option (FV ℝ)
  | Cell.num v => some (v.map (fun q : ℚ => (q : ℝ)))
  | Cell.rnum r => some r
  | Cell.str _ => none

/-- Real-valued view of a whole column. -/
noncomputable def colToFVRs : List Cell → Option (List (FV ℝ))
  | [] => some []
  | c :: t => (cellToFVR c).bind (fun v => (colToFVRs t).map (fun vs => v :: vs))

/-- A column-writing method whose columns are computed from the bar
columns alone is idempotent: the second invocation recomputes the same
assignment list. -/
theorem setCols_idem_bars (F : List Bar → List (String × List Cell))
    (t : Table) :
    setCols (setCols t (F t.bars)) (F ((setCols t (F t.bars)).bars)) =
      setCols t (F t.bars) := by
  rw [setCols_bars]
  exact setCols_idem t _

/-- Column of `add_vwap` (line 198): `(Close*Volume).cumsum() /
Volume.fillna(0).cumsum()`.  The Volume column is all-finite, so
`fillna(0)` is the identity on it. -/
def vwapCols (cl vol : List ℚ) : List (String × List Cell) :=
  [("VWAP", fvCol (List.zipWith FV.div
    (finCol (cumsumQ (List.zipWith (· * ·) cl vol)))
    (finCol (cumsumQ vol))))]

/-- `add_vwap` (lines 189-200) as a table transform. -/
def addVwap (t : Table) : Table := setCols t (vwapCols t.closes t.vols)

/-- Column of `add_Accumulation_Distribution` (line 212):
`(2*Close - Low - High)/(High - Low) * Volume`. -/
def accDistCols (cl hi lo vol : List ℚ) : List (String × List Cell) :=
  [("Accumulation_Distribution", fvCol ((List.range cl.length).map (fun i =>
    FV.mul (FV.div (FV.fin (2 * nthQ cl i - nthQ lo i - nthQ hi i))
      (FV.fin (nthQ hi i - nthQ lo i))) (FV.fin (nthQ vol i)))))]

/-- `add_Accumulation_Distribution` (lines 203-214) as a table
transform. -/
def addAccumulationDist (t : Table) : Table :=
  setCols t (accDistCols t.closes t.highs t.lows t.vols)

/-- `Money_Flow_Multiplier` of `add_accumulation_distribution`
(line 243): `(2*Close - High - Low)/(High - Low)`. -/
def adlMfmCol (cl hi lo : List ℚ) : List (FV ℚ) :=
  (List.range cl.length).map (fun i =>
    FV.div (FV.fin (2 * nthQ cl i - nthQ hi i - nthQ lo i))
      (FV.fin (nthQ hi i - nthQ lo i)))

/-- `Money_Flow_Volume` of `add_accumulation_distribution` (line 244). -/
def adlMfvCol (cl hi lo vol : List ℚ) : List (FV ℚ) :=
  List.zipWith FV.mul (adlMfmCol cl hi lo) (finCol vol)

/-- Columns of `add_accumulation_distribution` (lines 243-245); `ADL`
is the cumulative sum of the money-flow volume. -/
def adlCols (cl hi lo vol : List ℚ) : List (String × List Cell) :=
  [("Money_Flow_Multiplier", fvCol (adlMfmCol cl hi lo)),
   ("Money_Flow_Volume", fvCol (adlMfvCol cl hi lo vol)),
   ("ADL", fvCol (cumsumF (adlMfvCol cl hi lo vol)))]

/-- `add_accumulation_distribution` (lines 234-247) as a table
transform. -/
def addAccumulationDistribution (t : Table) : Table :=
  setCols t (adlCols t.closes t.highs t.lows t.vols)

/-- `Stochastic_Oscillator_K` of `add_stochastic_oscillator`
(line 280): `100 * ((Close - Low.rolling(14).min()) /
(High.rolling(14).max() - Low.rolling(14).min()))`. -/
def stochKCol (cl hi lo : List ℚ) : List (FV ℚ) :=
  (List.range cl.length).map (fun i =>
    FV.mul (FV.fin 100) (FV.div
      (FV.sub (FV.fin (nthQ cl i)) (nthF (rollingR 14 listMin lo) i))
      (FV.sub (nthF (rollingR 14 listMax hi) i)
        (nthF (rollingR 14 listMin lo) i))))

/-- Columns of `add_stochastic_oscillator` (lines 280-281). -/
def stochCols (cl hi lo : List ℚ) : List (String × List Cell) :=
  [("Stochastic_Oscillator_K", fvCol (stochKCol cl hi lo)),
   ("Stochastic_Oscillator_D", fvCol (rollingF 3 foldMean (stochKCol cl hi lo)))]

/-- `add_stochastic_oscillator` (lines 271-283) as a table transform. -/
def addStochasticOscillator (t : Table) : Table :=
  setCols t (stochCols t.closes t.highs t.lows)

/-- Column of `add_williams` (line 294): `-100 * ((High.rolling(14).max()
- Close) / (High.rolling(14).max() - Low.rolling(14).min()))`. -/
def williamsCols (cl hi lo : List ℚ) : List (String × List Cell) :=
  [("Williams_R", fvCol ((List.range cl.length).map (fun i =>
    FV.mul (FV.fin (-100)) (FV.div
      (FV.sub (nthF (rollingR 14 listMax hi) i) (FV.fin (nthQ cl i)))
      (FV.sub (nthF (rollingR 14 listMax hi) i)
        (nthF (rollingR 14 listMin lo) i))))))]

/-- `add_williams` (lines 285-296) as a table transform. -/
def addWilliams (t : Table) : Table :=
  setCols t (williamsCols t.closes t.highs t.lows)

/-- `TP` of `add_cci` (line 307): `(High + Low + Close) / 3`. -/
def tpCol (cl hi lo : List ℚ) : List ℚ :=
  (List.range cl.length).map (fun i =>
    (nthQ hi i + nthQ lo i + nthQ cl i) / 3)

/-- `CCI` of `add_cci` (line 308): `(TP - TP.rolling(20).mean()) /
(0.015 * TP.rolling(20).std())`. -/
noncomputable def cciCol (cl hi lo : List ℚ) : List (FV ℝ) :=
  List.zipWith (stdQuot 0.015)
    (List.zipWith FV.sub (finCol (tpCol cl hi lo))
      (rollingR 20 meanQ (tpCol cl hi lo)))
    (rollingR 20 sampleVar (tpCol cl hi lo))

/-- Columns of `add_cci` (lines 307-308). -/
noncomputable def cciCols (cl hi lo : List ℚ) : List (String × List Cell) :=
  [("TP", qCol (tpCol cl hi lo)), ("CCI", rCol (cciCol cl hi lo))]

/-- `add_cci` (lines 298-310) as a table transform. -/
noncomputable def addCci (t : Table) : Table :=
  setCols t (cciCols t.closes t.highs t.lows)

/-- Columns of `add_fibonacci` (lines 321-327): `Close.shift(0)` (the
identity shift) times the exact decimal constants of the source. -/
def fibCols (cl : List ℚ) : List (String × List Cell) :=
  [("Fibonacci_0.236", qCol (cl.map (· * 0.236))),
   ("Fibonacci_0.382", qCol (cl.map (· * 0.382))),
   ("Fibonacci_0.50", qCol (cl.map (· * 0.50))),
   ("Fibonacci_0.618", qCol (cl.map (· * 0.618))),
   ("Fibonacci_1.00", qCol (cl.map (· * 1.00))),
   ("Fibonacci_1.27", qCol (cl.map (· * 1.27))),
   ("Fibonacci_1.618", qCol (cl.map (· * 1.618)))]

/-- `add_fibonacci` (lines 312-329) as a table transform. -/
def addFibonacci (t : Table) : Table := setCols t (fibCols t.closes)

/-- Column of `add_label` (lines 340-341): the nested `np.where` over
the close-to-close comparison; NaN comparisons at row 0 are false, so
that row is `Neutral`. -/
def labelCol (cl : List ℚ) : List String :=
  List.zipWith (fun a b => if FV.gtb a b then "Positive"
    else if FV.gtb b a then "Negative" else "Neutral")
    (finCol cl) (shiftF 1 (finCol cl))

/-- `add_label` (lines 331-343) as a table transform. -/
def addLabel (t : Table) : Table :=
  setCols t [("Label", sCol (labelCol t.closes))]

/-- `add_momentum` (lines 345-356): `Close.diff(10)`. -/
def addMomentum (t : Table) : Table :=
  setCols t [("Momentum_10", fvCol (diffQ 10 t.closes))]

/-- Columns of `add_aroon` (lines 367-368):
`100 * (High.rolling(25).apply(lambda x: list(x).index(max(x))+1) / 25)`
and its Low/min counterpart. -/
def aroonCols (hi lo : List ℚ) : List (String × List Cell) :=
  [("Aroon_Up", fvCol ((rollingR 25
      (fun w => ((idxOfQ (listMax w) w : ℚ) + 1)) hi).map
        (fun v => FV.mul (FV.fin 100) (FV.div v (FV.fin 25))))),
   ("Aroon_Down", fvCol ((rollingR 25
      (fun w => ((idxOfQ (listMin w) w : ℚ) + 1)) lo).map
        (fun v => FV.mul (FV.fin 100) (FV.div v (FV.fin 25)))))]

/-- `add_aroon` (lines 358-370) as a table transform. -/
def addAroon (t : Table) : Table := setCols t (aroonCols t.highs t.lows)

/-- Columns of `add_chaikin_oscillator` (lines 381-382), computed from
the previously stored `ADL` column: its 10-row rolling mean, and that
mean minus `ADL`. -/
def chaikinOscCols (adl : List (FV ℚ)) : List (String × List Cell) :=
  [("ADL_10", fvCol (rollingF 10 foldMean adl)),
   ("Chaikin_Osc", fvCol (List.zipWith FV.sub (rollingF 10 foldMean adl) adl))]

/-- `add_chaikin_oscillator` (lines 372-384) as a table transform: it
reads the derived column `ADL`, raising a `KeyError` (`none`) when the
column is absent. -/
def addChaikinOscillator (t : Table) : Option Table :=
  (lookupCol t "ADL").bind (fun col =>
    (colToFVs col).map (fun adl => setCols t (chaikinOscCols adl)))

/-- `add_trend_line` (lines 386-397): `Close.rolling(20).mean()`. -/
def addTrendLine (t : Table) : Table :=
  setCols t [("Trend_Line", fvCol (rollingR 20 meanQ t.closes))]

/-- `add_Volume_Profile_Analysis` (lines 399-410): `Volume / Close`. -/
def addVolumeProfileAnalysis (t : Table) : Table :=
  setCols t [("Volume_Profile_Analysis",
    fvCol (List.zipWith FV.div (finCol t.vols) (finCol t.closes)))]

/-- Row-wise maximum of `self.data[['High','Low','Close']].max(axis=1)`
(line 505); the bar values are finite, so `skipna` is irrelevant. -/
def maxHLC (cl hi lo : List ℚ) : List ℚ :=
  (List.range cl.length).map (fun i =>
    max (max (nthQ hi i) (nthQ lo i)) (nthQ cl i))

/-- `PDI` of `add_ADX` (line 506): `(PDM / TR) * 100` with
`PDM = High.diff(1)` and `TR` the diff of the row-wise maximum. -/
def pdiCol (cl hi lo : List ℚ) : List (FV ℚ) :=
  List.zipWith (fun a b => FV.mul (FV.div a b) (FV.fin 100))
    (diffQ 1 hi) (diffQ 1 (maxHLC cl hi lo))

/-- `MDI` of `add_ADX` (line 507): `(MDM / TR) * 100` with
`MDM = Low.diff(1)`. -/
def mdiCol (cl hi lo : List ℚ) : List (FV ℚ) :=
  List.zipWith (fun a b => FV.mul (FV.div a b) (FV.fin 100))
    (diffQ 1 lo) (diffQ 1 (maxHLC cl hi lo))

/-- One step of the `ADX` loop (lines 511-515): from `ADX[i-1] = y` and
`a = |PDI[i] - MDI[i]|`, the row becomes `((y*13 + a)/14) + a/2`. -/
def adxGo (y : FV ℚ) : List (FV ℚ) → List (FV ℚ)
  | [] => []
  | a :: t =>
      FV.add (FV.div (FV.add (FV.mul y (FV.fin 13)) a) (FV.fin 14))
        (FV.div a (FV.fin 2)) ::
      adxGo (FV.add (FV.div (FV.add (FV.mul y (FV.fin 13)) a) (FV.fin 14))
        (FV.div a (FV.fin 2))) t

/-- The `ADX` column (lines 510-515): rows 0 and 1 keep the 0.0
initializer, the loop starts at row 2. -/
def adxCol (cl hi lo : List ℚ) : List (FV ℚ) :=
  List.replicate (min 2 cl.length) (FV.fin 0) ++
    adxGo (FV.fin 0)
      ((List.zipWith (fun a b => FV.fabs (FV.sub a b)) (pdiCol cl hi lo)
        (mdiCol cl hi lo)).drop 2)

/-- Columns of `add_ADX` (lines 503-515). -/
def adxCols (cl hi lo : List ℚ) : List (String × List Cell) :=
  [("PDM", fvCol (diffQ 1 hi)), ("MDM", fvCol (diffQ 1 lo)),
   ("TR", fvCol (diffQ 1 (maxHLC cl hi lo))),
   ("PDI", fvCol (pdiCol cl hi lo)), ("MDI", fvCol (mdiCol cl hi lo)),
   ("ADX", fvCol (adxCol cl hi lo))]

/-- `add_ADX` (lines 493-517) as a table transform. -/
def addADX (t : Table) : Table :=
  setCols t (adxCols t.closes t.highs t.lows)

/-- `add_momentum_indicators` (lines 541-553): `Close.diff(12)` and
`Close.diff(26)`. -/
def addMomentumIndicators (t : Table) : Table :=
  setCols t [("Momentum_12", fvCol (diffQ 12 t.closes)),
    ("Momentum_26", fvCol (diffQ 26 t.closes))]

/-- Columns of `add_rsi_divergence` (lines 564-565): rolling means of
the stored `Momentum_12` and `Momentum_26` columns. -/
def rsiDivCols (m12 m26 : List (FV ℚ)) : List (String × List Cell) :=
  [("RSI_Divergence_12", fvCol (rollingF 12 foldMean m12)),
   ("RSI_Divergence_26", fvCol (rollingF 26 foldMean m26))]

/-- `add_rsi_divergence` (lines 555-567) as a table transform: it reads
the derived columns `Momentum_12` and `Momentum_26`, raising a
`KeyError` (`none`) when either is absent. -/
def addRsiDivergence (t : Table) : Option Table :=
  (lookupCol t "Momentum_12").bind (fun c1 =>
    (colToFVs c1).bind (fun m12 =>
      (lookupCol t "Momentum_26").bind (fun c2 =>
        (colToFVs c2).map (fun m26 => setCols t (rsiDivCols m12 m26)))))

/-- `add_parabolic_sar` (lines 569-581): `Close.shift(12)` and
`Close.shift(26)`. -/
def addParabolicSar (t : Table) : Table :=
  setCols t [("Parabolic_SAR_12", fvCol (shiftF 12 (finCol t.closes))),
    ("Parabolic_SAR_26", fvCol (shiftF 26 (finCol t.closes)))]

/-- Columns of `add_bollinger_band_width` (lines 592-593): the shifted
differences of the stored upper and lower Bollinger bands. -/
noncomputable def bbwCols (ub lb : List (FV ℝ)) : List (String × List Cell) :=
  [("Bollinger_Band_Width_12",
      rCol (List.zipWith FV.sub (shiftF 12 ub) (shiftF 12 lb))),
   ("Bollinger_Band_Width_26",
      rCol (List.zipWith FV.sub (shiftF 26 ub) (shiftF 26 lb)))]

/-- `add_bollinger_band_width` (lines 583-595) as a table transform: it
reads the derived columns `Upper_Bollinger_Band` and
`Lower_Bollinger_Band`, raising a `KeyError` (`none`) when either is
absent. -/
noncomputable def addBollingerBandWidth (t : Table) : Option Table :=
  (lookupCol t "Upper_Bollinger_Band").bind (fun cu =>
    (colToFVRs cu).bind (fun ub =>
      (lookupCol t "Lower_Bollinger_Band").bind (fun cb =>
        (colToFVRs cb).map (fun lb => setCols t (bbwCols ub lb)))))

/-- Columns of the surviving `add_ichimoku_kinko_hyo` (lines
1418-1422; the definition at line 598 is shadowed by this one). -/
def ikhCols (cl hi lo : List ℚ) : List (String × List Cell) :=
  [("Ichimoku_Kinko_Hyo_Tenkan_Sen", fvCol (rollingR 9 meanQ hi)),
   ("Ichimoku_Kinko_Hyo_Kijun_Sen", fvCol (rollingR 26 meanQ lo)),
   ("Ichimoku_Kinko_Hyo_Senkou_Span_A", fvCol (shiftF 26
      ((List.zipWith FV.add (rollingR 9 meanQ hi) (rollingR 26 meanQ lo)).map
        (fun v => FV.div v (FV.fin 2))))),
   ("Ichimoku_Kinko_Hyo_Senkou_Span_B", fvCol (shiftF 26
      ((List.zipWith FV.add (rollingR 26 listMax hi)
        (rollingR 26 listMin lo)).map (fun v => FV.div v (FV.fin 2))))),
   ("Ichimoku_Kinko_Hyo_Chikou_Span", fvCol (shiftF 26 (finCol cl)))]

/-- `add_ichimoku_kinko_hyo` (lines 1409-1424) as a table transform. -/
def addIchimokuKinkoHyo (t : Table) : Table :=
  setCols t (ikhCols t.closes t.highs t.lows)

/-- `add_elliott_wave_analysis` (lines 615-629): four rolling means of
Close. -/
def addElliottWaveAnalysis (t : Table) : Table :=
  setCols t [("Impulse_Waves", fvCol (rollingR 5 meanQ t.closes)),
    ("Corrective_Waves", fvCol (rollingR 3 meanQ t.closes)),
    ("Extension_Waves", fvCol (rollingR 7 meanQ t.closes)),
    ("Corrective_Extension_Waves", fvCol (rollingR 9 meanQ t.closes))]

/-- Columns of `add_moving_average_convergence_divergence` (lines
640-642): the span-12/26 adjusted EWM difference (the same lists as
`add_macd`), its span-9 EWM, and the histogram. -/
def macdCdCols (cl : List ℚ) : List (String × List Cell) :=
  [("MACD_12_26", qCol (macdList cl)),
   ("MACD_Signal_9", qCol (signalLine cl)),
   ("MACD_Histogram",
      qCol (List.zipWith (· - ·) (macdList cl) (signalLine cl)))]

/-- `add_moving_average_convergence_divergence` (lines 631-644) as a
table transform. -/
def addMovingAverageConvergenceDivergence (t : Table) : Table :=
  setCols t (macdCdCols t.closes)

/-- `StochRSI_K` of `add_stochRSI` (lines 670-671):
`100 * (Close - Close.rolling(14).min()) / (Close.rolling(14).max() -
Close.rolling(14).min())`. -/
def stochRsiKCol (cl : List ℚ) : List (FV ℚ) :=
  (List.range cl.length).map (fun i =>
    FV.div (FV.mul (FV.fin 100)
      (FV.sub (FV.fin (nthQ cl i)) (nthF (rollingR 14 listMin cl) i)))
      (FV.sub (nthF (rollingR 14 listMax cl) i)
        (nthF (rollingR 14 listMin cl) i)))

/-- `add_stochRSI` (lines 661-674) as a table transform. -/
def addStochRSIMethod (t : Table) : Table :=
  setCols t [("StochRSI_K", fvCol (stochRsiKCol t.closes)),
    ("StochRSI_D", fvCol (rollingF 3 foldMean (stochRsiKCol t.closes)))]

/-- Columns of `add_keltner_channels` (lines 685-687): the 10-row
rolling mean of Close, plus and minus twice the 10-row rolling
standard deviation. -/
noncomputable def keltnerCols (cl : List ℚ) : List (String × List Cell) :=
  [("Keltner_Channel_Mid", fvCol (rollingR 10 meanQ cl)),
   ("Keltner_Channel_Upper", rCol (List.zipWith FV.add
      ((rollingR 10 meanQ cl).map (FV.map (fun q : ℚ => (q : ℝ))))
      ((volCol 10 cl).map (FV.smul 2)))),
   ("Keltner_Channel_Lower", rCol (List.zipWith FV.sub
      ((rollingR 10 meanQ cl).map (FV.map (fun q : ℚ => (q : ℝ))))
      ((volCol 10 cl).map (FV.smul 2))))]

/-- `add_keltner_channels` (lines 676-689) as a table transform. -/
noncomputable def addKeltnerChannels (t : Table) : Table :=
  setCols t (keltnerCols t.closes)

/-- One Gann line (lines 700-706):
`Close + (Close.shift(1) - Close) * c`. -/
def gannLine (c : ℚ) (cl : List ℚ) : List (FV ℚ) :=
  List.zipWith (fun a b => FV.add a (FV.mul (FV.sub b a) (FV.fin c)))
    (finCol cl) (shiftF 1 (finCol cl))

/-- Columns of `add_gann_fan` (lines 700-706). -/
def gannCols (cl : List ℚ) : List (String × List Cell) :=
  [("Gann_Fan_1", fvCol (gannLine 0.5 cl)),
   ("Gann_Fan_2", fvCol (gannLine 0.382 cl)),
   ("Gann_Fan_3", fvCol (gannLine 0.236 cl)),
   ("Gann_Fan_4", fvCol (gannLine 0.618 cl)),
   ("Gann_Fan_5", fvCol (gannLine 1 cl)),
   ("Gann_Fan_6", fvCol (gannLine 1.382 cl)),
   ("Gann_Fan_7", fvCol (gannLine 1.618 cl))]

/-- `add_gann_fan` (lines 691-708) as a table transform. -/
def addGannFan (t : Table) : Table := setCols t (gannCols t.closes)

/-- Columns of `add_triple_exponential_average` (lines 720-725):
`Close.ewm(span=s, adjust=False).mean()` — the plain recursion. -/
def tripleEmaCols (cl : List ℚ) : List (String × List Cell) :=
  [("Triple_EMA_5", qCol (ewmU (ewmAlpha 5) cl)),
   ("Triple_EMA_10", qCol (ewmU (ewmAlpha 10) cl)),
   ("Triple_EMA_20", qCol (ewmU (ewmAlpha 20) cl)),
   ("Triple_EMA_50", qCol (ewmU (ewmAlpha 50) cl)),
   ("Triple_EMA_100", qCol (ewmU (ewmAlpha 100) cl)),
   ("Triple_EMA_200", qCol (ewmU (ewmAlpha 200) cl))]

/-- `add_triple_exponential_average` (lines 711-727) as a table
transform. -/
def addTripleExponentialAverage (t : Table) : Table :=
  setCols t (tripleEmaCols t.closes)

/-- Columns of `add_rate_of_change` (lines 738-743):
`Close.pct_change(k).fillna(0)`. -/
def rocCols (cl : List ℚ) : List (String × List Cell) :=
  [("Rate_of_Change_5", fvCol (fillna0 (pctChange 5 cl))),
   ("Rate_of_Change_10", fvCol (fillna0 (pctChange 10 cl))),
   ("Rate_of_Change_20", fvCol (fillna0 (pctChange 20 cl))),
   ("Rate_of_Change_50", fvCol (fillna0 (pctChange 50 cl))),
   ("Rate_of_Change_100", fvCol (fillna0 (pctChange 100 cl))),
   ("Rate_of_Change_200", fvCol (fillna0 (pctChange 200 cl)))]

/-- `add_rate_of_change` (lines 729-745) as a table transform. -/
def addRateOfChange (t : Table) : Table := setCols t (rocCols t.closes)

/-- The surviving `add_detrended_price_oscillator` (lines 1598-1609;
the definition at line 747 is shadowed):
`Close.shift(1) - Close.rolling(20).mean()`. -/
def addDetrendedPriceOscillator (t : Table) : Table :=
  setCols t [("Detrended_Price_Oscillator",
    fvCol (List.zipWith FV.sub (shiftF 1 (finCol t.closes))
      (rollingR 20 meanQ t.closes)))]

/-- Columns of `add_vortex_indicator` (lines 795-799): the diff
differences with `fillna(0)`, their 14-row rolling sums (the columns
are overwritten in place), and their quotient. -/
def vortexCols (hi lo : List ℚ) : List (String × List Cell) :=
  [("VI_Positive", fvCol (rollingF 14 foldSum
      (List.zipWith FV.sub (fillna0 (diffQ 1 hi)) (fillna0 (diffQ 1 lo))))),
   ("VI_Negative", fvCol (rollingF 14 foldSum
      (List.zipWith FV.sub ((fillna0 (diffQ 1 hi)).map FV.fabs)
        ((fillna0 (diffQ 1 lo)).map FV.fabs)))),
   ("Vortex_Indicator", fvCol (List.zipWith FV.div
      (rollingF 14 foldSum (List.zipWith FV.sub (fillna0 (diffQ 1 hi))
        (fillna0 (diffQ 1 lo))))
      (rollingF 14 foldSum
        (List.zipWith FV.sub ((fillna0 (diffQ 1 hi)).map FV.fabs)
          ((fillna0 (diffQ 1 lo)).map FV.fabs)))))]

/-- `add_vortex_indicator` (lines 786-801) as a table transform. -/
def addVortexIndicator (t : Table) : Table :=
  setCols t (vortexCols t.highs t.lows)

/-- One KST ingredient (lines 812-816):
`Close.rolling(k).mean().diff(k)`. -/
def kstK (k : Nat) (cl : List ℚ) : List (FV ℚ) :=
  diffF k (rollingR k meanQ cl)

/-- Columns of `add_kst_oscillator` (lines 812-817); the oscillator is
the left-associated weighted sum of the five ingredients. -/
def kstCols (cl : List ℚ) : List (String × List Cell) :=
  [("KST_10", fvCol (kstK 10 cl)), ("KST_15", fvCol (kstK 15 cl)),
   ("KST_20", fvCol (kstK 20 cl)), ("KST_30", fvCol (kstK 30 cl)),
   ("KST_50", fvCol (kstK 50 cl)),
   ("KST_Oscillator", fvCol (List.zipWith FV.add (List.zipWith FV.add
      (List.zipWith FV.add (List.zipWith FV.add (kstK 10 cl)
        (mulc 2 (kstK 15 cl))) (mulc 3 (kstK 20 cl)))
      (mulc 4 (kstK 30 cl))) (mulc 5 (kstK 50 cl))))]

/-- `add_kst_oscillator` (lines 803-819) as a table transform. -/
def addKstOscillator (t : Table) : Table := setCols t (kstCols t.closes)

/-- `Money_Flow_Multiplier` of `add_chaikin_money_flow` (line 830):
`((Close - Low) - (High - Close)) / (High - Low)`. -/
def cmfMfmCol (cl hi lo : List ℚ) : List (FV ℚ) :=
  (List.range cl.length).map (fun i =>
    FV.div (FV.fin ((nthQ cl i - nthQ lo i) - (nthQ hi i - nthQ cl i)))
      (FV.fin (nthQ hi i - nthQ lo i)))

/-- Columns of `add_chaikin_money_flow` (lines 830-832). -/
def cmfCols (cl hi lo vol : List ℚ) : List (String × List Cell) :=
  [("Money_Flow_Multiplier", fvCol (cmfMfmCol cl hi lo)),
   ("Money_Flow_Volume",
      fvCol (List.zipWith FV.mul (cmfMfmCol cl hi lo) (finCol vol))),
   ("Chaikin_Money_Flow", fvCol (List.zipWith FV.div
      (rollingF 20 foldSum
        (List.zipWith FV.mul (cmfMfmCol cl hi lo) (finCol vol)))
      (rollingR 20 (fun w => w.sum) vol)))]

/-- `add_chaikin_money_flow` (lines 821-834) as a table transform. -/
def addChaikinMoneyFlow (t : Table) : Table :=
  setCols t (cmfCols t.closes t.highs t.lows t.vols)

/-- `High_Minus_Low` (line 845) — also the `ATR` of
`add_chandelier_exit` (line 1050): `High - Low`. -/
def hmlCol (hi lo : List ℚ) : List ℚ :=
  List.zipWith (fun h l => h - l) hi lo

/-- `High_Minus_Close_Previous` (line 846): `High - Close.shift(1)`. -/
def hmcpCol (cl hi : List ℚ) : List (FV ℚ) :=
  List.zipWith FV.sub (finCol hi) (shiftF 1 (finCol cl))

/-- `Close_Previous_Minus_Low` (line 847): `Close.shift(1) - Low`. -/
def cpmlCol (cl lo : List ℚ) : List (FV ℚ) :=
  List.zipWith FV.sub (shiftF 1 (finCol cl)) (finCol lo)

/-- `True_Range` (line 848): the skipna row-wise maximum of the three
candidate ranges. -/
def adiTrCol (cl hi lo : List ℚ) : List (FV ℚ) :=
  List.zipWith FV.nmax
    (List.zipWith FV.nmax (finCol (hmlCol hi lo)) (hmcpCol cl hi))
    (cpmlCol cl lo)

/-- `DM_Plus` (lines 849, 851): 0, overwritten with `High_Minus_Low`
on the rows where the three elementwise conditions hold (NaN
comparisons are false). -/
def adiDmPlusCol (cl hi lo : List ℚ) : List (FV ℚ) :=
  (List.range hi.length).map (fun i =>
    if decide (0 < nthQ (hmlCol hi lo) i) &&
       FV.gtb (nthF (hmcpCol cl hi) i) (FV.fin 0) &&
       FV.gtb (FV.fin (nthQ (hmlCol hi lo) i)) (nthF (hmcpCol cl hi) i)
    then FV.fin (nthQ (hmlCol hi lo) i) else FV.fin 0)

/-- `DM_Minus` (lines 850, 852). -/
def adiDmMinusCol (cl hi lo : List ℚ) : List (FV ℚ) :=
  (List.range hi.length).map (fun i =>
    if decide (0 < nthQ (hmlCol hi lo) i) &&
       FV.gtb (nthF (cpmlCol cl lo) i) (FV.fin 0) &&
       FV.gtb (FV.fin (nthQ (hmlCol hi lo) i)) (nthF (cpmlCol cl lo) i)
    then FV.fin (nthQ (hmlCol hi lo) i) else FV.fin 0)

/-- `DI_Plus` (line 853): rolling sums quotient. -/
def adiDiPlusCol (cl hi lo : List ℚ) : List (FV ℚ) :=
  List.zipWith FV.div (rollingF 14 foldSum (adiDmPlusCol cl hi lo))
    (rollingF 14 foldSum (adiTrCol cl hi lo))

/-- `DI_Minus` (line 854). -/
def adiDiMinusCol (cl hi lo : List ℚ) : List (FV ℚ) :=
  List.zipWith FV.div (rollingF 14 foldSum (adiDmMinusCol cl hi lo))
    (rollingF 14 foldSum (adiTrCol cl hi lo))

/-- Columns of `add_average_directional_index` (lines 845-855). -/
def adiCols (cl hi lo : List ℚ) : List (String × List Cell) :=
  [("High_Minus_Low", qCol (hmlCol hi lo)),
   ("High_Minus_Close_Previous", fvCol (hmcpCol cl hi)),
   ("Close_Previous_Minus_Low", fvCol (cpmlCol cl lo)),
   ("True_Range", fvCol (adiTrCol cl hi lo)),
   ("DM_Plus", fvCol (adiDmPlusCol cl hi lo)),
   ("DM_Minus", fvCol (adiDmMinusCol cl hi lo)),
   ("DI_Plus", fvCol (adiDiPlusCol cl hi lo)),
   ("DI_Minus", fvCol (adiDiMinusCol cl hi lo)),
   ("Average_Directional_Index", fvCol (List.zipWith (fun a b =>
      FV.mul (FV.fin 100) (FV.div (FV.fabs (FV.sub a b)) (FV.add a b)))
      (adiDiPlusCol cl hi lo) (adiDiMinusCol cl hi lo)))]

/-- `add_average_directional_index` (lines 836-857) as a table
transform. -/
def addAverageDirectionalIndex (t : Table) : Table :=
  setCols t (adiCols t.closes t.highs t.lows)

/-- `Total_TR` of `add_ultimate_oscillator` (lines 868, 872-874): the
0 initializer overwritten by three sequential masked assignments — the
last matching condition wins, and the shifted comparisons at row 0 are
all false. -/
def uoTT (cl hi lo : List ℚ) : List ℚ :=
  (List.range cl.length).map (fun i =>
    if i = 0 then 0
    else if nthQ lo i < nthQ lo (i - 1) then nthQ lo i - nthQ cl (i - 1)
    else if nthQ hi i < nthQ hi (i - 1) then nthQ hi i - nthQ cl (i - 1)
    else if nthQ hi (i - 1) < nthQ hi i then nthQ hi i - nthQ lo i
    else 0)

/-- `BP` of `add_ultimate_oscillator` (lines 869-871). -/
def uoBP (cl : List ℚ) : List ℚ :=
  (List.range cl.length).map (fun i =>
    if i = 0 then 0
    else if nthQ cl i < nthQ cl (i - 1) then 0
    else if nthQ cl (i - 1) < nthQ cl i then nthQ cl i - nthQ cl (i - 1)
    else 0)

/-- `rolling(k).sum() / k` (lines 875-877, 879-881). -/
def uoAvg (k : Nat) (xs : List ℚ) : List (FV ℚ) :=
  (rollingR k (fun w => w.sum) xs).map
    (fun v => FV.div v (FV.fin (k : ℚ)))

/-- The weighted quotient of lines 878 and 882:
`100 * ((4*A7 + 2*A14 + A28) / (4 * Total_TR))`. -/
def uoQuot (a7 a14 a28 : List (FV ℚ)) (den : List ℚ) : List (FV ℚ) :=
  (List.range den.length).map (fun i =>
    FV.mul (FV.fin 100) (FV.div
      (FV.add (FV.add (FV.mul (FV.fin 4) (nthF a7 i))
        (FV.mul (FV.fin 2) (nthF a14 i))) (nthF a28 i))
      (FV.fin (4 * nthQ den i))))

/-- Columns of `add_ultimate_oscillator` (lines 868-882). -/
def uoCols (cl hi lo : List ℚ) : List (String × List Cell) :=
  [("Total_TR", qCol (uoTT cl hi lo)),
   ("BP", qCol (uoBP cl)),
   ("Average_7_TR", fvCol (uoAvg 7 (uoTT cl hi lo))),
   ("Average_14_TR", fvCol (uoAvg 14 (uoTT cl hi lo))),
   ("Average_28_TR", fvCol (uoAvg 28 (uoTT cl hi lo))),
   ("Raw_UO", fvCol (uoQuot (uoAvg 7 (uoTT cl hi lo))
      (uoAvg 14 (uoTT cl hi lo)) (uoAvg 28 (uoTT cl hi lo))
      (uoTT cl hi lo))),
   ("Average_7_BP", fvCol (uoAvg 7 (uoBP cl))),
   ("Average_14_BP", fvCol (uoAvg 14 (uoBP cl))),
   ("Average_28_BP", fvCol (uoAvg 28 (uoBP cl))),
   ("Ultimate_Oscillator", fvCol (uoQuot (uoAvg 7 (uoBP cl))
      (uoAvg 14 (uoBP cl)) (uoAvg 28 (uoBP cl)) (uoTT cl hi lo)))]

/-- `add_ultimate_oscillator` (lines 859-884) as a table transform. -/
def addUltimateOscillator (t : Table) : Table :=
  setCols t (uoCols t.closes t.highs t.lows)

/-- `Linear_Regression_Indicator` (line 897):
`Close - (slope * 14 + intercept)` over the rolling least-squares
fits. -/
def lriCol (cl : List ℚ) : List (FV ℚ) :=
  (List.range cl.length).map (fun i =>
    FV.sub (FV.fin (nthQ cl i))
      (FV.add (FV.mul (nthF (rollingR 14 linSlope cl) i) (FV.fin 14))
        (nthF (rollingR 14 linIntercept cl) i)))

/-- Columns of `add_linear_regression_indicator` (lines 895-897). -/
def lriCols (cl : List ℚ) : List (String × List Cell) :=
  [("Linear_Regression_Slope", fvCol (rollingR 14 linSlope cl)),
   ("Linear_Regression_Intercept", fvCol (rollingR 14 linIntercept cl)),
   ("Linear_Regression_Indicator", fvCol (lriCol cl))]

/-- `add_linear_regression_indicator` (lines 886-899) as a table
transform. -/
def addLinearRegressionIndicator (t : Table) : Table :=
  setCols t (lriCols t.closes)

/-- The `lambda x: 1 if x < 0 else 0` of line 910; the NaN comparison
at row 0 is false, giving 0. -/
def nviStep : FV ℚ → ℚ
  | FV.fin a => if a < 0 then 1 else 0
  | FV.inf b => if b then 0 else 1
  | FV.nan => 0

/-- `add_negative_volume_index` (lines 901-912):
`Volume.diff().apply(...).cumsum()`. -/
def addNegativeVolumeIndex (t : Table) : Table :=
  setCols t [("Negative_Volume_Index",
    qCol (cumsumQ ((diffQ 1 t.vols).map nviStep)))]

/-- `add_mcclellan_oscillator` (lines 914-925):
`Close.diff(19).rolling(19).mean() - Close.diff(39).rolling(39).mean()`. -/
def addMcclellanOscillator (t : Table) : Table :=
  setCols t [("McClellan_Oscillator",
    fvCol (List.zipWith FV.sub (rollingF 19 foldMean (diffQ 19 t.closes))
      (rollingF 39 foldMean (diffQ 39 t.closes))))]

/-- `KAMA` of `add_kaufman_adaptive_moving_average` (line 936):
`Close.ewm(com=2, min_periods=30, adjust=True).mean()` — α = 1/(1+2),
with the first 29 rows masked to NaN by `min_periods=30` (the Close
column is all-finite, so `ignore_na` is irrelevant). -/
def kamaCol (cl : List ℚ) : List (FV ℚ) :=
  (List.range cl.length).map (fun i =>
    if i + 1 < 30 then FV.nan else FV.fin (nthQ (ewmAdjA (1/3) cl) i))

/-- `add_kaufman_adaptive_moving_average` (lines 927-938) as a table
transform. -/
def addKaufmanAdaptiveMovingAverage (t : Table) : Table :=
  setCols t [("KAMA", fvCol (kamaCol t.closes))]

/-- `MACD` of `add_moving_average_of_oscillator` (line 949): the
difference of two `adjust=False` EWMs. -/
def maoMacd (cl : List ℚ) : List ℚ :=
  List.zipWith (· - ·) (ewmU (ewmAlpha 12) cl) (ewmU (ewmAlpha 26) cl)

/-- `add_moving_average_of_oscillator` (lines 940-952) as a table
transform. -/
def addMovingAverageOfOscillator (t : Table) : Table :=
  setCols t [("MACD", qCol (maoMacd t.closes)),
    ("MACD_Signal", fvCol (rollingR 9 meanQ (maoMacd t.closes)))]

/-- `KVO_Low` of `add_klinger_volume_oscillator` (line 964):
`Volume.shift(1).rolling(14).mean()`. -/
def kvoLowCol (vol : List ℚ) : List (FV ℚ) :=
  rollingF 14 foldMean (shiftF 1 (finCol vol))

/-- Columns of `add_klinger_volume_oscillator` (lines 963-965). -/
def kvoCols (vol : List ℚ) : List (String × List Cell) :=
  [("KVO_High", fvCol (rollingR 14 meanQ vol)),
   ("KVO_Low", fvCol (kvoLowCol vol)),
   ("Klinger_Volume_Oscillator", fvCol (List.zipWith (fun a b =>
      FV.mul (FV.fin 100) (FV.div (FV.sub a b) (FV.add a b)))
      (rollingR 14 meanQ vol) (kvoLowCol vol)))]

/-- `add_klinger_volume_oscillator` (lines 954-967) as a table
transform. -/
def addKlingerVolumeOscillator (t : Table) : Table :=
  setCols t (kvoCols t.vols)

/-- The list built by the `add_coppock_curve` loop (lines 978-982):
the absolute close-to-close differences, one per row from row 1 on. -/
def coppockDiffs (cl : List ℚ) : List ℚ :=
  (List.range (cl.length - 1)).map
    (fun j => |nthQ cl (j + 1) - nthQ cl j|)

/-- `Coppock_Curve` (line 984): the 11-row rolling mean of that
(n-1)-row series; assigning it to the n-row frame aligns by index and
leaves NaN at the last row. -/
def coppockCol (cl : List ℚ) : List (FV ℚ) :=
  if cl.length = 0 then []
  else rollingR 11 meanQ (coppockDiffs cl) ++ [FV.nan]

/-- `add_coppock_curve` (lines 969-986) as a table transform. -/
def addCoppockCurve (t : Table) : Table :=
  setCols t [("Coppock_Curve", fvCol (coppockCol t.closes))]

/-- `add_elder_ray_index` (lines 988-1000): `High - Close.shift(1)`
and `Low - Close.shift(1)`. -/
def addElderRayIndex (t : Table) : Table :=
  setCols t [("Bull_Power", fvCol (hmcpCol t.closes t.highs)),
    ("Bear_Power", fvCol (List.zipWith FV.sub (finCol t.lows)
      (shiftF 1 (finCol t.closes))))]

/-- `Force_Index` (line 1012): `(Close - Close.shift(1)) * Volume`. -/
def forceIndexCol (cl vol : List ℚ) : List (FV ℚ) :=
  List.zipWith FV.mul (diffQ 1 cl) (finCol vol)

/-- `add_force_index` (lines 1003-1015): the force index and its
span-13 (adjust=True) EWM. -/
def addForceIndex (t : Table) : Table :=
  setCols t [("Force_Index", fvCol (forceIndexCol t.closes t.vols)),
    ("Force_Index_EMA",
      fvCol (ewmAF (ewmAlpha 13) (forceIndexCol t.closes t.vols)))]

/-- `Signal` of `add_elder_impulse_system` (line 1034): the difference
of the span-12 and span-26 adjusted EWMs of Close. -/
def eiSignal (cl : List ℚ) : List ℚ :=
  List.zipWith (· - ·) (ewmAdj 12 cl) (ewmAdj 26 cl)

/-- `MACD_Histogram` of `add_elder_impulse_system` (line 1035): the
stored `MACD` column minus `Signal`. -/
def eiHist (cl : List ℚ) (macd : List (FV ℚ)) : List (FV ℚ) :=
  List.zipWith FV.sub macd (finCol (eiSignal cl))

/-- Columns of `add_elder_impulse_system` (lines 1032-1037). -/
def eiCols (cl : List ℚ) (macd : List (FV ℚ)) : List (String × List Cell) :=
  [("12-period EMA", qCol (ewmAdj 12 cl)),
   ("26-period EMA", qCol (ewmAdj 26 cl)),
   ("Signal", qCol (eiSignal cl)),
   ("MACD_Histogram", fvCol (eiHist cl macd)),
   ("MACD_Histogram_EMA", fvCol (ewmAF (ewmAlpha 13) (eiHist cl macd))),
   ("MACD_Histogram_EMA_2", fvCol (ewmAF (ewmAlpha 8)
      (ewmAF (ewmAlpha 13) (eiHist cl macd))))]

/-- `add_elder_impulse_system` (lines 1018-1039) as a table transform:
it reads the derived column `MACD`, raising a `KeyError` (`none`) when
it is absent. -/
def addElderImpulseSystem (t : Table) : Option Table :=
  (lookupCol t "MACD").bind (fun cm =>
    (colToFVs cm).map (fun macd => setCols t (eiCols t.closes macd)))

/-- Columns of `add_chandelier_exit` (lines 1050-1052). -/
def chandelierCols (cl hi lo : List ℚ) : List (String × List Cell) :=
  [("ATR", qCol (hmlCol hi lo)),
   ("ATR_EMA", qCol (ewmAdj 13 (hmlCol hi lo))),
   ("Chandelier_Exit", fvCol (List.zipWith FV.sub (shiftF 1 (finCol cl))
      (finCol ((ewmAdj 13 (hmlCol hi lo)).map (· * 3)))))]

/-- `add_chandelier_exit` (lines 1041-1054) as a table transform. -/
def addChandelierExit (t : Table) : Table :=
  setCols t (chandelierCols t.closes t.highs t.lows)

/-- `add_parabolic_sar_adx_combo` (lines 1070-1082):
`Close.shift(1).rolling(2).mean()` and `Close.rolling(3).mean()`. -/
def addParabolicSarAdxCombo (t : Table) : Table :=
  setCols t [("Parabolic_SAR",
      fvCol (rollingF 2 foldMean (shiftF 1 (finCol t.closes)))),
    ("ADX", fvCol (rollingR 3 meanQ t.closes))]

/-- `DMI_Plus` of `add_dmi_stochastic_system` (line 1096): the skipna
row-wise maximum of `High_Minus_Low` and `High_Minus_Previous_Close`. -/
def dmiPlusCol (cl hi lo : List ℚ) : List (FV ℚ) :=
  List.zipWith FV.nmax (finCol (hmlCol hi lo)) (hmcpCol cl hi)

/-- `DMI_Minus` of `add_dmi_stochastic_system` (line 1097): the skipna
row-wise minimum of `High_Minus_Low` and `Low_Minus_Previous_Close`. -/
def dmiMinusCol (cl hi lo : List ℚ) : List (FV ℚ) :=
  List.zipWith FV.nmin (finCol (hmlCol hi lo))
    (List.zipWith FV.sub (finCol lo) (shiftF 1 (finCol cl)))

/-- Columns of `add_dmi_stochastic_system` (lines 1093-1101). -/
def dmiStochCols (cl hi lo : List ℚ) : List (String × List Cell) :=
  [("High_Minus_Low", qCol (hmlCol hi lo)),
   ("High_Minus_Previous_Close", fvCol (hmcpCol cl hi)),
   ("Low_Minus_Previous_Close", fvCol (List.zipWith FV.sub (finCol lo)
      (shiftF 1 (finCol cl)))),
   ("DMI_Plus", fvCol (dmiPlusCol cl hi lo)),
   ("DMI_Minus", fvCol (dmiMinusCol cl hi lo)),
   ("DMI_Plus_MA", fvCol (rollingF 14 foldMean (dmiPlusCol cl hi lo))),
   ("DMI_Minus_MA", fvCol (rollingF 14 foldMean (dmiMinusCol cl hi lo))),
   ("DMI_Diff", fvCol (List.zipWith FV.sub
      (rollingF 14 foldMean (dmiPlusCol cl hi lo))
      (rollingF 14 foldMean (dmiMinusCol cl hi lo)))),
   ("DMI_Diff_MA", fvCol (rollingF 14 foldMean (List.zipWith FV.sub
      (rollingF 14 foldMean (dmiPlusCol cl hi lo))
      (rollingF 14 foldMean (dmiMinusCol cl hi lo)))))]

/-- `add_dmi_stochastic_system` (lines 1084-1103) as a table
transform. -/
def addDmiStochasticSystem (t : Table) : Table :=
  setCols t (dmiStochCols t.closes t.highs t.lows)

/-- Line 1 of `add_andrews_pitchfork` (line 1128):
`Close.shift(2) + (2 * (High - Low))`. -/
def apLine1 (cl hi lo : List ℚ) : List (FV ℚ) :=
  List.zipWith (fun s d => FV.add s (FV.fin (2 * d)))
    (shiftF 2 (finCol cl)) (hmlCol hi lo)

/-- Line 2 of `add_andrews_pitchfork` (line 1129):
`Close.shift(2) - (2 * (High - Low))`. -/
def apLine2 (cl hi lo : List ℚ) : List (FV ℚ) :=
  List.zipWith (fun s d => FV.sub s (FV.fin (2 * d)))
    (shiftF 2 (finCol cl)) (hmlCol hi lo)

/-- Columns of `add_andrews_pitchfork` (lines 1128-1133). -/
def apCols (cl hi lo : List ℚ) : List (String × List Cell) :=
  [("Andrews_Pitchfork_Line_1", fvCol (apLine1 cl hi lo)),
   ("Andrews_Pitchfork_Line_2", fvCol (apLine2 cl hi lo)),
   ("Andrews_Pitchfork_Line_3", fvCol (shiftF 2 (finCol cl))),
   ("Andrews_Pitchfork_Line_1_MA",
      fvCol (rollingF 3 foldMean (apLine1 cl hi lo))),
   ("Andrews_Pitchfork_Line_2_MA",
      fvCol (rollingF 3 foldMean (apLine2 cl hi lo))),
   ("Andrews_Pitchfork_Line_3_MA",
      fvCol (rollingF 3 foldMean (shiftF 2 (finCol cl))))]

/-- `add_andrews_pitchfork` (lines 1119-1135) as a table transform. -/
def addAndrewsPitchfork (t : Table) : Table :=
  setCols t (apCols t.closes t.highs t.lows)

/-- Columns of `add_ichimoku_cloud` (lines 1146-1150). -/
def icCols (cl hi lo : List ℚ) : List (String × List Cell) :=
  [("Tenkan_Sen", fvCol (rollingR 9 meanQ hi)),
   ("Kijun_Sen", fvCol (rollingR 26 meanQ lo)),
   ("Senkou_Span_A", fvCol (shiftF 26
      ((List.zipWith FV.add (rollingR 9 meanQ hi) (rollingR 26 meanQ lo)).map
        (fun v => FV.div v (FV.fin 2))))),
   ("Senkou_Span_B", fvCol (shiftF 26 (rollingR 52 meanQ lo))),
   ("Chikou_Span", fvCol (shiftF 26 (finCol cl)))]

/-- `add_ichimoku_cloud` (lines 1137-1152) as a table transform. -/
def addIchimokuCloud (t : Table) : Table :=
  setCols t (icCols t.closes t.highs t.lows)

/-- `Gain` of `add_relative_strength_index_wilder_smoothing`
(line 1164): `Change.mask(Change < 0, 0)` — rows where the change is
negative become 0, everything else (including the NaN at row 0) is
kept. -/
def wilderGain : FV ℚ → FV ℚ
  | FV.nan => FV.nan
  | FV.inf b => if b then FV.inf true else FV.fin 0
  | FV.fin a => if a < 0 then FV.fin 0 else FV.fin a

/-- `Loss` (line 1165): `Change.mask(Change > 0, 0)` — positive rows
become 0, non-positive rows keep their (negative) value. -/
def wilderLoss : FV ℚ → FV ℚ
  | FV.nan => FV.nan
  | FV.inf b => if b then FV.fin 0 else FV.inf false
  | FV.fin a => if 0 < a then FV.fin 0 else FV.fin a

/-- Columns of `add_relative_strength_index_wilder_smoothing` (lines
1163-1169): the masked gains and losses, their `ewm(com=14)` means
(α = 1/15, adjust=True), their ratio, and the RSI formula. -/
def wilderCols (cl : List ℚ) : List (String × List Cell) :=
  [("Change", fvCol (diffQ 1 cl)),
   ("Gain", fvCol ((diffQ 1 cl).map wilderGain)),
   ("Loss", fvCol ((diffQ 1 cl).map wilderLoss)),
   ("Avg_Gain", fvCol (ewmAF (1/15) ((diffQ 1 cl).map wilderGain))),
   ("Avg_Loss", fvCol (ewmAF (1/15) ((diffQ 1 cl).map wilderLoss))),
   ("RS", fvCol (List.zipWith FV.div
      (ewmAF (1/15) ((diffQ 1 cl).map wilderGain))
      (ewmAF (1/15) ((diffQ 1 cl).map wilderLoss)))),
   ("RSI", fvCol ((List.zipWith FV.div
      (ewmAF (1/15) ((diffQ 1 cl).map wilderGain))
      (ewmAF (1/15) ((diffQ 1 cl).map wilderLoss))).map
        (fun v => FV.sub (FV.fin 100)
          (FV.div (FV.fin 100) (FV.add (FV.fin 1) v)))))]

/-- `add_relative_strength_index_wilder_smoothing` (lines 1154-1171)
as a table transform. -/
def addRelativeStrengthIndexWilderSmoothing (t : Table) : Table :=
  setCols t (wilderCols t.closes)

/-- `add_rainbow_charts` (lines 1182-1186): five rolling means of
Close. -/
def addRainbowCharts (t : Table) : Table :=
  setCols t [("RSI_5", fvCol (rollingR 5 meanQ t.closes)),
    ("RSI_14", fvCol (rollingR 14 meanQ t.closes)),
    ("RSI_21", fvCol (rollingR 21 meanQ t.closes)),
    ("RSI_28", fvCol (rollingR 28 meanQ t.closes)),
    ("RSI_35", fvCol (rollingR 35 meanQ t.closes))]

/-- Columns of `add_market_profile` (lines 1199-1202): rolling 95th /
5th percentiles and their 5-row rolling means. -/
def mpCols (hi lo : List ℚ) : List (String × List Cell) :=
  [("High_Volume", fvCol (rollingR 20 (percentileNP 95) hi)),
   ("Low_Volume", fvCol (rollingR 20 (percentileNP 5) lo)),
   ("High_Volume_Average",
      fvCol (rollingF 5 foldMean (rollingR 20 (percentileNP 95) hi))),
   ("Low_Volume_Average",
      fvCol (rollingF 5 foldMean (rollingR 20 (percentileNP 5) lo)))]

/-- `add_market_profile` (lines 1190-1204) as a table transform. -/
def addMarketProfile (t : Table) : Table :=
  setCols t (mpCols t.highs t.lows)

/-- `MACD` of `add_elder_safe_zone_strategy` (line 1217): the EMA_13 -
EMA_34 difference. -/
def eszMacd (cl : List ℚ) : List ℚ :=
  List.zipWith (· - ·) (ewmAdj 13 cl) (ewmAdj 34 cl)

/-- `Histogram` (line 1219): `MACD - Signal`. -/
def eszHist (cl : List ℚ) : List ℚ :=
  List.zipWith (· - ·) (eszMacd cl) (ewmAdj 9 (eszMacd cl))

/-- Columns of `add_elder_safe_zone_strategy` (lines 1215-1220);
`Safe_Zone` is the rolling `np.percentile(x, 0.5)` (the 0.5th
percentile) of the histogram. -/
def eszCols (cl : List ℚ) : List (String × List Cell) :=
  [("EMA_13", qCol (ewmAdj 13 cl)),
   ("EMA_34", qCol (ewmAdj 34 cl)),
   ("MACD", qCol (eszMacd cl)),
   ("Signal", qCol (ewmAdj 9 (eszMacd cl))),
   ("Histogram", qCol (eszHist cl)),
   ("Safe_Zone", fvCol (rollingR 3 (percentileNP 0.5) (eszHist cl)))]

/-- `add_elder_safe_zone_strategy` (lines 1206-1222) as a table
transform. -/
def addElderSafeZoneStrategy (t : Table) : Table :=
  setCols t (eszCols t.closes)

/-- `rolling(w).mean() ± c·rolling(w).std()` as a real-valued column
(the envelope / channel bands of lines 1233-1238, 1251-1252,
1278-1279, 1435-1436, 1465-1466). -/
noncomputable def bandCol (plus : Bool) (w : Nat) (c : ℚ) (cl : List ℚ) :
    List (FV ℝ) :=
  List.zipWith (if plus then FV.add else FV.sub)
    ((rollingR w meanQ cl).map (FV.map (fun q : ℚ => (q : ℝ))))
    ((volCol w cl).map (FV.smul c))

/-- Columns of `add_moving_average_envelope` (lines 1233-1238). -/
noncomputable def maeCols (cl : List ℚ) : List (String × List Cell) :=
  [("MA_20_Upper", rCol (bandCol true 20 0.03 cl)),
   ("MA_20_Lower", rCol (bandCol false 20 0.03 cl)),
   ("MA_50_Upper", rCol (bandCol true 50 0.03 cl)),
   ("MA_50_Lower", rCol (bandCol false 50 0.03 cl)),
   ("MA_200_Upper", rCol (bandCol true 200 0.03 cl)),
   ("MA_200_Lower", rCol (bandCol false 200 0.03 cl))]

/-- `add_moving_average_envelope` (lines 1224-1240) as a table
transform. -/
noncomputable def addMovingAverageEnvelope (t : Table) : Table :=
  setCols t (maeCols t.closes)

/-- Columns of `add_bollinger_band_squeeze` (lines 1251-1253): the
20/2 bands (the same formula as `add_bollinger_bands`) and their
difference. -/
noncomputable def bbsCols (cl : List ℚ) : List (String × List Cell) :=
  [("BB_Upper", rCol (bandCol true 20 2 cl)),
   ("BB_Lower", rCol (bandCol false 20 2 cl)),
   ("BB_Squeeze", rCol (List.zipWith FV.sub (bandCol true 20 2 cl)
      (bandCol false 20 2 cl)))]

/-- `add_bollinger_band_squeeze` (lines 1242-1255) as a table
transform. -/
noncomputable def addBollingerBandSqueeze (t : Table) : Table :=
  setCols t (bbsCols t.closes)

/-- `add_obvios_momentum_indicator` (lines 1257-1267):
`(Close - Close.shift(1)) * Volume` — the force-index formula. -/
def addObviosMomentumIndicator (t : Table) : Table :=
  setCols t [("OBVios_Momentum", fvCol (forceIndexCol t.closes t.vols))]

/-- The surviving `add_keltner_channel_breakout_system` (lines
1278-1279; the definition at line 1056 is shadowed): the 20/2 bands. -/
noncomputable def addKeltnerChannelBreakoutSystem (t : Table) : Table :=
  setCols t [("Keltner_Channel_Upper_Band", rCol (bandCol true 20 2 t.closes)),
    ("Keltner_Channel_Lower_Band", rCol (bandCol false 20 2 t.closes))]

/-- `add_money_flow_index` (lines 1282-1292): `((High - Low) -
(High.shift(1) - Low.shift(1))) / (High - Low)`. -/
def addMoneyFlowIndex (t : Table) : Table :=
  setCols t [("Money_Flow_Index", fvCol (List.zipWith FV.div
    (List.zipWith FV.sub (finCol (hmlCol t.highs t.lows))
      (List.zipWith FV.sub (shiftF 1 (finCol t.highs))
        (shiftF 1 (finCol t.lows))))
    (finCol (hmlCol t.highs t.lows))))]

/-- `add_donchian_channel_breakout_system` (lines 1294-1305): the
20-row rolling extrema. -/
def addDonchianChannelBreakoutSystem (t : Table) : Table :=
  setCols t [("Donchian_Channel_Upper_Band",
      fvCol (rollingR 20 listMax t.highs)),
    ("Donchian_Channel_Lower_Band", fvCol (rollingR 20 listMin t.lows))]

/-- `add_average_directional_movement_index` (lines 1307-1317):
`(High - High.shift(1)) / (High - Low)`. -/
def addAverageDirectionalMovementIndex (t : Table) : Table :=
  setCols t [("Average_Directional_Movement_Index",
    fvCol (List.zipWith FV.div (diffQ 1 t.highs)
      (finCol (hmlCol t.highs t.lows))))]

/-- `add_commodity_channel_index` (lines 1319-1329):
`(Close - Close.rolling(20).mean()) / (0.015 *
Close.rolling(20).std())`. -/
noncomputable def addCommodityChannelIndex (t : Table) : Table :=
  setCols t [("Commodity_Channel_Index", rCol (List.zipWith (stdQuot 0.015)
    (List.zipWith FV.sub (finCol t.closes) (rollingR 20 meanQ t.closes))
    (rollingR 20 sampleVar t.closes)))]

/-- `add_stochastic_rsi` (lines 1331-1341): `(Close -
Low.rolling(14).min()) / (High.rolling(14).max() -
Low.rolling(14).min())`. -/
def addStochasticRsi (t : Table) : Table :=
  setCols t [("Stochastic_RSI", fvCol ((List.range t.closes.length).map
    (fun i => FV.div
      (FV.sub (FV.fin (nthQ t.closes i)) (nthF (rollingR 14 listMin t.lows) i))
      (FV.sub (nthF (rollingR 14 listMax t.highs) i)
        (nthF (rollingR 14 listMin t.lows) i)))))]

/-- `add_volume_weighted_average_price` (lines 1343-1353):
`(Close * Volume) / Volume.rolling(20).sum()`. -/
def addVolumeWeightedAveragePrice (t : Table) : Table :=
  setCols t [("Volume_Weighted_Average_Price",
    fvCol ((List.range t.closes.length).map (fun i =>
      FV.div (FV.fin (nthQ t.closes i * nthQ t.vols i))
        (nthF (rollingR 20 (fun w => w.sum) t.vols) i))))]

/-- `add_connors_rsi` (lines 1356-1367): `Close.rolling(3).mean() +
2·|diff(1)|.rolling(3).mean() + 3·|diff(2)|.rolling(3).mean()`. -/
def addConnorsRsi (t : Table) : Table :=
  setCols t [("Connors_RSI", fvCol (List.zipWith FV.add
    (List.zipWith FV.add (rollingR 3 meanQ t.closes)
      (mulc 2 (rollingF 3 foldMean ((diffQ 1 t.closes).map FV.fabs))))
    (mulc 3 (rollingF 3 foldMean ((diffQ 2 t.closes).map FV.fabs)))))]

/-- `add_super_trend_indicator` (lines 1369-1380):
`(High + Low)/2 + (High - Low)*0.5`. -/
def addSuperTrendIndicator (t : Table) : Table :=
  setCols t [("Super_Trend", qCol ((List.range t.closes.length).map
    (fun i => (nthQ t.highs i + nthQ t.lows i) / 2 +
      (nthQ t.highs i - nthQ t.lows i) * 0.5)))]

/-- `add_average_true_range_stop` (lines 1383-1394):
`Close.rolling(14).mean() + 2·|Close.diff(1)|.rolling(14).mean()`. -/
def addAverageTrueRangeStop (t : Table) : Table :=
  setCols t [("ATR_Stop", fvCol (List.zipWith FV.add
    (rollingR 14 meanQ t.closes)
    (mulc 2 (rollingF 14 foldMean ((diffQ 1 t.closes).map FV.fabs)))))]

/-- The surviving `add_swing_index` (lines 1396-1407; the definition
at line 1105 is shadowed): `(High - Low.shift(1)) / (High - Low)`. -/
def addSwingIndex (t : Table) : Table :=
  setCols t [("Swing_Index", fvCol (List.zipWith FV.div
    (List.zipWith FV.sub (finCol t.highs) (shiftF 1 (finCol t.lows)))
    (finCol (hmlCol t.highs t.lows))))]

/-- `add_keltner_channel_volatility_breakout_system` (lines
1435-1437): the 20/2 bands and the 20-row mean. -/
noncomputable def addKeltnerChannelVolatilityBreakout (t : Table) : Table :=
  setCols t [("KC_Upper_Band", rCol (bandCol true 20 2 t.closes)),
    ("KC_Lower_Band", rCol (bandCol false 20 2 t.closes)),
    ("KC_Mid_Band", fvCol (rollingR 20 meanQ t.closes))]

/-- `add_triple_screen_trading_system` (lines 1441-1454): three
rolling means. -/
def addTripleScreenTradingSystem (t : Table) : Table :=
  setCols t [("TS_First_Screen", fvCol (rollingR 20 meanQ t.closes)),
    ("TS_Second_Screen", fvCol (rollingR 50 meanQ t.closes)),
    ("TS_Third_Screen", fvCol (rollingR 200 meanQ t.closes))]

/-- `add_standard_deviation_channel` (lines 1456-1469): the 20/2
bands and the 20-row mean. -/
noncomputable def addStandardDeviationChannel (t : Table) : Table :=
  setCols t [("SDC_Upper_Band", rCol (bandCol true 20 2 t.closes)),
    ("SDC_Lower_Band", rCol (bandCol false 20 2 t.closes)),
    ("SDC_Mid_Band", fvCol (rollingR 20 meanQ t.closes))]

/-- `add_adaptive_moving_average` (lines 1471-1482):
`Close.ewm(com=2).mean()` — α = 1/3, adjust=True. -/
def addAdaptiveMovingAverage (t : Table) : Table :=
  setCols t [("Adaptive_MA", qCol (ewmAdjA (1/3) t.closes))]

/-- `CMO` of `add_chande_momentum_oscillator` (line 1493):
`(Close.diff().shift(1) / (High - Low).shift(1)).ewm(span=14).mean()
* 100`. -/
def cmoCol (cl hi lo : List ℚ) : List (FV ℚ) :=
  (ewmAF (ewmAlpha 14) (List.zipWith FV.div (shiftF 1 (diffQ 1 cl))
    (shiftF 1 (finCol (hmlCol hi lo))))).map
      (fun v => FV.mul v (FV.fin 100))

/-- `add_chande_momentum_oscillator` (lines 1484-1495) as a table
transform. -/
def addChandeMomentumOscillator (t : Table) : Table :=
  setCols t [("CMO", fvCol (cmoCol t.closes t.highs t.lows))]

/-- `add_volatility_stop` (lines 1498-1509): `Close.rolling(20).std()`. -/
noncomputable def addVolatilityStop (t : Table) : Table :=
  setCols t [("Volatility_Stop", rCol (volCol 20 t.closes))]

/-- `add_volume_zone_oscillator` (lines 1511-1522):
`Volume.rolling(20).mean()`. -/
def addVolumeZoneOscillator (t : Table) : Table :=
  setCols t [("Volume_Zone_Oscillator", fvCol (rollingR 20 meanQ t.vols))]

/-- One VAMA column (lines 1533-1538):
`Close.rolling(w).mean() * Close.rolling(20).std()`. -/
noncomputable def vamaCol (w : Nat) (cl : List ℚ) : List (FV ℝ) :=
  List.zipWith meanStdProd (rollingR w meanQ cl) (rollingR 20 sampleVar cl)

/-- Columns of `add_vama` (lines 1533-1538). -/
noncomputable def vamaCols (cl : List ℚ) : List (String × List Cell) :=
  [("VAMA_5", rCol (vamaCol 5 cl)), ("VAMA_10", rCol (vamaCol 10 cl)),
   ("VAMA_20", rCol (vamaCol 20 cl)), ("VAMA_50", rCol (vamaCol 50 cl)),
   ("VAMA_100", rCol (vamaCol 100 cl)),
   ("VAMA_200", rCol (vamaCol 200 cl))]

/-- `add_vama` (lines 1524-1540) as a table transform. -/
noncomputable def addVama (t : Table) : Table := setCols t (vamaCols t.closes)

/-- Columns of `add_acceleration_deceleration_oscillator` (lines
1551-1556): `Close.rolling(w).mean() - Close.rolling(35).mean()`. -/
def accDecCols (cl : List ℚ) : List (String × List Cell) :=
  [("AccDecel_Oscillator_5", fvCol (List.zipWith FV.sub
      (rollingR 5 meanQ cl) (rollingR 35 meanQ cl))),
   ("AccDecel_Oscillator_10", fvCol (List.zipWith FV.sub
      (rollingR 10 meanQ cl) (rollingR 35 meanQ cl))),
   ("AccDecel_Oscillator_20", fvCol (List.zipWith FV.sub
      (rollingR 20 meanQ cl) (rollingR 35 meanQ cl))),
   ("AccDecel_Oscillator_50", fvCol (List.zipWith FV.sub
      (rollingR 50 meanQ cl) (rollingR 35 meanQ cl))),
   ("AccDecel_Oscillator_100", fvCol (List.zipWith FV.sub
      (rollingR 100 meanQ cl) (rollingR 35 meanQ cl))),
   ("AccDecel_Oscillator_200", fvCol (List.zipWith FV.sub
      (rollingR 200 meanQ cl) (rollingR 35 meanQ cl)))]

/-- `add_acceleration_deceleration_oscillator` (lines 1542-1558) as a
table transform. -/
def addAccelerationDecelerationOscillator (t : Table) : Table :=
  setCols t (accDecCols t.closes)

/-- `DI_Plus` of `add_directional_movement_index` (lines 1569, 1571):
`High.diff()` clipped below at 0 (the row-0 NaN stays). -/
def dmiDIP (hi : List ℚ) : List (FV ℚ) := (diffQ 1 hi).map FV.clip0

/-- `DI_Minus` (lines 1570, 1572): `-Low.diff()` clipped below at 0. -/
def dmiDIM (lo : List ℚ) : List (FV ℚ) :=
  ((diffQ 1 lo).map FV.fneg).map FV.clip0

/-- `DX` (line 1577): `np.where(DI_Sum > 0, DI_Diff / DI_Sum, 0)` —
the NaN comparison gives 0. -/
def dmiDX (hi lo : List ℚ) : List (FV ℚ) :=
  List.zipWith (fun d s =>
    if FV.gtb s (FV.fin 0) then FV.div d s else FV.fin 0)
    (List.zipWith FV.sub (ewmUF (ewmAlpha 14) (dmiDIP hi))
      (ewmUF (ewmAlpha 14) (dmiDIM lo)))
    (List.zipWith FV.add (ewmUF (ewmAlpha 14) (dmiDIP hi))
      (ewmUF (ewmAlpha 14) (dmiDIM lo)))

/-- Columns of `add_directional_movement_index` (lines 1569-1578);
the EWMs are `span=14, adjust=False`. -/
def dmiCols (hi lo : List ℚ) : List (String × List Cell) :=
  [("DI_Plus", fvCol (dmiDIP hi)),
   ("DI_Minus", fvCol (dmiDIM lo)),
   ("DI_Plus_EMA", fvCol (ewmUF (ewmAlpha 14) (dmiDIP hi))),
   ("DI_Minus_EMA", fvCol (ewmUF (ewmAlpha 14) (dmiDIM lo))),
   ("DI_Diff", fvCol (List.zipWith FV.sub (ewmUF (ewmAlpha 14) (dmiDIP hi))
      (ewmUF (ewmAlpha 14) (dmiDIM lo)))),
   ("DI_Sum", fvCol (List.zipWith FV.add (ewmUF (ewmAlpha 14) (dmiDIP hi))
      (ewmUF (ewmAlpha 14) (dmiDIM lo)))),
   ("DX", fvCol (dmiDX hi lo)),
   ("ADX", fvCol (ewmUF (ewmAlpha 14) (dmiDX hi lo)))]

/-- `add_directional_movement_index` (lines 1560-1580) as a table
transform. -/
def addDirectionalMovementIndex (t : Table) : Table :=
  setCols t (dmiCols t.highs t.lows)

/-- Columns of `add_elder_ray_bull_bear_power` (lines 1591-1594):
bull/bear power and their span-13 `adjust=False` EWMs. -/
def erbbCols (cl hi lo : List ℚ) : List (String × List Cell) :=
  [("Bull_Power", fvCol (hmcpCol cl hi)),
   ("Bear_Power", fvCol (List.zipWith FV.sub (finCol lo)
      (shiftF 1 (finCol cl)))),
   ("Bull_Power_EMA", fvCol (ewmUF (ewmAlpha 13) (hmcpCol cl hi))),
   ("Bear_Power_EMA", fvCol (ewmUF (ewmAlpha 13)
      (List.zipWith FV.sub (finCol lo) (shiftF 1 (finCol cl)))))]

/-- `add_elder_ray_bull_bear_power` (lines 1582-1596) as a table
transform. -/
def addElderRayBullBearPower (t : Table) : Table :=
  setCols t (erbbCols t.closes t.highs t.lows)

/-- Columns of `add_trix_indicator` (lines 1620-1625): three nested
`adjust=False` EWMs per span. -/
def trixCols (cl : List ℚ) : List (String × List Cell) :=
  [("TRIX_5", qCol (ewmU (ewmAlpha 5) (ewmU (ewmAlpha 5)
      (ewmU (ewmAlpha 5) cl)))),
   ("TRIX_10", qCol (ewmU (ewmAlpha 10) (ewmU (ewmAlpha 10)
      (ewmU (ewmAlpha 10) cl)))),
   ("TRIX_20", qCol (ewmU (ewmAlpha 20) (ewmU (ewmAlpha 20)
      (ewmU (ewmAlpha 20) cl)))),
   ("TRIX_50", qCol (ewmU (ewmAlpha 50) (ewmU (ewmAlpha 50)
      (ewmU (ewmAlpha 50) cl)))),
   ("TRIX_100", qCol (ewmU (ewmAlpha 100) (ewmU (ewmAlpha 100)
      (ewmU (ewmAlpha 100) cl)))),
   ("TRIX_200", qCol (ewmU (ewmAlpha 200) (ewmU (ewmAlpha 200)
      (ewmU (ewmAlpha 200) cl))))]

/-- `add_trix_indicator` (lines 1611-1627) as a table transform. -/
def addTrixIndicator (t : Table) : Table := setCols t (trixCols t.closes)

theorem addChaikinOscillator_some (t t' : Table)
    (h : addChaikinOscillator t = some t') :
    t'.bars = t.bars ∧ addChaikinOscillator t' = some t' := by
  rw [addChaikinOscillator] at h
  cases hl : lookupCol t "ADL" with
  | none => rw [hl] at h; simp at h
  | some col =>
    rw [hl] at h
    simp only [Option.some_bind] at h
    cases hm : colToFVs col with
    | none => rw [hm] at h; simp at h
    | some adl =>
      rw [hm] at h
      simp only [Option.map_some'] at h
      have ht' := Option.some.inj h
      subst ht'
      refine ⟨setCols_bars t _, ?_⟩
      rw [addChaikinOscillator]
      simp only [lookupCol_setCols_not_mem (chaikinOscCols adl) t "ADL"
        (by simp [chaikinOscCols]), hl, hm, Option.some_bind,
        Option.map_some']
      exact congrArg some (setCols_idem t _)

theorem addRsiDivergence_some (t t' : Table)
    (h : addRsiDivergence t = some t') :
    t'.bars = t.bars ∧ addRsiDivergence t' = some t' := by
  rw [addRsiDivergence] at h
  cases h1 : lookupCol t "Momentum_12" with
  | none => rw [h1] at h; simp at h
  | some c1 =>
    rw [h1] at h
    simp only [Option.some_bind] at h
    cases h2 : colToFVs c1 with
    | none => rw [h2] at h; simp at h
    | some m12 =>
      rw [h2] at h
      simp only [Option.some_bind] at h
      cases h3 : lookupCol t "Momentum_26" with
      | none => rw [h3] at h; simp at h
      | some c2 =>
        rw [h3] at h
        simp only [Option.some_bind] at h
        cases h4 : colToFVs c2 with
        | none => rw [h4] at h; simp at h
        | some m26 =>
          rw [h4] at h
          simp only [Option.map_some'] at h
          have ht' := Option.some.inj h
          subst ht'
          refine ⟨setCols_bars t _, ?_⟩
          rw [addRsiDivergence]
          simp only [lookupCol_setCols_not_mem (rsiDivCols m12 m26) t
              "Momentum_12" (by simp [rsiDivCols]),
            lookupCol_setCols_not_mem (rsiDivCols m12 m26) t
              "Momentum_26" (by simp [rsiDivCols]),
            h1, h2, h3, h4, Option.some_bind, Option.map_some']
          exact congrArg some (setCols_idem t _)

theorem addBollingerBandWidth_some (t t' : Table)
    (h : addBollingerBandWidth t = some t') :
    t'.bars = t.bars ∧ addBollingerBandWidth t' = some t' := by
  rw [addBollingerBandWidth] at h
  cases h1 : lookupCol t "Upper_Bollinger_Band" with
  | none => rw [h1] at h; simp at h
  | some c1 =>
    rw [h1] at h
    simp only [Option.some_bind] at h
    cases h2 : colToFVRs c1 with
    | none => rw [h2] at h; simp at h
    | some ub =>
      rw [h2] at h
      simp only [Option.some_bind] at h
      cases h3 : lookupCol t "Lower_Bollinger_Band" with
      | none => rw [h3] at h; simp at h
      | some c2 =>
        rw [h3] at h
        simp only [Option.some_bind] at h
        cases h4 : colToFVRs c2 with
        | none => rw [h4] at h; simp at h
        | some lb =>
          rw [h4] at h
          simp only [Option.map_some'] at h
          have ht' := Option.some.inj h
          subst ht'
          refine ⟨setCols_bars t _, ?_⟩
          rw [addBollingerBandWidth]
          simp only [lookupCol_setCols_not_mem (bbwCols ub lb) t
              "Upper_Bollinger_Band" (by simp [bbwCols]),
            lookupCol_setCols_not_mem (bbwCols ub lb) t
              "Lower_Bollinger_Band" (by simp [bbwCols]),
            h1, h2, h3, h4, Option.some_bind, Option.map_some']
          exact congrArg some (setCols_idem t _)

theorem addElderImpulseSystem_some (t t' : Table)
    (h : addElderImpulseSystem t = some t') :
    t'.bars = t.bars ∧ addElderImpulseSystem t' = some t' := by
  rw [addElderImpulseSystem] at h
  cases hl : lookupCol t "MACD" with
  | none => rw [hl] at h; simp at h
  | some col =>
    rw [hl] at h
    simp only [Option.some_bind] at h
    cases hm : colToFVs col with
    | none => rw [hm] at h; simp at h
    | some macd =>
      rw [hm] at h
      simp only [Option.map_some'] at h
      have ht' := Option.some.inj h
      subst ht'
      refine ⟨setCols_bars t _, ?_⟩
      rw [addElderImpulseSystem]
      simp only [lookupCol_setCols_not_mem (eiCols t.closes macd) t "MACD"
          (by simp [eiCols]),
        hl, hm, Option.some_bind, Option.map_some', setCols_closes]
      exact congrArg some (setCols_idem t _)

/-- C8.  Every indicator method of the SwingTrading class leaves the
bar columns — and hence the row count — of the table unchanged, only
writing derived columns; the single exception is `scale_column`, which
additionally deletes exactly its source column (all other columns and
the bars are preserved).  The methods that can raise (the candlestick
loop and the four derived-column readers) preserve the bars whenever
they return.  The five shadowed duplicate definitions of the source
are replaced at class-creation time by their later namesakes, so the
class has exactly the methods listed here. -/
theorem C8_frame_effect :
    (∀ (t t' : Table), addCandlestick t = some t' → t'.bars = t.bars) ∧
    (∀ (t t' : Table), addChaikinOscillator t = some t' → t'.bars = t.bars) ∧
    (∀ (t t' : Table), addRsiDivergence t = some t' → t'.bars = t.bars) ∧
    (∀ (t t' : Table), addBollingerBandWidth t = some t' → t'.bars = t.bars) ∧
    (∀ (t t' : Table), addElderImpulseSystem t = some t' → t'.bars = t.bars) ∧
    (∀ (t t' : Table) (name : String) (p : Nat),
      scaleColumn t name p = some t' →
      t'.bars = t.bars ∧ lookupCol t' name = none ∧
      (∀ m, m ≠ name → m ≠ scaledName p name →
        lookupCol t' m = lookupCol t m)) ∧
    (∀ (n : Nat) (t : Table), (addRollingColumns n t).bars = t.bars) ∧
    (∀ t : Table, (addMovingAverages t).bars = t.bars) ∧
    (∀ t : Table, (addBollingerBands t).bars = t.bars) ∧
    (∀ t : Table, (addMACD t).bars = t.bars) ∧
    (∀ t : Table, (addRSI t).bars = t.bars) ∧
    (∀ t : Table, (addVwap t).bars = t.bars) ∧
    (∀ t : Table, (addAccumulationDist t).bars = t.bars) ∧
    (∀ t : Table, (addVolatility t).bars = t.bars) ∧
    (∀ t : Table, (addAccumulationDistribution t).bars = t.bars) ∧
    (∀ t : Table, (addStochasticOscillator t).bars = t.bars) ∧
    (∀ t : Table, (addWilliams t).bars = t.bars) ∧
    (∀ t : Table, (addCci t).bars = t.bars) ∧
    (∀ t : Table, (addFibonacci t).bars = t.bars) ∧
    (∀ t : Table, (addLabel t).bars = t.bars) ∧
    (∀ t : Table, (addMomentum t).bars = t.bars) ∧
    (∀ t : Table, (addAroon t).bars = t.bars) ∧
    (∀ t : Table, (addTrendLine t).bars = t.bars) ∧
    (∀ t : Table, (addVolumeProfileAnalysis t).bars = t.bars) ∧
    (∀ t : Table, (addADX t).bars = t.bars) ∧
    (∀ t : Table, (addOBV t).bars = t.bars) ∧
    (∀ t : Table, (addMomentumIndicators t).bars = t.bars) ∧
    (∀ t : Table, (addParabolicSar t).bars = t.bars) ∧
    (∀ t : Table, (addElliottWaveAnalysis t).bars = t.bars) ∧
    (∀ t : Table, (addMovingAverageConvergenceDivergence t).bars = t.bars) ∧
    (∀ t : Table, (addOnBalanceVolume t).bars = t.bars) ∧
    (∀ t : Table, (addStochRSIMethod t).bars = t.bars) ∧
    (∀ t : Table, (addKeltnerChannels t).bars = t.bars) ∧
    (∀ t : Table, (addGannFan t).bars = t.bars) ∧
    (∀ t : Table, (addTripleExponentialAverage t).bars = t.bars) ∧
    (∀ t : Table, (addRateOfChange t).bars = t.bars) ∧
    (∀ t : Table, (addMassIndex t).bars = t.bars) ∧
    (∀ t : Table, (addVortexIndicator t).bars = t.bars) ∧
    (∀ t : Table, (addKstOscillator t).bars = t.bars) ∧
    (∀ t : Table, (addChaikinMoneyFlow t).bars = t.bars) ∧
    (∀ t : Table, (addAverageDirectionalIndex t).bars = t.bars) ∧
    (∀ t : Table, (addUltimateOscillator t).bars = t.bars) ∧
    (∀ t : Table, (addLinearRegressionIndicator t).bars = t.bars) ∧
    (∀ t : Table, (addNegativeVolumeIndex t).bars = t.bars) ∧
    (∀ t : Table, (addMcclellanOscillator t).bars = t.bars) ∧
    (∀ t : Table, (addKaufmanAdaptiveMovingAverage t).bars = t.bars) ∧
    (∀ t : Table, (addMovingAverageOfOscillator t).bars = t.bars) ∧
    (∀ t : Table, (addKlingerVolumeOscillator t).bars = t.bars) ∧
    (∀ t : Table, (addCoppockCurve t).bars = t.bars) ∧
    (∀ t : Table, (addElderRayIndex t).bars = t.bars) ∧
    (∀ t : Table, (addForceIndex t).bars = t.bars) ∧
    (∀ t : Table, (addChandelierExit t).bars = t.bars) ∧
    (∀ t : Table, (addParabolicSarAdxCombo t).bars = t.bars) ∧
    (∀ t : Table, (addDmiStochasticSystem t).bars = t.bars) ∧
    (∀ t : Table, (addAndrewsPitchfork t).bars = t.bars) ∧
    (∀ t : Table, (addIchimokuCloud t).bars = t.bars) ∧
    (∀ t : Table, (addRelativeStrengthIndexWilderSmoothing t).bars = t.bars) ∧
    (∀ t : Table, (addRainbowCharts t).bars = t.bars) ∧
    (∀ t : Table, (addMarketProfile t).bars = t.bars) ∧
    (∀ t : Table, (addElderSafeZoneStrategy t).bars = t.bars) ∧
    (∀ t : Table, (addMovingAverageEnvelope t).bars = t.bars) ∧
    (∀ t : Table, (addBollingerBandSqueeze t).bars = t.bars) ∧
    (∀ t : Table, (addObviosMomentumIndicator t).bars = t.bars) ∧
    (∀ t : Table, (addKeltnerChannelBreakoutSystem t).bars = t.bars) ∧
    (∀ t : Table, (addMoneyFlowIndex t).bars = t.bars) ∧
    (∀ t : Table, (addDonchianChannelBreakoutSystem t).bars = t.bars) ∧
    (∀ t : Table, (addAverageDirectionalMovementIndex t).bars = t.bars) ∧
    (∀ t : Table, (addCommodityChannelIndex t).bars = t.bars) ∧
    (∀ t : Table, (addStochasticRsi t).bars = t.bars) ∧
    (∀ t : Table, (addVolumeWeightedAveragePrice t).bars = t.bars) ∧
    (∀ t : Table, (addConnorsRsi t).bars = t.bars) ∧
    (∀ t : Table, (addSuperTrendIndicator t).bars = t.bars) ∧
    (∀ t : Table, (addAverageTrueRangeStop t).bars = t.bars) ∧
    (∀ t : Table, (addSwingIndex t).bars = t.bars) ∧
    (∀ t : Table, (addIchimokuKinkoHyo t).bars = t.bars) ∧
    (∀ t : Table, (addKeltnerChannelVolatilityBreakout t).bars = t.bars) ∧
    (∀ t : Table, (addTripleScreenTradingSystem t).bars = t.bars) ∧
    (∀ t : Table, (addStandardDeviationChannel t).bars = t.bars) ∧
    (∀ t : Table, (addAdaptiveMovingAverage t).bars = t.bars) ∧
    (∀ t : Table, (addChandeMomentumOscillator t).bars = t.bars) ∧
    (∀ t : Table, (addVolatilityStop t).bars = t.bars) ∧
    (∀ t : Table, (addVolumeZoneOscillator t).bars = t.bars) ∧
    (∀ t : Table, (addVama t).bars = t.bars) ∧
    (∀ t : Table, (addAccelerationDecelerationOscillator t).bars = t.bars) ∧
    (∀ t : Table, (addDirectionalMovementIndex t).bars = t.bars) ∧
    (∀ t : Table, (addElderRayBullBearPower t).bars = t.bars) ∧
    (∀ t : Table, (addDetrendedPriceOscillator t).bars = t.bars) ∧
    (∀ t : Table, (addTrixIndicator t).bars = t.bars) := by
  refine ⟨fun t t' h => (addCandlestick_some t t' h).1,
    fun t t' h => (addChaikinOscillator_some t t' h).1,
    fun t t' h => (addRsiDivergence_some t t' h).1,
    fun t t' h => (addBollingerBandWidth_some t t' h).1,
    fun t t' h => (addElderImpulseSystem_some t t' h).1,
    fun t t' name p h => ?_,
    fun n t => setCols_bars t _,
    fun t => setCols_bars t _, fun t => setCols_bars t _,
    fun t => setCols_bars t _, fun t => setCols_bars t _,
    fun t => setCols_bars t _, fun t => setCols_bars t _,
    fun t => setCols_bars t _, fun t => setCols_bars t _,
    fun t => setCols_bars t _, fun t => setCols_bars t _,
    fun t => setCols_bars t _, fun t => setCols_bars t _,
    fun t => setCols_bars t _, fun t => setCols_bars t _,
    fun t => setCols_bars t _, fun t => setCols_bars t _,
    fun t => setCols_bars t _, fun t => setCols_bars t _,
    fun t => setCols_bars t _, fun t => setCols_bars t _,
    fun t => setCols_bars t _, fun t => setCols_bars t _,
    fun t => setCols_bars t _, fun t => setCols_bars t _,
    fun t => setCols_bars t _, fun t => setCols_bars t _,
    fun t => setCols_bars t _, fun t => setCols_bars t _,
    fun t => setCols_bars t _, fun t => setCols_bars t _,
    fun t => setCols_bars t _, fun t => setCols_bars t _,
    fun t => setCols_bars t _, fun t => setCols_bars t _,
    fun t => setCols_bars t _, fun t => setCols_bars t _,
    fun t => setCols_bars t _, fun t => setCols_bars t _,
    fun t => setCols_bars t _, fun t => setCols_bars t _,
    fun t => setCols_bars t _, fun t => setCols_bars t _,
    fun t => setCols_bars t _, fun t => setCols_bars t _,
    fun t => setCols_bars t _, fun t => setCols_bars t _,
    fun t => setCols_bars t _, fun t => setCols_bars t _,
    fun t => setCols_bars t _, fun t => setCols_bars t _,
    fun t => setCols_bars t _, fun t => setCols_bars t _,
    fun t => setCols_bars t _, fun t => setCols_bars t _,
    fun t => setCols_bars t _, fun t => setCols_bars t _,
    fun t => setCols_bars t _, fun t => setCols_bars t _,
    fun t => setCols_bars t _, fun t => setCols_bars t _,
    fun t => setCols_bars t _, fun t => setCols_bars t _,
    fun t => setCols_bars t _, fun t => setCols_bars t _,
    fun t => setCols_bars t _, fun t => setCols_bars t _,
    fun t => setCols_bars t _, fun t => setCols_bars t _,
    fun t => setCols_bars t _, fun t => setCols_bars t _,
    fun t => setCols_bars t _, fun t => setCols_bars t _,
    fun t => setCols_bars t _, fun t => setCols_bars t _,
    fun t => setCols_bars t _, fun t => setCols_bars t _,
    fun t => setCols_bars t _, fun t => setCols_bars t _,
    fun t => setCols_bars t _, fun t => setCols_bars t _,
    fun t => setCols_bars t _⟩
  obtain ⟨hb, hdel, hoth, _⟩ := scaleColumn_spec t t' name p h
  exact ⟨hb, hdel, hoth⟩

/-- Witness for C8 at a concrete input: the two-row example table. -/
theorem C8_witness :
    addCandlestick candleTblEx =
      some (setCols candleTblEx (candleCols [none, some 0])) ∧
    (setCols candleTblEx (candleCols [none, some 0])).bars =
      candleTblEx.bars :=
  ⟨by rfl, C8_frame_effect.1 candleTblEx _ (by rfl)⟩

/-- C9 (amended).  Every indicator method of the class other than
`scale_column` is idempotent: when a call succeeds, invoking the
method again with the same parameters succeeds and reproduces the
identical table (`m (m t) = m t` for the methods that always return,
and `m t = some t' → m t' = some t'` for the methods that can raise);
`scale_column`, however, cannot be invoked twice with the same column
name — the first call deletes the source column, so the second call
always fails. -/
theorem C9_idempotence :
    (∀ (t t' : Table), addCandlestick t = some t' →
      addCandlestick t' = some t') ∧
    (∀ (t t' : Table), addChaikinOscillator t = some t' →
      addChaikinOscillator t' = some t') ∧
    (∀ (t t' : Table), addRsiDivergence t = some t' →
      addRsiDivergence t' = some t') ∧
    (∀ (t t' : Table), addBollingerBandWidth t = some t' →
      addBollingerBandWidth t' = some t') ∧
    (∀ (t t' : Table), addElderImpulseSystem t = some t' →
      addElderImpulseSystem t' = some t') ∧
    (∀ (t : Table) (name : String) (p : Nat),
      (scaleColumn t name p).bind (fun t' => scaleColumn t' name p) =
        none) ∧
    (∀ (n : Nat) (t : Table), addRollingColumns n (addRollingColumns n t) =
      addRollingColumns n t) ∧
    (∀ t : Table, addMovingAverages (addMovingAverages t) =
      addMovingAverages t) ∧
    (∀ t : Table, addBollingerBands (addBollingerBands t) =
      addBollingerBands t) ∧
    (∀ t : Table, addMACD (addMACD t) = addMACD t) ∧
    (∀ t : Table, addRSI (addRSI t) = addRSI t) ∧
    (∀ t : Table, addVwap (addVwap t) = addVwap t) ∧
    (∀ t : Table, addAccumulationDist (addAccumulationDist t) =
      addAccumulationDist t) ∧
    (∀ t : Table, addVolatility (addVolatility t) = addVolatility t) ∧
    (∀ t : Table, addAccumulationDistribution
      (addAccumulationDistribution t) = addAccumulationDistribution t) ∧
    (∀ t : Table, addStochasticOscillator (addStochasticOscillator t) =
      addStochasticOscillator t) ∧
    (∀ t : Table, addWilliams (addWilliams t) = addWilliams t) ∧
    (∀ t : Table, addCci (addCci t) = addCci t) ∧
    (∀ t : Table, addFibonacci (addFibonacci t) = addFibonacci t) ∧
    (∀ t : Table, addLabel (addLabel t) = addLabel t) ∧
    (∀ t : Table, addMomentum (addMomentum t) = addMomentum t) ∧
    (∀ t : Table, addAroon (addAroon t) = addAroon t) ∧
    (∀ t : Table, addTrendLine (addTrendLine t) = addTrendLine t) ∧
    (∀ t : Table, addVolumeProfileAnalysis (addVolumeProfileAnalysis t) =
      addVolumeProfileAnalysis t) ∧
    (∀ t : Table, addADX (addADX t) = addADX t) ∧
    (∀ t : Table, addOBV (addOBV t) = addOBV t) ∧
    (∀ t : Table, addMomentumIndicators (addMomentumIndicators t) =
      addMomentumIndicators t) ∧
    (∀ t : Table, addParabolicSar (addParabolicSar t) = addParabolicSar t) ∧
    (∀ t : Table, addElliottWaveAnalysis (addElliottWaveAnalysis t) =
      addElliottWaveAnalysis t) ∧
    (∀ t : Table, addMovingAverageConvergenceDivergence
      (addMovingAverageConvergenceDivergence t) =
      addMovingAverageConvergenceDivergence t) ∧
    (∀ t : Table, addOnBalanceVolume (addOnBalanceVolume t) =
      addOnBalanceVolume t) ∧
    (∀ t : Table, addStochRSIMethod (addStochRSIMethod t) =
      addStochRSIMethod t) ∧
    (∀ t : Table, addKeltnerChannels (addKeltnerChannels t) =
      addKeltnerChannels t) ∧
    (∀ t : Table, addGannFan (addGannFan t) = addGannFan t) ∧
    (∀ t : Table, addTripleExponentialAverage
      (addTripleExponentialAverage t) = addTripleExponentialAverage t) ∧
    (∀ t : Table, addRateOfChange (addRateOfChange t) = addRateOfChange t) ∧
    (∀ t : Table, addMassIndex (addMassIndex t) = addMassIndex t) ∧
    (∀ t : Table, addVortexIndicator (addVortexIndicator t) =
      addVortexIndicator t) ∧
    (∀ t : Table, addKstOscillator (addKstOscillator t) =
      addKstOscillator t) ∧
    (∀ t : Table, addChaikinMoneyFlow (addChaikinMoneyFlow t) =
      addChaikinMoneyFlow t) ∧
    (∀ t : Table, addAverageDirectionalIndex
      (addAverageDirectionalIndex t) = addAverageDirectionalIndex t) ∧
    (∀ t : Table, addUltimateOscillator (addUltimateOscillator t) =
      addUltimateOscillator t) ∧
    (∀ t : Table, addLinearRegressionIndicator
      (addLinearRegressionIndicator t) = addLinearRegressionIndicator t) ∧
    (∀ t : Table, addNegativeVolumeIndex (addNegativeVolumeIndex t) =
      addNegativeVolumeIndex t) ∧
    (∀ t : Table, addMcclellanOscillator (addMcclellanOscillator t) =
      addMcclellanOscillator t) ∧
    (∀ t : Table, addKaufmanAdaptiveMovingAverage
      (addKaufmanAdaptiveMovingAverage t) =
      addKaufmanAdaptiveMovingAverage t) ∧
    (∀ t : Table, addMovingAverageOfOscillator
      (addMovingAverageOfOscillator t) = addMovingAverageOfOscillator t) ∧
    (∀ t : Table, addKlingerVolumeOscillator
      (addKlingerVolumeOscillator t) = addKlingerVolumeOscillator t) ∧
    (∀ t : Table, addCoppockCurve (addCoppockCurve t) = addCoppockCurve t) ∧
    (∀ t : Table, addElderRayIndex (addElderRayIndex t) =
      addElderRayIndex t) ∧
    (∀ t : Table, addForceIndex (addForceIndex t) = addForceIndex t) ∧
    (∀ t : Table, addChandelierExit (addChandelierExit t) =
      addChandelierExit t) ∧
    (∀ t : Table, addParabolicSarAdxCombo (addParabolicSarAdxCombo t) =
      addParabolicSarAdxCombo t) ∧
    (∀ t : Table, addDmiStochasticSystem (addDmiStochasticSystem t) =
      addDmiStochasticSystem t) ∧
    (∀ t : Table, addAndrewsPitchfork (addAndrewsPitchfork t) =
      addAndrewsPitchfork t) ∧
    (∀ t : Table, addIchimokuCloud (addIchimokuCloud t) =
      addIchimokuCloud t) ∧
    (∀ t : Table, addRelativeStrengthIndexWilderSmoothing
      (addRelativeStrengthIndexWilderSmoothing t) =
      addRelativeStrengthIndexWilderSmoothing t) ∧
    (∀ t : Table, addRainbowCharts (addRainbowCharts t) =
      addRainbowCharts t) ∧
    (∀ t : Table, addMarketProfile (addMarketProfile t) =
      addMarketProfile t) ∧
    (∀ t : Table, addElderSafeZoneStrategy (addElderSafeZoneStrategy t) =
      addElderSafeZoneStrategy t) ∧
    (∀ t : Table, addMovingAverageEnvelope (addMovingAverageEnvelope t) =
      addMovingAverageEnvelope t) ∧
    (∀ t : Table, addBollingerBandSqueeze (addBollingerBandSqueeze t) =
      addBollingerBandSqueeze t) ∧
    (∀ t : Table, addObviosMomentumIndicator
      (addObviosMomentumIndicator t) = addObviosMomentumIndicator t) ∧
    (∀ t : Table, addKeltnerChannelBreakoutSystem
      (addKeltnerChannelBreakoutSystem t) =
      addKeltnerChannelBreakoutSystem t) ∧
    (∀ t : Table, addMoneyFlowIndex (addMoneyFlowIndex t) =
      addMoneyFlowIndex t) ∧
    (∀ t : Table, addDonchianChannelBreakoutSystem
      (addDonchianChannelBreakoutSystem t) =
      addDonchianChannelBreakoutSystem t) ∧
    (∀ t : Table, addAverageDirectionalMovementIndex
      (addAverageDirectionalMovementIndex t) =
      addAverageDirectionalMovementIndex t) ∧
    (∀ t : Table, addCommodityChannelIndex (addCommodityChannelIndex t) =
      addCommodityChannelIndex t) ∧
    (∀ t : Table, addStochasticRsi (addStochasticRsi t) =
      addStochasticRsi t) ∧
    (∀ t : Table, addVolumeWeightedAveragePrice
      (addVolumeWeightedAveragePrice t) = addVolumeWeightedAveragePrice t) ∧
    (∀ t : Table, addConnorsRsi (addConnorsRsi t) = addConnorsRsi t) ∧
    (∀ t : Table, addSuperTrendIndicator (addSuperTrendIndicator t) =
      addSuperTrendIndicator t) ∧
    (∀ t : Table, addAverageTrueRangeStop (addAverageTrueRangeStop t) =
      addAverageTrueRangeStop t) ∧
    (∀ t : Table, addSwingIndex (addSwingIndex t) = addSwingIndex t) ∧
    (∀ t : Table, addIchimokuKinkoHyo (addIchimokuKinkoHyo t) =
      addIchimokuKinkoHyo t) ∧
    (∀ t : Table, addKeltnerChannelVolatilityBreakout
      (addKeltnerChannelVolatilityBreakout t) =
      addKeltnerChannelVolatilityBreakout t) ∧
    (∀ t : Table, addTripleScreenTradingSystem
      (addTripleScreenTradingSystem t) = addTripleScreenTradingSystem t) ∧
    (∀ t : Table, addStandardDeviationChannel
      (addStandardDeviationChannel t) = addStandardDeviationChannel t) ∧
    (∀ t : Table, addAdaptiveMovingAverage (addAdaptiveMovingAverage t) =
      addAdaptiveMovingAverage t) ∧
    (∀ t : Table, addChandeMomentumOscillator
      (addChandeMomentumOscillator t) = addChandeMomentumOscillator t) ∧
    (∀ t : Table, addVolatilityStop (addVolatilityStop t) =
      addVolatilityStop t) ∧
    (∀ t : Table, addVolumeZoneOscillator (addVolumeZoneOscillator t) =
      addVolumeZoneOscillator t) ∧
    (∀ t : Table, addVama (addVama t) = addVama t) ∧
    (∀ t : Table, addAccelerationDecelerationOscillator
      (addAccelerationDecelerationOscillator t) =
      addAccelerationDecelerationOscillator t) ∧
    (∀ t : Table, addDirectionalMovementIndex
      (addDirectionalMovementIndex t) = addDirectionalMovementIndex t) ∧
    (∀ t : Table, addElderRayBullBearPower (addElderRayBullBearPower t) =
      addElderRayBullBearPower t) ∧
    (∀ t : Table, addDetrendedPriceOscillator
      (addDetrendedPriceOscillator t) = addDetrendedPriceOscillator t) ∧
    (∀ t : Table, addTrixIndicator (addTrixIndicator t) =
      addTrixIndicator t) := by
  refine ⟨fun t t' h => (addCandlestick_some t t' h).2,
    fun t t' h => (addChaikinOscillator_some t t' h).2,
    fun t t' h => (addRsiDivergence_some t t' h).2,
    fun t t' h => (addBollingerBandWidth_some t t' h).2,
    fun t t' h => (addElderImpulseSystem_some t t' h).2,
    fun t name p => ?_, fun n t => ?_,
    fun t => ?_, fun t => ?_, fun t => ?_, fun t => ?_, fun t => ?_,
    fun t => ?_, fun t => ?_, fun t => ?_, fun t => ?_, fun t => ?_,
    fun t => ?_, fun t => ?_, fun t => ?_, fun t => ?_, fun t => ?_,
    fun t => ?_, fun t => ?_, fun t => ?_, fun t => ?_, fun t => ?_,
    fun t => ?_, fun t => ?_, fun t => ?_, fun t => ?_, fun t => ?_,
    fun t => ?_, fun t => ?_, fun t => ?_, fun t => ?_, fun t => ?_,
    fun t => ?_, fun t => ?_, fun t => ?_, fun t => ?_, fun t => ?_,
    fun t => ?_, fun t => ?_, fun t => ?_, fun t => ?_, fun t => ?_,
    fun t => ?_, fun t => ?_, fun t => ?_, fun t => ?_, fun t => ?_,
    fun t => ?_, fun t => ?_, fun t => ?_, fun t => ?_, fun t => ?_,
    fun t => ?_, fun t => ?_, fun t => ?_, fun t => ?_, fun t => ?_,
    fun t => ?_, fun t => ?_, fun t => ?_, fun t => ?_, fun t => ?_,
    fun t => ?_, fun t => ?_, fun t => ?_, fun t => ?_, fun t => ?_,
    fun t => ?_, fun t => ?_, fun t => ?_, fun t => ?_, fun t => ?_,
    fun t => ?_, fun t => ?_, fun t => ?_, fun t => ?_, fun t => ?_,
    fun t => ?_, fun t => ?_, fun t => ?_, fun t => ?_, fun t => ?_,
    fun t => ?_⟩
  · cases hs : scaleColumn t name p with
    | none => rfl
    | some t' =>
      show scaleColumn t' name p = none
      obtain ⟨_, hdel, _, _⟩ := scaleColumn_spec t t' name p hs
      rw [scaleColumn, hdel]
      rfl
  all_goals simp only [addRollingColumns, addMovingAverages,
    addBollingerBands, addMACD, addRSI, addVwap, addAccumulationDist,
    addVolatility, addAccumulationDistribution, addStochasticOscillator,
    addWilliams, addCci, addFibonacci, addLabel, addMomentum, addAroon,
    addTrendLine, addVolumeProfileAnalysis, addADX, addOBV,
    addMomentumIndicators, addParabolicSar, addElliottWaveAnalysis,
    addMovingAverageConvergenceDivergence, addOnBalanceVolume,
    addStochRSIMethod, addKeltnerChannels, addGannFan,
    addTripleExponentialAverage, addRateOfChange, addMassIndex,
    addVortexIndicator, addKstOscillator, addChaikinMoneyFlow,
    addAverageDirectionalIndex, addUltimateOscillator,
    addLinearRegressionIndicator, addNegativeVolumeIndex,
    addMcclellanOscillator, addKaufmanAdaptiveMovingAverage,
    addMovingAverageOfOscillator, addKlingerVolumeOscillator,
    addCoppockCurve, addElderRayIndex, addForceIndex, addChandelierExit,
    addParabolicSarAdxCombo, addDmiStochasticSystem, addAndrewsPitchfork,
    addIchimokuCloud, addRelativeStrengthIndexWilderSmoothing,
    addRainbowCharts, addMarketProfile, addElderSafeZoneStrategy,
    addMovingAverageEnvelope, addBollingerBandSqueeze,
    addObviosMomentumIndicator, addKeltnerChannelBreakoutSystem,
    addMoneyFlowIndex, addDonchianChannelBreakoutSystem,
    addAverageDirectionalMovementIndex, addCommodityChannelIndex,
    addStochasticRsi, addVolumeWeightedAveragePrice, addConnorsRsi,
    addSuperTrendIndicator, addAverageTrueRangeStop, addSwingIndex,
    addIchimokuKinkoHyo, addKeltnerChannelVolatilityBreakout,
    addTripleScreenTradingSystem, addStandardDeviationChannel,
    addAdaptiveMovingAverage, addChandeMomentumOscillator,
    addVolatilityStop, addVolumeZoneOscillator, addVama,
    addAccelerationDecelerationOscillator, addDirectionalMovementIndex,
    addElderRayBullBearPower, addDetrendedPriceOscillator,
    addTrixIndicator, setCols_closes, setCols_highs, setCols_lows,
    setCols_vols]
  all_goals exact setCols_idem _ _

/-- Counterexample to C9 as stated: on a one-column table,
`scale_column("A", 2)` succeeds once, but invoking it a second time with
the same parameters fails (the source column `A` was deleted), so the
claim's "in particular this holds for scale_column called twice" is
false. -/
theorem C9_counterexample :
    (scaleColumn { bars := [], derived := [("A", [])] } "A" 2).isSome = true ∧
    (scaleColumn { bars := [], derived := [("A", [])] } "A" 2).bind
      (fun t' => scaleColumn t' "A" 2) = none := by
  constructor
  · rfl
  · cases hs : scaleColumn { bars := [], derived := [("A", [])] } "A" 2 with
    | none => rfl
    | some t' =>
      show scaleColumn t' "A" 2 = none
      obtain ⟨_, hdel, _, _⟩ := scaleColumn_spec _ t' "A" 2 hs
      rw [scaleColumn, hdel]
      rfl

/-- Witness for the amended C9 at a concrete input: re-running the
candlestick method on its own output returns that output. -/
theorem C9_witness :
    addCandlestick candleTblEx =
      some (setCols candleTblEx (candleCols [none, some 0])) ∧
    addCandlestick (setCols candleTblEx (candleCols [none, some 0])) =
      some (setCols candleTblEx (candleCols [none, some 0])) :=
  ⟨by rfl, C9_idempotence.1 candleTblEx _ (by rfl)⟩

/-- C6 (amended).  For `scale_column(col, p)`: rows `i < p` are NaN; for
`i ≥ p` with trailing max `H` and min `L` over the `p` rows strictly
before `i` (current row excluded), the written value is
`(C[i] - L)/(H - L)` when `H ≠ L`; when `H = L` the numpy division by
zero gives NaN only in the 0/0 case `C[i] = L`, and a signed infinity —
not the undefined marker — when `C[i] ≠ L`.  The call writes the
`scaled_{p}_{col}` column and deletes exactly the source column. -/
theorem C6_scale_column :
    (∀ (xs : List ℚ) (p i : Nat), 1 ≤ p → ∀ (hiN : i < xs.length),
      (i < p → (scaleList p (finCol xs))[i]? = some FV.nan) ∧
      (p ≤ i →
        (listMax ((xs.take i).drop (i - p)) ≠
            listMin ((xs.take i).drop (i - p)) →
          (scaleList p (finCol xs))[i]? =
            some (FV.fin ((xs[i] - listMin ((xs.take i).drop (i - p))) /
              (listMax ((xs.take i).drop (i - p)) -
                listMin ((xs.take i).drop (i - p)))))) ∧
        (listMax ((xs.take i).drop (i - p)) =
            listMin ((xs.take i).drop (i - p)) →
          ((xs[i] = listMin ((xs.take i).drop (i - p)) →
              (scaleList p (finCol xs))[i]? = some FV.nan) ∧
            (xs[i] ≠ listMin ((xs.take i).drop (i - p)) →
              (scaleList p (finCol xs))[i]? =
                some (FV.inf
                  (decide (0 < xs[i] -
                    listMin ((xs.take i).drop (i - p)))))))))) ∧
    (∀ (t t' : Table) (name : String) (p : Nat),
      scaleColumn t name p = some t' →
      lookupCol t' name = none ∧ t'.bars = t.bars ∧
      ∃ col xs, lookupCol t name = some col ∧ colToFVs col = some xs ∧
        lookupCol t' (scaledName p name) = some (fvCol (scaleList p xs))) := by
  refine ⟨fun xs p i hp hiN => scaleList_spec xs p i hp hiN,
    fun t t' name p h => ?_⟩
  obtain ⟨hb, hdel, _, hex⟩ := scaleColumn_spec t t' name p h
  exact ⟨hdel, hb, hex⟩

/-- Counterexample to C6 as stated: scaling the column `[1, 2]` with
period 1, the trailing max and min before row 1 coincide (both 1), yet
the written value is +∞ — a defined non-NaN float — rather than the
undefined marker the claim requires. -/
theorem C6_counterexample :
    (scaleList 1 (finCol [1, 2]))[1]? = some (FV.inf true) ∧
    FV.inf true ≠ (FV.nan : FV ℚ) ∧
    listMax ((([1, 2] : List ℚ).take 1).drop 0) =
      listMin ((([1, 2] : List ℚ).take 1).drop 0) := by
  have hmax : listMax ((([1, 2] : List ℚ).take 1).drop 0) = 1 := rfl
  have hmin : listMin ((([1, 2] : List ℚ).take 1).drop 0) = 1 := rfl
  have heq : listMax ((([1, 2] : List ℚ).take 1).drop 0) =
      listMin ((([1, 2] : List ℚ).take 1).drop 0) := by rw [hmax, hmin]
  have h := (scaleList_spec [1, 2] 1 1 le_rfl (by norm_num)).2 le_rfl
  simp only [Nat.sub_self] at h
  have hx : ([1, 2] : List ℚ)[1] = 2 := rfl
  have hne : ([1, 2] : List ℚ)[1] ≠ listMin ((([1, 2] : List ℚ).take 1).drop 0)
      := by
    rw [hx, hmin]
    norm_num
  have hval := (h.2 heq).2 hne
  have hd : decide (0 < ([1, 2] : List ℚ)[1] -
      listMin ((([1, 2] : List ℚ).take 1).drop 0)) = true := by
    rw [decide_eq_true_iff, hx, hmin]
    norm_num
  refine ⟨?_, by simp, heq⟩
  rw [hval]
  exact congrArg some (congrArg FV.inf hd)

/-- Witness for the amended C6 at a concrete input: column `[3, 3, 7]`,
period 2, row 2: the trailing extrema coincide at 3 and the current
value 7 differs, so the cell is +∞. -/
theorem C6_witness :
    ((1 : Nat) ≤ 2 ∧ 2 < ([3, 3, 7] : List ℚ).length) ∧
    (scaleList 2 (finCol [3, 3, 7]))[2]? = some (FV.inf true) := by
  refine ⟨⟨by omega, by norm_num⟩, ?_⟩
  have hmax : listMax ((([3, 3, 7] : List ℚ).take 2).drop 0) = 3 := rfl
  have hmin : listMin ((([3, 3, 7] : List ℚ).take 2).drop 0) = 3 := rfl
  have heq : listMax ((([3, 3, 7] : List ℚ).take 2).drop 0) =
      listMin ((([3, 3, 7] : List ℚ).take 2).drop 0) := by rw [hmax, hmin]
  have h := (C6_scale_column.1 [3, 3, 7] 2 2 (by omega) (by norm_num)).2
    (by omega)
  simp only [Nat.sub_self] at h
  have hx : ([3, 3, 7] : List ℚ)[2] = 7 := rfl
  have hne : ([3, 3, 7] : List ℚ)[2] ≠
      listMin ((([3, 3, 7] : List ℚ).take 2).drop 0) := by
    rw [hx, hmin]
    norm_num
  have hval := (h.2 heq).2 hne
  have hd : decide (0 < ([3, 3, 7] : List ℚ)[2] -
      listMin ((([3, 3, 7] : List ℚ).take 2).drop 0)) = true := by
    rw [decide_eq_true_iff, hx, hmin]
    norm_num
  rw [hval]
  exact congrArg some (congrArg FV.inf hd)

/-- Witness for C1 at a concrete input: column 1..25, `MA_5` at row 4
equals the mean of rows 0..4. -/
theorem C1_witness :
    ((5 = 5 ∨ 5 = 10 ∨ 5 = 20 ∨ 5 = 50 ∨ 5 = 100 ∨ 5 = 200) ∧
      4 < closes25.length) ∧
    (maCol 5 closes25)[4]? = some (FV.fin (meanQ (windowAt 5 4 closes25))) :=
  ⟨⟨Or.inl rfl, by decide⟩,
    ((C1_windowed_statistics.1 closes25 5 4 (Or.inl rfl) (by decide)).2
      (by omega)).1⟩

end SwingTrading
